import Mathlib

/-!
# TuTurnoYa: court availability, pricing and booking ledger

A shallow embedding of the scheduling core of the TuTurnoYa backend
(`src/backend/models/Court.js`, `src/backend/models/Booking.js`,
`src/backend/routes/bookings.js`) together with the part of the JavaScript
runtime these functions rely on (IEEE-754 binary64 arithmetic, `parseInt`,
`Number.prototype.toFixed`, `Date`, `Intl` weekday formatting).

Layout: the runtime model, then the court model and its methods, then the
booking ledger; the theorems follow the definitions.
-/

namespace TuTurnoYa

/-! ## JavaScript runtime: errors and numbers -/

/-- Ways an evaluation can stop without a value. `typeError` and `rangeError`
are the JavaScript exceptions of those names; `outOfFuel` is not a JavaScript
error: it marks a bounded unrolling of a `for` loop that ran out of iterations. -/
inductive JsError where
  | typeError
  | rangeError
  | outOfFuel
  deriving DecidableEq

/-- Equality of outcomes is decidable when it is for errors and values. -/
instance instDecidableEqExcept {ε α : Type} [DecidableEq ε] [DecidableEq α] :
    DecidableEq (Except ε α)
  | .ok a, .ok b => if h : a = b then isTrue (by rw [h]) else isFalse (by intro h1; cases h1; exact h rfl)
  | .error a, .error b =>
    if h : a = b then isTrue (by rw [h]) else isFalse (by intro h1; cases h1; exact h rfl)
  | .ok _, .error _ => isFalse (by intro h; cases h)
  | .error _, .ok _ => isFalse (by intro h; cases h)

/-- A JavaScript number. Finite values carry their exact rational value; the two
zeros are identified (nothing modelled here observes the sign of zero). -/
inductive JsNum where
  | nan
  | inf (negative : Bool)
  | fin (q : ℚ)
  deriving DecidableEq

namespace JsNum

/-- Unary minus. -/
def neg : JsNum → JsNum
  | nan => nan
  | inf s => inf (!s)
  | fin q => fin (-q)

end JsNum

/-- Auxiliary for `bitLen`, with explicit fuel. -/
def bitLenAux : Nat → Nat → Nat
  | 0, _ => 0
  | fuel + 1, n => if n = 0 then 0 else bitLenAux fuel (n / 2) + 1

/-- Number of binary digits of `n` (`0` for `0`). -/
def bitLen (n : Nat) : Nat := bitLenAux n n

/-- Two to an integer power, as a rational. -/
def pow2 (e : Int) : ℚ :=
  if 0 ≤ e then ((2 ^ e.toNat : Nat) : ℚ) else 1 / ((2 ^ (-e).toNat : Nat) : ℚ)

/-- For `q > 0`: the integer `e` with `2^e ≤ q < 2^(e+1)`. -/
def floorLog2 (q : ℚ) : Int :=
  let e0 : Int := (bitLen q.num.natAbs : Int) - (bitLen q.den : Int)
  if pow2 e0 ≤ q then e0 else e0 - 1

/-- Nearest integer, ties to the even neighbour. -/
def roundHalfEven (q : ℚ) : Int :=
  let f := ⌊q⌋
  let r := q - f
  if r < 1 / 2 then f else if 1 / 2 < r then f + 1 else if f % 2 = 0 then f else f + 1

/-- Round a positive rational to binary64: 53 significant bits, round to nearest,
ties to even, gradual underflow below `2^-1022`, overflow to `Infinity`. -/
def flPos (q : ℚ) : JsNum :=
  let e := max (floorLog2 q) (-1022)
  let ulp := pow2 (e - 52)
  let r := (roundHalfEven (q / ulp) : ℚ) * ulp
  if pow2 1024 ≤ r then .inf false else .fin r

/-- The binary64 value nearest to a rational: the result of reading a decimal
literal or of rounding an exact arithmetic result. -/
def fl (q : ℚ) : JsNum :=
  if q = 0 then .fin 0 else if 0 < q then flPos q else (flPos (-q)).neg

namespace JsNum

/-- JavaScript `*`. -/
def mul : JsNum → JsNum → JsNum
  | nan, _ => nan
  | _, nan => nan
  | inf s, inf t => inf (s != t)
  | inf s, fin q => if q = 0 then nan else inf (s != decide (q < 0))
  | fin q, inf s => if q = 0 then nan else inf (s != decide (q < 0))
  | fin a, fin b => fl (a * b)

/-- JavaScript `/` (a zero divisor counts as `+0`). -/
def div : JsNum → JsNum → JsNum
  | nan, _ => nan
  | _, nan => nan
  | inf _, inf _ => nan
  | inf s, fin q => inf (s != decide (q < 0))
  | fin _, inf _ => fin 0
  | fin a, fin b =>
    if b = 0 then (if a = 0 then nan else inf (decide (a < 0))) else fl (a / b)

/-- JavaScript `+` on numbers. -/
def add : JsNum → JsNum → JsNum
  | nan, _ => nan
  | _, nan => nan
  | inf s, inf t => if s = t then inf s else nan
  | inf s, fin _ => inf s
  | fin _, inf s => inf s
  | fin a, fin b => fl (a + b)

/-- JavaScript `<` on numbers (false as soon as one side is `NaN`). -/
def lt : JsNum → JsNum → Bool
  | nan, _ => false
  | _, nan => false
  | inf s, inf t => s && !t
  | inf s, fin _ => s
  | fin _, inf s => !s
  | fin a, fin b => decide (a < b)

/-- JavaScript `>=` on numbers (false as soon as one side is `NaN`). -/
def ge : JsNum → JsNum → Bool
  | nan, _ => false
  | _, nan => false
  | a, b => !(lt a b)

/-- JavaScript `===` on numbers (`NaN` equals nothing). -/
def strictEq : JsNum → JsNum → Bool
  | nan, _ => false
  | _, nan => false
  | a, b => decide (a = b)

end JsNum

/-! ## JavaScript runtime: number formatting and parsing -/

/-- Ten to an integer power, as a rational. -/
def pow10 (e : Int) : ℚ :=
  if 0 ≤ e then ((10 ^ e.toNat : Nat) : ℚ) else 1 / ((10 ^ (-e).toNat : Nat) : ℚ)

/-- Decimal digits of a natural number, most significant first. -/
def natDigits (n : Nat) : List Char := Nat.toDigits 10 n

/-- For `q > 0`: the integer `n` with `10^(n-1) ≤ q < 10^n`. -/
def decExp (q : ℚ) : Int :=
  let n0 : Int := ((natDigits q.num.natAbs).length : Int) - ((natDigits q.den).length : Int)
  if pow10 n0 ≤ q then n0 + 1 else n0

/-- Search, for `k = k0, k0+1, ...`, the first digit count `k` for which some
integer `s` with `10^(k-1) ≤ s ≤ 10^k` has `s × 10^(n-k)` read back as `q`; among
two such `s` the one nearer to `q` (the even one on a tie). The result is
`(k, s, n)`, with `s = 10^k` renormalised to `10^(k-1)` and `n + 1`. -/
def shortestDigits (q : ℚ) (n : Int) : Nat → Nat → Option (Nat × Nat × Int)
  | 0, _ => none
  | fuel + 1, k =>
    let scale := pow10 (n - k)
    let lo := ⌊q / scale⌋.toNat
    let reads := fun (c : Nat) =>
      decide (10 ^ (k - 1) ≤ c) && decide (c ≤ 10 ^ k) && decide (fl ((c : ℚ) * scale) = .fin q)
    let norm := fun (c : Nat) => if c = 10 ^ k then (k, 10 ^ (k - 1), n + 1) else (k, c, n)
    let d := q / scale - (lo : ℚ)
    match reads lo, reads (lo + 1) with
    | true, true =>
      if d < 1 / 2 then some (norm lo) else if 1 / 2 < d then some (norm (lo + 1))
      else if lo % 2 = 0 then some (norm lo) else some (norm (lo + 1))
    | true, false => some (norm lo)
    | false, true => some (norm (lo + 1))
    | false, false => shortestDigits q n fuel (k + 1)

/-- Text of a positive finite number, after `Number::toString` (radix 10): with
`k` digits `s` and decimal exponent `n` as found by `shortestDigits`, plain
digits when `k ≤ n ≤ 21`, a decimal point inside when `0 < n ≤ 21`, leading
`0.` and zeros when `-6 < n ≤ 0`, exponent form otherwise. -/
def positiveToString (q : ℚ) : List Char :=
  let n0 := decExp q
  let found := (shortestDigits q n0 17 1).getD
    (17, (roundHalfEven (q / pow10 (n0 - 17))).toNat, n0)
  let k := found.1
  let ds := natDigits found.2.1
  let n := found.2.2
  let expPart : List Char :=
    (if 0 ≤ n - 1 then [Char.ofNat 101, Char.ofNat 43] else [Char.ofNat 101, Char.ofNat 45])
      ++ natDigits (n - 1).natAbs
  if (k : Int) ≤ n ∧ n ≤ 21 then ds ++ List.replicate (n - k).toNat (Char.ofNat 48)
  else if 0 < n ∧ n ≤ 21 then ds.take n.toNat ++ [Char.ofNat 46] ++ ds.drop n.toNat
  else if -6 < n ∧ n ≤ 0 then
    [Char.ofNat 48, Char.ofNat 46] ++ List.replicate (-n).toNat (Char.ofNat 48) ++ ds
  else if k = 1 then ds ++ expPart
  else ds.take 1 ++ [Char.ofNat 46] ++ ds.drop 1 ++ expPart

/-- `Number.prototype.toString()` (radix 10). -/
def numberToString : JsNum → String
  | .nan => "NaN"
  | .inf false => "Infinity"
  | .inf true => "-Infinity"
  | .fin q =>
    if q = 0 then "0"
    else if 0 < q then String.mk (positiveToString q)
    else String.mk (Char.ofNat 45 :: positiveToString (-q))

/-- `String.prototype.padStart(2, "0")`. -/
def padStart2 (s : String) : String :=
  String.mk (List.replicate (2 - s.data.length) (Char.ofNat 48) ++ s.data)

/-- What `Number.prototype.toFixed(2)` returns, kept structured: `fixed2 neg n`
is the text of `n / 100` with exactly two decimals (preceded by `-` when `neg`),
`shortest q` is the text `Number::toString` gives for `q`. -/
inductive NumText where
  | nan
  | infinity (negative : Bool)
  | fixed2 (negative : Bool) (hundredths : Nat)
  | shortest (q : ℚ)
  deriving DecidableEq

/-- `Number.prototype.toFixed(2)`: below `10^21` in magnitude the integer `n`
with `n / 100` closest to `|x|` is taken, the larger one when two are equally
close; from `10^21` on (and for non-finite values) the result is `toString`. -/
def toFixed2 : JsNum → NumText
  | .nan => .nan
  | .inf s => .infinity s
  | .fin q =>
    if (10 : ℚ) ^ 21 ≤ |q| then .shortest q
    else .fixed2 (decide (q < 0)) ⌊|q| * 100 + 1 / 2⌋.toNat

/-- `parseFloat` on a text produced by `toFixed2`: the binary64 value nearest to
the decimal shown; a `toString` text reads back as the number it came from. -/
def parseFloat : NumText → JsNum
  | .nan => .nan
  | .infinity s => .inf s
  | .fixed2 neg n => if neg then (fl ((n : ℚ) / 100)).neg else fl ((n : ℚ) / 100)
  | .shortest q => .fin q

/-- Code units that `parseInt` skips in front (white space and line terminators). -/
def isJsWhiteSpace (c : Char) : Bool :=
  [9, 10, 11, 12, 13, 32, 160, 5760, 8232, 8233, 8239, 8287, 12288, 65279].contains c.toNat
    || (8192 ≤ c.toNat && c.toNat ≤ 8202)

/-- Value of a character as a digit in the given radix. -/
def digitValue (radix : Nat) (c : Char) : Option Nat :=
  let n := c.toNat
  let v : Option Nat :=
    if 48 ≤ n ∧ n ≤ 57 then some (n - 48)
    else if 97 ≤ n ∧ n ≤ 122 then some (n - 87)
    else if 65 ≤ n ∧ n ≤ 90 then some (n - 55)
    else none
  v.bind fun d => if d < radix then some d else none

/-- `parseInt(s)` with no radix argument: leading white space is skipped, then an
optional sign, then a `0x` prefix selects radix 16, then the longest run of
digits is read; no digit gives `NaN`. -/
def parseInt (s : List Char) : JsNum :=
  let s1 := s.dropWhile isJsWhiteSpace
  let signed : Bool × List Char :=
    match s1 with
    | c :: t => if c = Char.ofNat 45 then (true, t) else if c = Char.ofNat 43 then (false, t)
                else (false, s1)
    | [] => (false, s1)
  let based : Nat × List Char :=
    match signed.2 with
    | a :: b :: t =>
      if a = Char.ofNat 48 ∧ (b = Char.ofNat 120 ∨ b = Char.ofNat 88) then (16, t)
      else (10, signed.2)
    | _ => (10, signed.2)
  let ds := based.2.takeWhile fun c => (digitValue based.1 c).isSome
  if ds = [] then .nan
  else
    let n : Nat := ds.foldl (fun acc c => acc * based.1 + (digitValue based.1 c).getD 0) 0
    if signed.1 then (fl (n : ℚ)).neg else fl (n : ℚ)

/-- The text before the first colon: `s.split(":")[0]`. -/
def splitColonHead (s : String) : List Char :=
  s.data.takeWhile fun c => c != Char.ofNat 58

/-- JavaScript `<` on two strings: lexicographic on code units. -/
def strLtList : List Char → List Char → Bool
  | [], [] => false
  | [], _ :: _ => true
  | _ :: _, [] => false
  | a :: as, b :: bs =>
    if a.toNat < b.toNat then true else if b.toNat < a.toNat then false else strLtList as bs

/-- JavaScript `a < b` on strings. -/
def strLt (a b : String) : Bool := strLtList a.data b.data

/-- JavaScript `a > b` on strings. -/
def strGt (a b : String) : Bool := strLt b a

/-- JavaScript `a <= b` on strings. -/
def strLe (a b : String) : Bool := !(strLt b a)

/-- JavaScript `a >= b` on strings. -/
def strGe (a b : String) : Bool := !(strLt a b)

/-! ## JavaScript runtime: dates -/

/-- What the code reads from its host: the offset of local time from UTC, in
minutes (`-180` for UTC-03:00). `Date.prototype.getDay` and the `Intl`
formatters work in local time, `toISOString` and the parsing of a date-only
string `YYYY-MM-DD` in UTC. -/
structure Env where
  tzOffsetMinutes : Int

/-- A `Date` object: its time value in milliseconds since the epoch, or `none`
for an Invalid Date. -/
abbrev JsDate := Option Int

/-- Milliseconds in a day. -/
def msPerDay : Int := 86400000

/-- Days from 1970-01-01 to the given proleptic Gregorian date. -/
def daysFromCivil (y : Int) (m d : Nat) : Int :=
  let y1 : Int := if m ≤ 2 then y - 1 else y
  let era : Int := y1 / 400
  let yoe : Int := y1 - era * 400
  let mp : Int := if 2 < m then (m : Int) - 3 else (m : Int) + 9
  let doy : Int := (153 * mp + 2) / 5 + (d : Int) - 1
  let doe : Int := yoe * 365 + yoe / 4 - yoe / 100 + doy
  era * 146097 + doe - 719468

/-- The proleptic Gregorian date (year, month, day) of a day number. -/
def civilFromDays (z : Int) : Int × Nat × Nat :=
  let z1 := z + 719468
  let era := z1 / 146097
  let doe := z1 - era * 146097
  let yoe := (doe - doe / 1460 + doe / 36524 - doe / 146096) / 365
  let doy := doe - (365 * yoe + yoe / 4 - yoe / 100)
  let mp := (5 * doy + 2) / 153
  let d := doy - (153 * mp + 2) / 5 + 1
  let m := if mp < 10 then mp + 3 else mp - 9
  let y := yoe + era * 400
  (if m ≤ 2 then y + 1 else y, m.toNat, d.toNat)

/-- The `Date` that `new Date("YYYY-MM-DD")` builds for a calendar date: a
date-only string denotes midnight UTC of that day. -/
def dateOnly (y : Int) (m d : Nat) : JsDate :=
  some (daysFromCivil y m d * msPerDay)

/-- Weekday of a day number, `0` for Sunday to `6` for Saturday (1970-01-01 was
a Thursday). -/
def weekDay (day : Int) : Nat := ((day + 4) % 7).toNat

/-- The local day number of a time value. -/
def localDay (env : Env) (t : Int) : Int := (t + env.tzOffsetMinutes * 60000) / msPerDay

/-- `Date.prototype.getDay()`: weekday in local time, `NaN` for an Invalid Date. -/
def getDay (env : Env) : JsDate → JsNum
  | none => .nan
  | some t => .fin (weekDay (localDay env t))

/-- Left-pad the decimal digits of `n` with zeros to `width` characters. -/
def padDigits (width n : Nat) : List Char :=
  List.replicate (width - (natDigits n).length) (Char.ofNat 48) ++ natDigits n

/-- `date.toISOString().split("T")[0]`: the UTC calendar date as `YYYY-MM-DD`
(six-digit signed years outside 0..9999); a `RangeError` on an Invalid Date. -/
def toISODate : JsDate → Except JsError String
  | none => .error .rangeError
  | some t =>
    let ymd := civilFromDays (t / msPerDay)
    let year : List Char :=
      if 0 ≤ ymd.1 ∧ ymd.1 ≤ 9999 then padDigits 4 ymd.1.toNat
      else (if ymd.1 < 0 then Char.ofNat 45 else Char.ofNat 43) :: padDigits 6 ymd.1.natAbs
    .ok (String.mk (year ++ [Char.ofNat 45] ++ padDigits 2 ymd.2.1 ++ [Char.ofNat 45]
      ++ padDigits 2 ymd.2.2))

/-- English weekday names as `Intl.DateTimeFormat("en-US", { weekday })` prints
them, for the three values the `weekday` option admits. -/
def weekdayName (style : String) (wd : Nat) : String :=
  let long := ["Sunday", "Monday", "Tuesday", "Wednesday", "Thursday", "Friday", "Saturday"]
  let short := ["Sun", "Mon", "Tue", "Wed", "Thu", "Fri", "Sat"]
  let narrow := ["S", "M", "T", "W", "T", "F", "S"]
  if style = "long" then long.getD wd "" else if style = "short" then short.getD wd ""
  else narrow.getD wd ""

/-- `date.toLocaleDateString("en-US", { weekday: style })`. An Invalid Date gives
the text `Invalid Date` before the options are read. Otherwise the options go
to `Intl.DateTimeFormat`, whose `weekday` option is read with
`GetOption(options, "weekday", string, « "narrow", "short", "long" », undefined)`
(ECMA-402): any other value throws a `RangeError`. -/
def toLocaleDateString (env : Env) (date : JsDate) (style : String) : Except JsError String :=
  match date with
  | none => .ok "Invalid Date"
  | some t =>
    if style = "narrow" ∨ style = "short" ∨ style = "long" then
      .ok (weekdayName style (weekDay (localDay env t)))
    else .error .rangeError

/-! ## Court (`src/backend/models/Court.js`) -/

/-- One cell of `priceRules`: `{ multiplier, label }`; a field that the stored
JSON lacks is `none` (JavaScript `undefined`). -/
structure PriceEntry where
  multiplier : Option ℚ
  label : Option String
  deriving DecidableEq

/-- One row of `priceRules`: the three day parts. -/
structure PriceRow where
  morning : Option PriceEntry
  afternoon : Option PriceEntry
  night : Option PriceEntry
  deriving DecidableEq

/-- The `priceRules` JSON object. -/
structure PriceRules where
  weekday : Option PriceRow
  weekend : Option PriceRow
  deriving DecidableEq

/-- The key `timeSlot` of `calculatePrice`. -/
inductive TimeSlot where
  | morning
  | afternoon
  | night
  deriving DecidableEq

/-- The key `ruleKey` of `calculatePrice`. -/
inductive RuleKey where
  | weekday
  | weekend
  deriving DecidableEq

/-- One value of `availabilityRules`: `{ start, end, available }`. -/
structure DayRule where
  start : String
  stop : String
  available : Bool
  deriving DecidableEq

/-- One element of `blockedSlots`: `{ date, startTime, endTime, reason }`. -/
structure BlockedSlot where
  date : String
  startTime : String
  endTime : String
  reason : String
  deriving DecidableEq

/-- The attributes of a court that scheduling and pricing read. `basePrice` is
the stored `DECIMAL(8,2)` value, `availabilityRules` the JSON object as its list
of key/value pairs. -/
structure Court where
  basePrice : ℚ
  priceRules : PriceRules
  minBookingDuration : Int
  maxBookingDuration : Int
  bookingSlotDuration : Int
  availabilityRules : List (String × DayRule)
  blockedSlots : List BlockedSlot
  isActive : Bool
  isAvailable : Bool
  maintenanceMode : Bool

/-- An element of the array `getAvailableSlots` returns. -/
structure Slot where
  startTime : String
  endTime : String
  price : JsNum
  deriving DecidableEq

/-- The default `priceRules` of the model definition (Court.js lines 91-102). -/
def defaultPriceRules : PriceRules where
  weekday := some
    { morning := some ⟨some (8 / 10), some "Matutino (hasta 12:00)"⟩
      afternoon := some ⟨some 1, some "Tarde (12:00-18:00)"⟩
      night := some ⟨some (12 / 10), some "Nocturno (18:00+)"⟩ }
  weekend := some
    { morning := some ⟨some 1, some "Matutino (hasta 12:00)"⟩
      afternoon := some ⟨some (12 / 10), some "Tarde (12:00-18:00)"⟩
      night := some ⟨some (14 / 10), some "Nocturno (18:00+)"⟩ }

/-- The default `availabilityRules` (Court.js lines 140-148). -/
def defaultAvailabilityRules : List (String × DayRule) :=
  ["monday", "tuesday", "wednesday", "thursday", "friday", "saturday", "sunday"].map
    fun day => (day, ⟨"08:00", "23:00", true⟩)

/-- A court with every default of the model definition and the given base price. -/
def defaultCourt (basePrice : ℚ) : Court where
  basePrice := basePrice
  priceRules := defaultPriceRules
  minBookingDuration := 60
  maxBookingDuration := 120
  bookingSlotDuration := 60
  availabilityRules := defaultAvailabilityRules
  blockedSlots := []
  isActive := true
  isAvailable := true
  maintenanceMode := false

namespace Court

/-- Lines 233-235 of Court.js: `afternoon` unless `hour < 12` (`morning`) or
`hour >= 18` (`night`). -/
def timeSlotOf (hour : JsNum) : TimeSlot :=
  if hour.lt (.fin 12) then .morning else if hour.ge (.fin 18) then .night else .afternoon

/-- Lines 229-230 and 237: `weekend` when `getDay()` is `0` or `6`. -/
def ruleKeyOf (env : Env) (date : JsDate) : RuleKey :=
  if (getDay env date).strictEq (.fin 0) || (getDay env date).strictEq (.fin 6) then .weekend
  else .weekday

/-- Property access `priceRules[ruleKey]`. -/
def rowAt (r : PriceRules) : RuleKey → Option PriceRow
  | .weekday => r.weekday
  | .weekend => r.weekend

/-- Property access `row[timeSlot]`. -/
def entryAt (r : PriceRow) : TimeSlot → Option PriceEntry
  | .morning => r.morning
  | .afternoon => r.afternoon
  | .night => r.night

/-- The expression `this.priceRules[ruleKey][timeSlot].multiplier` of line 238:
reading a property of `undefined` throws a `TypeError`; a missing `multiplier`
field reads as `undefined`, which is `NaN` in the arithmetic that follows. -/
def multiplierAt (r : PriceRules) (k : RuleKey) (t : TimeSlot) : Except JsError JsNum :=
  match rowAt r k with
  | none => .error .typeError
  | some row =>
    match entryAt row t with
    | none => .error .typeError
    | some entry =>
      match entry.multiplier with
      | none => .ok .nan
      | some m => .ok (fl m)

/-- `Court.prototype.calculatePrice(date, startTime, duration)`, Court.js lines
228-242. `date` is the value of `new Date(date)`. -/
def calculatePrice (env : Env) (c : Court) (date : JsDate) (startTime : String)
    (duration : Int) : Except JsError JsNum := do
  let hour := parseInt (splitColonHead startTime)
  let timeSlot := timeSlotOf hour
  let ruleKey := ruleKeyOf env date
  let multiplier ← multiplierAt c.priceRules ruleKey timeSlot
  let hours := (fl duration).div (fl 60)
  return parseFloat (toFixed2 (((fl c.basePrice).mul multiplier).mul hours))

/-- Property access `this.availabilityRules[dayOfWeek]`. -/
def dayRuleAt (c : Court) (dayOfWeek : String) : Option DayRule :=
  c.availabilityRules.lookup dayOfWeek

/-- The callback of `blockedSlots.some` in lines 258-261. -/
def blocks (dateStr startTime endTime : String) (slot : BlockedSlot) : Bool :=
  slot.date == dateStr && !(strLe endTime slot.startTime || strGe startTime slot.endTime)

/-- `Court.prototype.isAvailableAt(date, startTime, endTime)`, Court.js lines
244-264. `date` is a `Date` object. -/
def isAvailableAt (env : Env) (c : Court) (date : JsDate) (startTime endTime : String) :
    Except JsError Bool := do
  let dayOfWeek ← toLocaleDateString env date "lowercase"
  match dayRuleAt c dayOfWeek with
  | none => return false
  | some dayRule =>
    if !dayRule.available then return false
    else if strLt startTime dayRule.start || strGt endTime dayRule.stop then return false
    else
      let dateStr ← toISODate date
      let hasBlockedSlot := c.blockedSlots.any (blocks dateStr startTime endTime)
      return !hasBlockedSlot

/-- The `for` loop of `getAvailableSlots` (lines 279-290), unrolled at most
`fuel` times; `step` is `slotDuration / 60`. -/
def slotLoop (env : Env) (c : Court) (date : JsDate) (endHour step : JsNum) :
    Nat → JsNum → List Slot → Except JsError (List Slot)
  | 0, hour, slots => if hour.lt endHour then .error .outOfFuel else .ok slots
  | fuel + 1, hour, slots =>
    if hour.lt endHour then do
      let startTime := padStart2 (numberToString hour) ++ ":00"
      let endTime := padStart2 (numberToString (hour.add step)) ++ ":00"
      let free ← isAvailableAt env c date startTime endTime
      if free then
        let price ← calculatePrice env c date startTime c.bookingSlotDuration
        slotLoop env c date endHour step fuel (hour.add step)
          (slots ++ [{ startTime := startTime, endTime := endTime, price := price }])
      else slotLoop env c date endHour step fuel (hour.add step) slots
    else .ok slots

/-- `Court.prototype.getAvailableSlots(date)`, Court.js lines 266-293, with the
loop unrolled at most `fuel` times. `date` is a `Date` object. -/
def getAvailableSlots (fuel : Nat) (env : Env) (c : Court) (date : JsDate) :
    Except JsError (List Slot) := do
  let dayOfWeek ← toLocaleDateString env date "lowercase"
  match dayRuleAt c dayOfWeek with
  | none => return []
  | some dayRule =>
    if !dayRule.available then return []
    else
      let startHour := parseInt (splitColonHead dayRule.start)
      let endHour := parseInt (splitColonHead dayRule.stop)
      let step := (fl c.bookingSlotDuration).div (fl 60)
      slotLoop env c date endHour step fuel startHour []

end Court

/-! ## Booking ledger (`src/backend/models/Booking.js`, `src/backend/routes/bookings.js`) -/

/-- The `status` enum of a booking. -/
inductive BookingStatus where
  | pending
  | confirmed
  | paid
  | cancelled
  | rejected
  | completed
  | no_show
  deriving DecidableEq

/-- The columns of a `bookings` row that conflict detection and the lifecycle
routes read or write. `bookingDate` is the `DATEONLY` value as a day number,
`startTime` and `endTime` are the `TIME` values in minutes after midnight (the
database compares them chronologically). -/
structure Booking where
  id : Nat
  courtId : Nat
  bookingDate : Int
  startTime : Nat
  endTime : Nat
  status : BookingStatus
  deriving DecidableEq

/-- The table `bookings`, in insertion order. -/
abbrev Ledger := List Booking

namespace Booking

/-- The filter `status IN ('pending', 'confirmed', 'paid')`. -/
def isActive (b : Booking) : Bool :=
  [BookingStatus.pending, BookingStatus.confirmed, BookingStatus.paid].contains b.status

/-- SQL `x BETWEEN lo AND hi`: both ends included. -/
def between (x lo hi : Nat) : Bool := decide (lo ≤ x) && decide (x ≤ hi)

/-- The `where` object of `Booking.findConflicting` (Booking.js lines 331-367)
as a predicate on a row. -/
def conflictWhere (courtId : Nat) (bookingDate : Int) (startTime endTime : Nat)
    (excludeId : Option Nat) (b : Booking) : Bool :=
  decide (b.courtId = courtId) && decide (b.bookingDate = bookingDate) && b.isActive
    && (between b.startTime startTime endTime
        || between b.endTime startTime endTime
        || (decide (b.startTime ≤ startTime) && decide (b.endTime ≥ endTime)))
    && (match excludeId with
        | none => true
        | some x => decide (b.id ≠ x))

/-- `Booking.findConflicting(courtId, bookingDate, startTime, endTime, excludeId)`,
Booking.js lines 330-370: the rows that `findAll({ where })` returns. -/
def findConflicting (rows : Ledger) (courtId : Nat) (bookingDate : Int)
    (startTime endTime : Nat) (excludeId : Option Nat) : List Booking :=
  rows.filter (conflictWhere courtId bookingDate startTime endTime excludeId)

/-- The half-open conflict rule of the specification, on two bookings:
`start < e && end > s`. -/
def overlaps (a b : Booking) : Prop := a.startTime < b.endTime ∧ a.endTime > b.startTime

/-- `Booking.findOne({ where: { id, status: { [Op.in]: allowed } } })`. -/
def findOne (rows : Ledger) (id : Nat) (allowed : List BookingStatus) : Option Booking :=
  rows.find? fun b => decide (b.id = id) && allowed.contains b.status

/-- `booking.update({ status })`: an `UPDATE ... WHERE id = booking.id`. -/
def updateStatus (rows : Ledger) (id : Nat) (status : BookingStatus) : Ledger :=
  rows.map fun b => if b.id = id then { b with status := status } else b

end Booking

/-- A create request as it reaches the ledger (bookings.js lines 25-149): the
column values of the row to insert, and the outcome of every check of the route
that does not read the table `bookings`. -/
structure CreateRequest where
  /-- The fresh primary key. -/
  id : Nat
  courtId : Nat
  bookingDate : Int
  startTime : Nat
  /-- Line 84: the time of day `duration` minutes after `startTime`. -/
  endTime : Nat
  /-- Lines 27-34: `validationResult(req)` is empty. -/
  inputValid : Bool
  /-- Lines 51-79: the court lookup found an eligible court. -/
  courtFound : Bool
  /-- Line 87: not `startDateTime <= new Date()`. -/
  startsInFuture : Bool
  /-- Line 95: the outcome of `court.isAvailableAt(new Date(bookingDate), startTime, endTime)`. -/
  available : Except JsError Bool
  /-- Lines 118-124: the outcome of `court.calculatePrice(...)`. -/
  price : Except JsError JsNum
  /-- Line 127: the model validations and the unique booking number accept the row. -/
  rowAccepted : Bool
  /-- Line 148: `court.venue.autoConfirm` is truthy. -/
  autoConfirm : Bool

/-- The operations on the ledger, each with the outcome of the checks of its
route that do not read the table `bookings` (who calls, what time it is). -/
inductive LedgerOp where
  /-- `POST /api/bookings`. -/
  | create (r : CreateRequest)
  /-- `PUT /api/bookings/:id/confirm`; `owned`: the venue belongs to the caller. -/
  | confirm (id : Nat) (owned : Bool)
  /-- `PUT /api/bookings/:id/reject`. -/
  | reject (id : Nat) (owned : Bool)
  /-- `PUT /api/bookings/:id/cancel`; `visible`: the caller may see the booking,
  `canBeCancelled`: the result of `booking.canBeCancelled()`. -/
  | cancel (id : Nat) (visible : Bool) (canBeCancelled : Bool)
  /-- `POST /api/bookings/:id/checkin`; `isToday`: the outcome of comparing the
  booking date with today (lines 749-752). -/
  | checkIn (id : Nat) (owned : Bool) (isToday : Except JsError Bool)
  /-- `PUT /api/bookings/:id/complete`; `hasEnded`: not `bookingEndTime > new Date()`. -/
  | complete (id : Nat) (owned : Bool) (hasEnded : Bool)

/-- A lifecycle route: find the booking by id among the allowed statuses (404 if
none), fail with `refusal` if one is given, else write the new status. -/
def transition (rows : Ledger) (id : Nat) (found : Bool) (allowed : List BookingStatus)
    (refusal : Option Nat) (status : BookingStatus) : Except Nat Ledger :=
  match (if found then Booking.findOne rows id allowed else none) with
  | none => .error 404
  | some b =>
    match refusal with
    | some code => .error code
    | none => .ok (Booking.updateStatus rows b.id status)

/-- The effect of one request on the table `bookings`: the new table, or the
HTTP status of a request that wrote nothing. -/
def applyOp (rows : Ledger) : LedgerOp → Except Nat Ledger
  | .create r =>
    if !r.inputValid then .error 400
    else if !r.courtFound then .error 404
    else if !r.startsInFuture then .error 400
    else
      match r.available with
      | .error _ => .error 500
      | .ok false => .error 400
      | .ok true =>
        if (Booking.findConflicting rows r.courtId r.bookingDate r.startTime r.endTime none).length
            > 0 then .error 400
        else
          match r.price with
          | .error _ => .error 500
          | .ok _ =>
            if !r.rowAccepted
                || rows.any (fun b => decide (b.id = r.id))
                || rows.any (fun b => decide (b.courtId = r.courtId)
                      && decide (b.bookingDate = r.bookingDate)
                      && decide (b.startTime = r.startTime)) then .error 500
            else
              .ok (rows ++ [{ id := r.id, courtId := r.courtId, bookingDate := r.bookingDate,
                              startTime := r.startTime, endTime := r.endTime,
                              status := if r.autoConfirm then .confirmed else .pending }])
  | .confirm id owned => transition rows id owned [.pending] none .confirmed
  | .reject id owned => transition rows id owned [.pending] none .rejected
  | .cancel id visible canBeCancelled =>
    transition rows id visible [.pending, .confirmed, .paid]
      (if canBeCancelled then none else some 400) .cancelled
  | .checkIn id owned isToday =>
    transition rows id owned [.confirmed, .paid]
      (match isToday with
        | .error _ => some 500
        | .ok false => some 400
        | .ok true => none) .confirmed
  | .complete id owned hasEnded =>
    transition rows id owned [.confirmed, .paid] (if hasEnded then none else some 400) .completed

/-- The ledgers that requests can produce, starting from the empty table. -/
inductive Reachable : Ledger → Prop where
  | empty : Reachable []
  | step {rows rows1 : Ledger} (op : LedgerOp) :
      Reachable rows → applyOp rows op = .ok rows1 → Reachable rows1

/-- No two rows at different positions that have the same court and date and
are both pending, confirmed or paid intersect under the half-open rule. -/
def NoDoubleBooking (rows : Ledger) : Prop :=
  rows.Pairwise fun a b =>
    a.courtId = b.courtId → a.bookingDate = b.bookingDate →
      a.isActive = true → b.isActive = true → ¬ Booking.overlaps a b

/-- The ledger invariant: ids are pairwise different and no two active rows of
one court and date intersect. -/
def LedgerInv (rows : Ledger) : Prop :=
  (rows.Pairwise fun a b => a.id ≠ b.id) ∧ NoDoubleBooking rows

/-! ## The specification's own words, for comparison with the code -/

/-- Specification, section 4.2: a date is `weekend` if its weekday is Saturday
or Sunday, else `weekday` (weekdays numbered from Sunday = 0). -/
def specDayKind (weekday : Nat) : RuleKey :=
  if weekday = 6 ∨ weekday = 0 then .weekend else .weekday

/-- Specification, section 4.2: the hour is `morning` if below 12, `night` if
18 or more, else `afternoon`. -/
def specDayPart (hour : Nat) : TimeSlot :=
  if hour < 12 then .morning else if 18 ≤ hour then .night else .afternoon

/-- The time of day `HH:MM`, two digits each. -/
def hhmm (hh mm : Nat) : String :=
  String.mk (padDigits 2 hh ++ [Char.ofNat 58] ++ padDigits 2 mm)

/-- Rounding half-up to two decimal places, on exact values: the multiple of
`1/100` nearest to `q`, the one larger in magnitude when two are equally near. -/
def halfUp2 (q : ℚ) : ℚ :=
  if q < 0 then -((⌊-q * 100 + 1 / 2⌋ : ℚ) / 100) else (⌊q * 100 + 1 / 2⌋ : ℚ) / 100

/-- Rounding half-up to two decimal places, on JavaScript numbers: the number
nearest to the rounded exact value; `NaN` and the infinities are kept. -/
def roundHalfUp2 : JsNum → JsNum
  | .nan => .nan
  | .inf s => .inf s
  | .fin q => fl (halfUp2 q)

/-! ## Sample data -/

/-- A create request that passes every check outside the ledger. -/
def sampleRequest (id courtId startTime endTime : Nat) (autoConfirm : Bool) : CreateRequest where
  id := id
  courtId := courtId
  bookingDate := 19889
  startTime := startTime
  endTime := endTime
  inputValid := true
  courtFound := true
  startsInFuture := true
  available := .ok true
  price := .ok (.fin 4200)
  rowAccepted := true
  autoConfirm := autoConfirm

/-- A row of court 7 on day 19889. -/
def sampleRow (id startTime endTime : Nat) (status : BookingStatus) : Booking where
  id := id
  courtId := 7
  bookingDate := 19889
  startTime := startTime
  endTime := endTime
  status := status

/-- A ledger built by two creations and a confirmation: two confirmed bookings
of one court and date, 10:00-11:00 and 12:00-13:00. -/
def sampleLedger : Ledger :=
  [sampleRow 1 600 660 .confirmed, sampleRow 2 720 780 .confirmed]

/-- A weekend row whose night entry is stored without a `multiplier` field. -/
def weekendRowWithoutNightMultiplier : PriceRow where
  morning := some ⟨some 1, some "Matutino (hasta 12:00)"⟩
  afternoon := some ⟨some (12 / 10), some "Tarde (12:00-18:00)"⟩
  night := some ⟨none, some "Nocturno (18:00+)"⟩

/-- A weekend row with no night entry. -/
def weekendRowWithoutNight : PriceRow where
  morning := some ⟨some 1, some "Matutino (hasta 12:00)"⟩
  afternoon := some ⟨some (12 / 10), some "Tarde (12:00-18:00)"⟩
  night := none

/-- The default court with the given weekend row in place of the default one. -/
def courtWithWeekendRow (row : Option PriceRow) : Court :=
  { defaultCourt 3000 with
    priceRules := { weekday := defaultPriceRules.weekday, weekend := row } }

/-- The default court with one entry in `blockedSlots`. -/
def courtWithBlock (date startTime endTime : String) : Court :=
  { defaultCourt 3000 with
    blockedSlots := [⟨date, startTime, endTime, "Mantenimiento"⟩] }

/-- The default court, closed on Saturdays. -/
def courtClosedOnSaturday : Court :=
  { defaultCourt 3000 with
    availabilityRules :=
      defaultAvailabilityRules.map fun r =>
        if r.1 = "saturday" then (r.1, { r.2 with available := false }) else r }

/-! ## JavaScript numbers, continued, and decimal columns -/

namespace JsNum

/-- JavaScript `-` on numbers. -/
def sub : JsNum → JsNum → JsNum
  | nan, _ => nan
  | _, nan => nan
  | inf s, inf t => if s = t then nan else inf s
  | inf s, fin _ => inf s
  | fin _, inf s => inf (!s)
  | fin a, fin b => fl (a - b)

/-- JavaScript `>` on numbers (false as soon as one side is `NaN`). -/
def gt (a b : JsNum) : Bool := lt b a

end JsNum

/-- `String.prototype.padStart(width, "0")`. -/
def padStart (width : Nat) (s : String) : String :=
  String.mk (List.replicate (width - s.data.length) (Char.ofNat 48) ++ s.data)

/-- The exact value of the decimal text `String(x)` of a positive finite number
`x`: the digits and exponent that `positiveToString` prints. -/
def shortestDecimal (q : ℚ) : ℚ :=
  let n0 := decExp q
  let found := (shortestDigits q n0 17 1).getD
    (17, (roundHalfEven (q / pow10 (n0 - 17))).toNat, n0)
  (found.2.1 : ℚ) * pow10 (found.2.2 - (found.1 : Int))

/-- A value of a PostgreSQL `numeric` column: a decimal or the special value
`NaN`. -/
inductive PgNumeric where
  | nan
  | val (q : ℚ)
  deriving DecidableEq

/-- Rounding of PostgreSQL `numeric` to `scale` decimals: to the nearest, a tie
away from zero. -/
def roundScale (scale : Nat) (q : ℚ) : ℚ :=
  if q < 0 then -((⌊-q * (10 : ℚ) ^ scale + 1 / 2⌋ : ℚ) / (10 : ℚ) ^ scale)
  else (⌊q * (10 : ℚ) ^ scale + 1 / 2⌋ : ℚ) / (10 : ℚ) ^ scale

/-- Writing a decimal text into a `DECIMAL(precision, scale)` column: the value
is rounded to the scale; a rounded magnitude of `10^(precision - scale)` or more
is a numeric field overflow, which aborts the statement (`none`). -/
def writeDecimalText (precision scale : Nat) (q : ℚ) : Option PgNumeric :=
  if (10 : ℚ) ^ (precision - scale) ≤ |roundScale scale q| then none
  else some (.val (roundScale scale q))

/-- Writing a JavaScript number into a `DECIMAL(precision, scale)` column: the
driver sends `String(x)`, which the database reads as a decimal text and
rounds; the text `NaN` is the numeric `NaN`; an infinity is not a numeric of
bounded precision and aborts the statement. -/
def writeDecimal (precision scale : Nat) : JsNum → Option PgNumeric
  | .nan => some .nan
  | .inf _ => none
  | .fin q =>
    if q = 0 then writeDecimalText precision scale 0
    else if 0 < q then writeDecimalText precision scale (shortestDecimal q)
    else writeDecimalText precision scale (-(shortestDecimal (-q)))

/-- The number that a `numeric` column value is in JavaScript arithmetic: the
column is read as its text, which `ToNumber` converts. -/
def PgNumeric.toNumber : PgNumeric → JsNum
  | .nan => .nan
  | .val q => fl q

/-- The text `HH:MM:SS` in which the database returns a `TIME` value of whole
minutes. -/
def pgTimeText (minutes : Nat) : String :=
  String.mk (padDigits 2 (minutes / 60) ++ [Char.ofNat 58] ++ padDigits 2 (minutes % 60)
    ++ [Char.ofNat 58, Char.ofNat 48, Char.ofNat 48])

/-! ## Booking rows: amounts, booking numbers, cancellation -/

/-- A `bookings` row with the further columns that pricing, numbering and
cancellation read or write. The first six columns are those of `Booking`. -/
structure BookingRow extends Booking where
  bookingNumber : String
  duration : Int
  basePrice : PgNumeric
  priceMultiplier : PgNumeric
  totalPrice : PgNumeric
  commissionRate : PgNumeric
  commissionAmount : PgNumeric
  venueAmount : PgNumeric
  /-- `NULL` until a cancellation writes it. -/
  refundAmount : Option PgNumeric
  /-- The column `cancelledBy`, an `ENUM('user', 'venue', 'admin', 'system')`;
  `NULL` until a cancellation or a rejection writes it. -/
  cancelledBy : Option String
  /-- The column `checkInAt`, as a time value; `NULL` until a check-in writes it. -/
  checkInAt : Option Int
  /-- The column `reminderSentAt`, as a time value; no route writes it. -/
  reminderSentAt : Option Int
  deriving DecidableEq

/-- The amounts that the `beforeCreate` hook (and the `beforeUpdate` hook, when
`totalPrice` or `commissionRate` changed) assigns, Booking.js lines 379-380 and
385-386: `commissionAmount = totalPrice * commissionRate` and
`venueAmount = totalPrice - commissionAmount`. -/
def hookAmounts (totalPrice commissionRate : JsNum) : JsNum × JsNum :=
  let commissionAmount := totalPrice.mul commissionRate
  (commissionAmount, totalPrice.sub commissionAmount)

/-- The money columns of a row as the database holds them after a save. -/
structure StoredAmounts where
  totalPrice : PgNumeric
  commissionRate : PgNumeric
  commissionAmount : PgNumeric
  venueAmount : PgNumeric
  deriving DecidableEq

/-- A save of `totalPrice` and `commissionRate` through the hooks: the hook
computes the two amounts from the values being saved, and the four values are
written into their columns, `DECIMAL(8,2)` for the amounts and `DECIMAL(5,4)`
for the rate; `none` when the database refuses a value. -/
def saveAmounts (totalPrice commissionRate : JsNum) : Option StoredAmounts := do
  let amounts := hookAmounts totalPrice commissionRate
  let t ← writeDecimal 8 2 totalPrice
  let r ← writeDecimal 5 4 commissionRate
  let c ← writeDecimal 8 2 amounts.1
  let v ← writeDecimal 8 2 amounts.2
  pure { totalPrice := t, commissionRate := r, commissionAmount := c, venueAmount := v }

/-- An update that changes `totalPrice` or `commissionRate` (the `beforeUpdate`
hook, Booking.js lines 383-388, then takes its branch): the row after the save
of the given new values; `none` when the database refuses a value. -/
def updateAmounts (row : BookingRow) (totalPrice commissionRate : JsNum) : Option BookingRow := do
  let s ← saveAmounts totalPrice commissionRate
  pure { row with totalPrice := s.totalPrice, commissionRate := s.commissionRate,
                  commissionAmount := s.commissionAmount, venueAmount := s.venueAmount }

/-- The expression `court.venue.owner.commissionRate || 0.1` of bookings.js line
119. The owner's rate is a `DECIMAL(5,4)` column, which the postgres dialect of
Sequelize hands over as its text (`"0.0000"` for zero); every such text is a
non-empty string and therefore truthy, so only `NULL` is replaced by `0.1`. The
result is given by its decimal value. -/
def effectiveCommissionRate (ownerRate : Option ℚ) : ℚ :=
  match ownerRate with
  | none => 1 / 10
  | some r => r

/-- The money columns that `POST /api/bookings` persists, bookings.js lines
117-149 with the `beforeCreate` hook: `price` is the result of
`court.calculatePrice(bookingDate, startTime, duration)`; the stored
`basePrice` is the court's, the stored `priceMultiplier` is
`price / (court.basePrice * (duration / 60))`; `none` when the database
refuses a value. -/
def createAmounts (c : Court) (ownerRate : Option ℚ) (duration : Int) (price : JsNum) :
    Option (PgNumeric × PgNumeric × StoredAmounts) := do
  let commissionRate := effectiveCommissionRate ownerRate
  let priceMultiplier := price.div ((fl c.basePrice).mul ((fl duration).div (fl 60)))
  let b ← writeDecimalText 8 2 c.basePrice
  let m ← writeDecimal 4 2 priceMultiplier
  let t ← writeDecimal 8 2 price
  let r ← writeDecimalText 5 4 commissionRate
  let amounts := hookAmounts price (fl commissionRate)
  let ca ← writeDecimal 8 2 amounts.1
  let va ← writeDecimal 8 2 amounts.2
  pure (b, m, { totalPrice := t, commissionRate := r, commissionAmount := ca, venueAmount := va })
/-- Split a text at every hyphen: `s.split("-")`. -/
def splitHyphen : List Char → List (List Char)
  | [] => [[]]
  | c :: cs =>
    if c = Char.ofNat 45 then [] :: splitHyphen cs
    else
      match splitHyphen cs with
      | [] => [[c]]
      | part :: parts => (c :: part) :: parts

/-- The text `today` of `generateBookingNumber` (line 291):
the first ten characters of `new Date().toISOString()` with every hyphen
removed, for the clock value `now`. -/
def todayStamp (now : Int) : String :=
  match toISODate (some now) with
  | .ok s => String.mk ((s.data.take 10).filter fun c => c != Char.ofNat 45)
  | .error _ => ""

/-- The greatest text of a list in the order of `ORDER BY ... DESC`, if any. -/
def greatestText : List String → Option String
  | [] => none
  | s :: rest =>
    match greatestText rest with
    | none => some s
    | some t => if strLt s t then some t else some s

/-- `Booking.generateBookingNumber()`, Booking.js lines 290-308, for the clock
value `now` and the booking numbers stored: the last number with the day's
prefix is looked up, its third hyphen-separated part is read with `parseInt`
and incremented (no such number: 1), and the sequence is printed with
`padStart(4, "0")`. -/
def generateBookingNumber (now : Int) (numbers : List String) : String :=
  let today := todayStamp now
  let pre := "TY-" ++ today ++ "-"
  let lastBooking := greatestText (numbers.filter fun n => pre.data.isPrefixOf n.data)
  let sequence : JsNum :=
    match lastBooking with
    | none => fl 1
    | some last =>
      let lastSequence :=
        match (splitHyphen last.data).get? 2 with
        | some part => parseInt part
        | none => JsNum.nan
      lastSequence.add (fl 1)
  "TY-" ++ today ++ "-" ++ padStart 4 (numberToString sequence)

/-- The booking number of the given day stamp and sequence as line 307 prints it. -/
def bookingNumberText (today : String) (sequence : Nat) : String :=
  "TY-" ++ today ++ "-" ++ padStart 4 (String.mk (natDigits sequence))

/-- The numbers `1 .. n` of a day, in the order of issue. -/
def issuedNumbers (today : String) (n : Nat) : List String :=
  (List.range n).map fun i => bookingNumberText today (i + 1)

/-- Whether a text is `TY-`, eight decimal digits, a hyphen and exactly four
decimal digits. -/
def isBookingNumberFormat (s : String) : Bool :=
  let isDigit := fun (c : Char) => decide (48 ≤ c.toNat) && decide (c.toNat ≤ 57)
  match s.data with
  | t :: y :: h :: rest =>
    decide (t = Char.ofNat 84) && decide (y = Char.ofNat 89) && decide (h = Char.ofNat 45)
      && decide (rest.length = 13)
      && (rest.take 8).all isDigit
      && decide (rest.get? 8 = some (Char.ofNat 45))
      && (rest.drop 9).all isDigit
  | _ => false
/-- The largest magnitude of a time value of a `Date`: 8.64e15 milliseconds. -/
def maxTimeValue : Int := 8640000000000000

/-- The year that `new Date(text)` takes from a text which is not in the ISO
format, such as `YYYY-MM-DD HH:MM:SS` with a blank between date and time (the
date parser of V8 falls back to its legacy rules): a year from 0 to 49 is read
as 2000 + year, a year from 50 to 99 as 1900 + year, any other year as it is. -/
def legacyYear (y : Int) : Int :=
  if 0 ≤ y ∧ y ≤ 49 then y + 2000 else if 50 ≤ y ∧ y ≤ 99 then y + 1900 else y

/-- The calendar day, as a day number, that the legacy rules take from the three
numbers of a text that starts with `YYYY-MM-DD`. When the first number is from 1
to 31 the numbers are read as month, day and year (an Invalid Date when the
first is above 12); otherwise as year, month and day. The year goes through
`legacyYear`. -/
def legacyDayOf (y : Int) (m d : Nat) : Option Int :=
  if 1 ≤ y ∧ y ≤ 31 then
    if y ≤ 12 then some (daysFromCivil (legacyYear d) y.toNat m) else none
  else some (daysFromCivil (legacyYear y) m d)

/-- The day number that such a text denotes, for the stored calendar day whose
`YYYY-MM-DD` it starts with. -/
def legacyDay (day : Int) : Option Int :=
  if 0 ≤ (civilFromDays day).1 ∧ (civilFromDays day).1 ≤ 99 then
    legacyDayOf (civilFromDays day).1 (civilFromDays day).2.1 (civilFromDays day).2.2
  else some day

/-- `ToNumber` of a `Date`: its time value (an integer of magnitude at most
8.64e15, which binary64 holds exactly), `NaN` for an Invalid Date. -/
def dateValue : JsDate → JsNum
  | none => .nan
  | some t => .fin (t : ℚ)

/-- The constant `(1000 * 60 * 60)` of Booking.js lines 235, 247 and 284. -/
def msPerHour : JsNum := ((fl 1000).mul (fl 60)).mul (fl 60)

namespace Booking

/-- The date that `new Date(this.bookingDate + " " + this.startTime)` builds
(lines 233, 245, 259, 269): the text holds the stored calendar date and time of
day, is read in local time and, not being in the ISO format, with the year rule
of `legacyYear`; a time value beyond the range of `Date` gives an Invalid
Date. -/
def startDateTime (env : Env) (b : Booking) : JsDate :=
  match legacyDay b.bookingDate with
  | none => none
  | some day =>
    let t := day * msPerDay + (b.startTime : Int) * 60000 - env.tzOffsetMinutes * 60000
    if -maxTimeValue ≤ t ∧ t ≤ maxTimeValue then some t else none

/-- The value `hoursUntilBooking` of lines 235 and 247:
`(bookingDateTime - now) / (1000 * 60 * 60)`, for the clock value `now`. -/
def hoursUntilBooking (env : Env) (now : Int) (b : Booking) : JsNum :=
  ((dateValue (startDateTime env b)).sub (dateValue (some now))).div msPerHour

/-- `Booking.prototype.canBeCancelled()`, Booking.js lines 228-238, for the
value `now` that `new Date()` gives. -/
def canBeCancelled (env : Env) (now : Int) (b : Booking) : Bool :=
  if !b.isActive then false
  else (hoursUntilBooking env now b).gt (.fin 24)

end Booking

/-- What `calculateRefundAmount` returns: a number, or the value of the
`totalPrice` column as the row holds it. -/
inductive RefundValue where
  | number (x : JsNum)
  | column (v : PgNumeric)
  deriving DecidableEq

/-- Writing a refund into the `refundAmount` column, `DECIMAL(8,2)`: a value of
the `totalPrice` column, of the same type, is stored as it is. -/
def writeRefund : RefundValue → Option PgNumeric
  | .number x => writeDecimal 8 2 x
  | .column v => some v

namespace BookingRow

/-- `Booking.prototype.calculateRefundAmount()`, Booking.js lines 240-256:
`now1` is the clock value that the call of `canBeCancelled()` reads, `now2`
the one of line 246. -/
def calculateRefundAmount (env : Env) (now1 now2 : Int) (row : BookingRow) : RefundValue :=
  if !(row.toBooking.canBeCancelled env now1) then .number (.fin 0)
  else
    let hoursUntilBooking := row.toBooking.hoursUntilBooking env now2
    if hoursUntilBooking.ge (.fin 24) then .column row.totalPrice
    else if hoursUntilBooking.ge (.fin 12) then
      .number (row.totalPrice.toNumber.mul (fl (1 / 2)))
    else .number (.fin 0)

end BookingRow

/-- `booking.update(...)` of a lifecycle route on the table: the row with the
id of the booking is rewritten by `f`. -/
def updateRow (rows : List BookingRow) (id : Nat) (f : BookingRow → BookingRow) :
    List BookingRow :=
  rows.map fun r => if r.id = id then f r else r

/-- `Booking.findOne` with a status filter, on full rows. -/
def findRow (rows : List BookingRow) (id : Nat) (allowed : List BookingStatus) :
    Option BookingRow :=
  rows.find? fun r => decide (r.id = id) && allowed.contains r.status

/-- The value `req.userType` that the middleware `auth` sets from the token
(auth.js lines 24-58). -/
inductive UserType where
  | user
  | venueOwner
  | admin
  deriving DecidableEq

/-- The text of `req.userType`. -/
def UserType.text : UserType → String
  | .user => "user"
  | .venueOwner => "venue_owner"
  | .admin => "admin"

/-- The values of the column `cancelledBy`, Booking.js line 155. -/
def cancelledByValues : List String := ["user", "venue", "admin", "system"]

/-- `PUT /api/bookings/:id/cancel`, bookings.js lines 573-711, on the table:
`visible` says whether the caller may see the booking, `actor` is
`req.userType`, `now1` is the clock value read by the test of line 650, `now2`
and `now3` the two read inside `calculateRefundAmount()` of line 658. The update
of lines 661-667 writes `cancelledBy: req.userType`; the database refuses a text
that is not a value of the enum column, and the route then answers 500. The
result is the new table, or the HTTP status of a request that wrote nothing. -/
def cancelRoute (env : Env) (now1 now2 now3 : Int) (rows : List BookingRow) (id : Nat)
    (visible : Bool) (actor : UserType) : Except Nat (List BookingRow) :=
  match (if visible then findRow rows id [.pending, .confirmed, .paid] else none) with
  | none => .error 404
  | some booking =>
    if !(booking.toBooking.canBeCancelled env now1) then .error 400
    else
      match writeRefund (booking.calculateRefundAmount env now2 now3) with
      | none => .error 500
      | some refund =>
        if !(cancelledByValues.contains actor.text) then .error 500
        else
          .ok (updateRow rows booking.id fun r =>
            { r with status := .cancelled, refundAmount := some refund,
                     cancelledBy := some actor.text })

/-- The conflict check of `POST /api/bookings` (lines 102-115) on the table. -/
def conflictFree (rows : List BookingRow) (r : CreateRequest) : Bool :=
  (Booking.findConflicting (rows.map fun x => x.toBooking) r.courtId r.bookingDate r.startTime
    r.endTime none).length = 0

/-- The number allocation of `POST /api/bookings` (line 124) on the table. -/
def allocateNumber (now : Int) (rows : List BookingRow) : String :=
  generateBookingNumber now (rows.map fun x => x.bookingNumber)

/-- The row that `Booking.create` of lines 127-149 is given. -/
def newRow (r : CreateRequest) (duration : Int) (bookingNumber : String)
    (amounts : PgNumeric × PgNumeric × StoredAmounts) : BookingRow where
  id := r.id
  courtId := r.courtId
  bookingDate := r.bookingDate
  startTime := r.startTime
  endTime := r.endTime
  status := if r.autoConfirm then .confirmed else .pending
  bookingNumber := bookingNumber
  duration := duration
  basePrice := amounts.1
  priceMultiplier := amounts.2.1
  totalPrice := amounts.2.2.totalPrice
  commissionRate := amounts.2.2.commissionRate
  commissionAmount := amounts.2.2.commissionAmount
  venueAmount := amounts.2.2.venueAmount
  refundAmount := none
  cancelledBy := none
  checkInAt := none
  reminderSentAt := none

/-- The `INSERT` of `Booking.create`: refused (HTTP 500) when the primary key,
the unique booking number or the unique index on court, date and start time is
already taken. -/
def insertRow (rows : List BookingRow) (row : BookingRow) : Except Nat (List BookingRow) :=
  if rows.any (fun x => decide (x.id = row.id))
      || rows.any (fun x => decide (x.bookingNumber = row.bookingNumber))
      || rows.any (fun x => decide (x.courtId = row.courtId)
            && decide (x.bookingDate = row.bookingDate)
            && decide (x.startTime = row.startTime)) then .error 500
  else .ok (rows ++ [row])

/-- The requests on the table of full rows, each with the outcome of the checks
of its route that read neither the table nor the clock of the cancellation. -/
inductive RowOp where
  /-- `POST /api/bookings` for the given court, whose owner has the given
  commission rate at that moment; `now` is the clock value of the number
  allocation. -/
  | create (r : CreateRequest) (court : Court) (ownerRate : Option ℚ) (duration : Int)
      (now : Int)
  | confirm (id : Nat) (owned : Bool)
  | reject (id : Nat) (owned : Bool)
  | cancel (id : Nat) (visible : Bool) (actor : UserType) (now1 now2 now3 : Int)
  /-- `POST /api/bookings/:id/checkin`; `now` is the clock value written to
  `checkInAt`. -/
  | checkIn (id : Nat) (owned : Bool) (isToday : Except JsError Bool) (now : Int)
  | complete (id : Nat) (owned : Bool) (hasEnded : Bool)

/-- A lifecycle route on full rows: find the booking by id among the allowed
statuses (404 if none), fail with `refusal` if one is given, else rewrite the
row by `write`. -/
def transitionRow (rows : List BookingRow) (id : Nat) (found : Bool)
    (allowed : List BookingStatus) (refusal : Option Nat) (write : BookingRow → BookingRow) :
    Except Nat (List BookingRow) :=
  match (if found then findRow rows id allowed else none) with
  | none => .error 404
  | some b =>
    match refusal with
    | some code => .error code
    | none => .ok (updateRow rows b.id write)

/-- The effect of one request on the table of full rows. -/
def applyRowOp (env : Env) (rows : List BookingRow) : RowOp → Except Nat (List BookingRow)
  | .create r court ownerRate duration now =>
    if !r.inputValid then .error 400
    else if !r.courtFound then .error 404
    else if !r.startsInFuture then .error 400
    else
      match r.available with
      | .error _ => .error 500
      | .ok false => .error 400
      | .ok true =>
        if !conflictFree rows r then .error 400
        else
          match r.price with
          | .error _ => .error 500
          | .ok price =>
            match createAmounts court ownerRate duration price with
            | none => .error 500
            | some amounts =>
              if !r.rowAccepted then .error 500
              else insertRow rows (newRow r duration (allocateNumber now rows) amounts)
  | .confirm id owned =>
    transitionRow rows id owned [.pending] none fun r => { r with status := .confirmed }
  | .reject id owned =>
    transitionRow rows id owned [.pending] none fun r =>
      { r with status := .rejected, cancelledBy := some "venue" }
  | .cancel id visible actor now1 now2 now3 =>
    cancelRoute env now1 now2 now3 rows id visible actor
  | .checkIn id owned isToday now =>
    transitionRow rows id owned [.confirmed, .paid]
      (match isToday with
        | .error _ => some 500
        | .ok false => some 400
        | .ok true => none) fun r => { r with status := .confirmed, checkInAt := some now }
  | .complete id owned hasEnded =>
    transitionRow rows id owned [.confirmed, .paid] (if hasEnded then none else some 400)
      fun r => { r with status := .completed }

/-- The rate and the two amounts of a row, with its id. -/
def commissionColumns (row : BookingRow) : Nat × PgNumeric × PgNumeric × PgNumeric :=
  (row.id, row.commissionRate, row.commissionAmount, row.venueAmount)

/-- The booking filter of `GET /api/courts/:id/availability`, routes/courts.js
lines 350-354: a slot is kept when no booking of the day overlaps it, the times
of a booking being the `TIME` texts of the database and the comparisons those
of JavaScript strings. -/
def survivesBookingFilter (dayBookings : List Booking) (slot : Slot) : Bool :=
  !(dayBookings.any fun booking =>
      !(strLe slot.endTime (pgTimeText booking.startTime)
        || strGe slot.startTime (pgTimeText booking.endTime)))

/-- The money columns of a booking of 3000 with a commission rate of 0.1. -/
def sampleAmounts : PgNumeric × PgNumeric × StoredAmounts :=
  (.val 3000, .val 1,
    { totalPrice := .val 3000, commissionRate := .val (1 / 10), commissionAmount := .val 300,
      venueAmount := .val 2700 })

/-- A full row of court 7 on day 19889 (2024-06-15), priced 3000. -/
def sampleBookingRow (id startTime endTime : Nat) (status : BookingStatus)
    (bookingNumber : String) : BookingRow :=
  { newRow (sampleRequest id 7 startTime endTime false) 60 bookingNumber sampleAmounts with
    status := status }

/-- A clock value on 2024-06-01. -/
def sampleNow : Int := 19875 * msPerDay + 5000

/-- The row stored by the first sample create for an owner with rate 0: price
4200 on a base price of 3000. -/
def sampleRowRateZero : BookingRow :=
  newRow (sampleRequest 1 7 600 660 false) 60 "TY-20240601-0001"
    (.val 3000, .val (14 / 10),
      { totalPrice := .val 4200, commissionRate := .val 0, commissionAmount := .val 0,
        venueAmount := .val 4200 })

/-- The row stored by a later sample create, for an owner rate changed to 0.2. -/
def sampleRowRateFifth : BookingRow :=
  newRow (sampleRequest 2 7 720 780 false) 60 "TY-20240601-0002"
    (.val 3000, .val (14 / 10),
      { totalPrice := .val 4200, commissionRate := .val (2 / 10), commissionAmount := .val 840,
        venueAmount := .val 3360 })

/-- The start of the sample bookings at 10:00 on 2024-06-15, as a time value on a
host in UTC. -/
def sampleStart : Int := 19889 * msPerDay + 600 * 60000

/-! ## Reminders and the lifecycle routes on the clock -/

/-- JavaScript `<=` on numbers (false as soon as one side is `NaN`). -/
def JsNum.le : JsNum → JsNum → Bool
  | .nan, _ => false
  | _, .nan => false
  | a, b => !(JsNum.lt b a)

/-- `Booking.prototype.getTimeUntilBooking()`, Booking.js lines 262-266:
`bookingDateTime - now`, for the clock value `now`. -/
def Booking.getTimeUntilBooking (env : Env) (now : Int) (b : Booking) : JsNum :=
  (dateValue (b.startDateTime env)).sub (dateValue (some now))

/-- `Booking.prototype.shouldSendReminder()`, Booking.js lines 268-287, for the
clock value `now`. A stored `reminderSentAt` is a `Date` object, which is truthy. -/
def BookingRow.shouldSendReminder (env : Env) (now : Int) (row : BookingRow) : Bool :=
  if row.status ≠ .confirmed ∧ row.status ≠ .paid then false
  else if row.reminderSentAt.isSome then false
  else
    let timeUntilBooking := row.toBooking.getTimeUntilBooking env now
    let hoursUntil := timeUntilBooking.div msPerHour
    hoursUntil.le (.fin 24) && hoursUntil.gt (.fin 0)

/-- The statuses that no route reads as a source: `completed`, `no_show`,
`rejected`, `cancelled`. -/
def BookingStatus.isTerminal (s : BookingStatus) : Bool :=
  [BookingStatus.completed, BookingStatus.no_show, BookingStatus.rejected,
    BookingStatus.cancelled].contains s

/-- The booking that a lifecycle request addresses (`req.params.id`); a create
request addresses none. -/
def RowOp.target : RowOp → Option Nat
  | .create _ _ _ _ _ => none
  | .confirm id _ => some id
  | .reject id _ => some id
  | .cancel id _ _ _ _ _ => some id
  | .checkIn id _ _ _ => some id
  | .complete id _ _ => some id

/-- The table after a sequence of requests, one after the other; a request that
is answered with an error writes nothing. -/
def runRowOps (env : Env) (rows : List BookingRow) : List RowOp → List BookingRow
  | [] => rows
  | op :: ops =>
    match applyRowOp env rows op with
    | .ok rows1 => runRowOps env rows1 ops
    | .error _ => runRowOps env rows ops

/-- The date that `new Date(booking.bookingDate + " " + booking.endTime)` builds
(bookings.js line 820), read in local time and with the year rule of
`legacyYear`. -/
def Booking.endDateTime (env : Env) (b : Booking) : JsDate :=
  match legacyDay b.bookingDate with
  | none => none
  | some day =>
    let t := day * msPerDay + (b.endTime : Int) * 60000 - env.tzOffsetMinutes * 60000
    if -maxTimeValue ≤ t ∧ t ≤ maxTimeValue then some t else none

/-- The guard `bookingEndTime > new Date()` of bookings.js line 821, negated:
the two dates are compared by their time values. -/
def Booking.hasEnded (env : Env) (now : Int) (b : Booking) : Bool :=
  !((dateValue (b.endDateTime env)).gt (dateValue (some now)))

/-- `PUT /api/bookings/:id/complete`, bookings.js lines 783-831, on the table
for the clock value `now`: the request of `applyRowOp` with the time guard
evaluated on the booking that the query finds. -/
def completeRoute (env : Env) (now : Int) (rows : List BookingRow) (id : Nat) (owned : Bool) :
    Except Nat (List BookingRow) :=
  applyRowOp env rows (.complete id owned
    (match findRow rows id [.confirmed, .paid] with
      | some booking => booking.toBooking.hasEnded env now
      | none => false))

/-- The expression `booking.bookingDate.toISOString()` of bookings.js line 750.
The column is a `DATEONLY`, whose value Sequelize hands over as the text
`YYYY-MM-DD`; a string has no method `toISOString`, so the call throws a
`TypeError` whatever the date. -/
def dateOnlyToISOString (_bookingDate : Int) : Except JsError String :=
  .error .typeError

/-- Lines 749-752 of bookings.js: `today` and `bookingDate` are built and
compared; the result says whether they are equal. -/
def isBookingToday (now : Int) (bookingDate : Int) : Except JsError Bool := do
  let today ← toISODate (some now)
  let day ← dateOnlyToISOString bookingDate
  return !(day != today)

/-- `POST /api/bookings/:id/checkin`, bookings.js lines 716-778, on the table
for the clock value `now`: the request of `applyRowOp` with the date test
evaluated on the booking that the query finds. -/
def checkInRoute (env : Env) (now : Int) (rows : List BookingRow) (id : Nat) (owned : Bool) :
    Except Nat (List BookingRow) :=
  applyRowOp env rows (.checkIn id owned
    (match findRow rows id [.confirmed, .paid] with
      | some booking => isBookingToday now booking.bookingDate
      | none => .ok false) now)


/-! ## Statistics of the complete route -/

/-- The statistics columns that `PUT /api/bookings/:id/complete` can touch, each
as a map from the primary key of its table to the value of the column:
`users.totalBookings`, `venue_owners.totalBookings`, and `totalBookings` and
`totalRevenue` of `venues` and of `courts`. -/
structure Statistics where
  userTotalBookings : Nat → ℚ
  ownerTotalBookings : Nat → ℚ
  venueTotalBookings : Nat → ℚ
  venueTotalRevenue : Nat → ℚ
  courtTotalBookings : Nat → ℚ
  courtTotalRevenue : Nat → ℚ

/-- Sequelize `instance.increment(fields, options)` with an array of field
names: every field named is raised by `options.by`, which is 1 when `options`
has no key `by`; no other key of `options` is an amount. The result pairs each
field with the amount added. -/
def incrementAmounts (fields : List String) (options : List (String × ℚ)) :
    List (String × ℚ) :=
  fields.map fun f => (f, (options.lookup "by").getD 1)

/-- The amount that an increment adds to a column: 0 when the column is not
named. -/
def amountFor (amounts : List (String × ℚ)) (field : String) : ℚ :=
  (amounts.lookup field).getD 0

/-- The column map with the value at `key` raised by `amount`. -/
def raiseAt (column : Nat → ℚ) (key : Nat) (amount : ℚ) : Nat → ℚ :=
  fun k => if k = key then column k + amount else column k

/-- The three increments of bookings.js lines 834-846 after a booking with the
given `venueAmount` and `totalPrice` was completed. `req.user` is the caller,
whom `requireUserType("venue_owner")` admits only as a venue owner: it is the
row `ownerId` of `venue_owners`, not a row of `users`. -/
def completeStatistics (s : Statistics) (ownerId venueId courtId : Nat)
    (venueAmount totalPrice : ℚ) : Statistics :=
  let callerAmounts := incrementAmounts ["totalBookings"] []
  let venueAmounts :=
    incrementAmounts ["totalBookings", "totalRevenue"] [("totalRevenue", venueAmount)]
  let courtAmounts :=
    incrementAmounts ["totalBookings", "totalRevenue"] [("totalRevenue", totalPrice)]
  { userTotalBookings := s.userTotalBookings
    ownerTotalBookings :=
      raiseAt s.ownerTotalBookings ownerId (amountFor callerAmounts "totalBookings")
    venueTotalBookings :=
      raiseAt s.venueTotalBookings venueId (amountFor venueAmounts "totalBookings")
    venueTotalRevenue :=
      raiseAt s.venueTotalRevenue venueId (amountFor venueAmounts "totalRevenue")
    courtTotalBookings :=
      raiseAt s.courtTotalBookings courtId (amountFor courtAmounts "totalBookings")
    courtTotalRevenue :=
      raiseAt s.courtTotalRevenue courtId (amountFor courtAmounts "totalRevenue") }

/-- Statistics all zero. -/
def zeroStatistics : Statistics where
  userTotalBookings := fun _ => 0
  ownerTotalBookings := fun _ => 0
  venueTotalBookings := fun _ => 0
  venueTotalRevenue := fun _ => 0
  courtTotalBookings := fun _ => 0
  courtTotalRevenue := fun _ => 0

/-! ## The facility of a court (`src/backend/models/Venue.js`) -/

/-- A JavaScript value, as far as its truthiness goes. -/
inductive JsValue where
  | undefined
  | null
  | boolean (b : Bool)
  | number (x : JsNum)
  | string (s : String)
  | object
  deriving DecidableEq

/-- `ToBoolean`. -/
def JsValue.truthy : JsValue → Bool
  | .undefined => false
  | .null => false
  | .boolean b => b
  | .number .nan => false
  | .number (.inf _) => true
  | .number (.fin q) => decide (q ≠ 0)
  | .string s => decide (s ≠ "")
  | .object => true

/-- The attributes of the model `Venue`, Venue.js lines 3-193, with the two
timestamps of `timestamps: true`. -/
def venueAttributes : List String :=
  ["id", "name", "description", "address", "neighborhood", "city", "state", "country",
   "postalCode", "latitude", "longitude", "phoneNumber", "email", "website", "images",
   "mainImage", "amenities", "hasParking", "hasChangingRooms", "hasShower", "hasCafeteria",
   "hasLighting", "hasSecurity", "operatingHours", "cancellationPolicy", "isActive",
   "isVerified", "isFeatured", "totalBookings", "totalRevenue", "averageRating",
   "totalReviews", "popularityScore", "ownerId", "createdAt", "updatedAt"]

/-- A `Venue` instance as the query of bookings.js lines 51-71 loads it: a value
for each attribute of the model and for the included association `owner`. -/
structure VenueInstance where
  values : String → JsValue

/-- Property access `venue[name]`: the value of an attribute or of the included
`owner`; any other name (no route assigns one) reads as `undefined`. -/
def VenueInstance.get (v : VenueInstance) (name : String) : JsValue :=
  if venueAttributes.contains name || name == "owner" then v.values name else .undefined

/-- The condition `court.venue.autoConfirm` of bookings.js line 148. -/
def VenueInstance.autoConfirm (v : VenueInstance) : Bool :=
  (v.get "autoConfirm").truthy

/-- The `status` given to `Booking.create`, bookings.js line 148. -/
def initialStatus (v : VenueInstance) : BookingStatus :=
  if v.autoConfirm then .confirmed else .pending

/-- A venue whose every attribute is the boolean `true`. -/
def sampleVenue : VenueInstance where
  values := fun _ => .boolean true

/-! ## The create route on a request body -/

/-- The fields of `req.body` that scheduling reads: `bookingDate` as the calendar
date `YYYY-MM-DD`, `startTime` as the time of day `HH:MM`, `duration` in minutes.
`id` is the primary key that the new row would get. -/
structure CreateBody where
  id : Nat
  courtId : Nat
  year : Int
  month : Nat
  day : Nat
  startHour : Nat
  startMinute : Nat
  duration : Int

namespace CreateBody

/-- The validators of bookings.js lines 15-18 on these fields: an ISO 8601 date
with a four-digit year, a start time `HH:MM` up to 23:59, a duration from 30 to
480. No validator reads the court. -/
def valid (b : CreateBody) : Bool :=
  decide (0 ≤ b.year) && decide (b.year ≤ 9999) && decide (1 ≤ b.month) && decide (b.month ≤ 12)
    && decide (1 ≤ b.day) && decide (b.day ≤ 31)
    && decide (b.startHour ≤ 23) && decide (b.startMinute ≤ 59)
    && decide (30 ≤ b.duration) && decide (b.duration ≤ 480)

/-- The text `startTime`. -/
def startText (b : CreateBody) : String := hhmm b.startHour b.startMinute

/-- The date of `new Date(bookingDate + " " + startTime)`, line 82: the text is
read in local time and by the legacy rules of `legacyDayOf`. -/
def startValue (env : Env) (b : CreateBody) : JsDate :=
  (legacyDayOf b.year b.month b.day).map fun day =>
    day * msPerDay + ((b.startHour : Int) * 60 + b.startMinute) * 60000
      - env.tzOffsetMinutes * 60000

/-- Minutes after local midnight of the date of line 83,
`startDateTime.getTime() + duration * 60000` (0 when that is an Invalid Date, for
which no row is built). -/
def endMinutes (env : Env) (b : CreateBody) : Nat :=
  match b.startValue env with
  | some start =>
    (((start + b.duration * 60000 + env.tzOffsetMinutes * 60000) / 60000) % 1440).toNat
  | none => 0

/-- The text `endTime` of line 84,
`endDateTime.toTimeString().slice(0, 5)`: the local time of day `HH:MM`; the
first five characters of `Invalid Date` for an Invalid Date. -/
def endText (env : Env) (b : CreateBody) : String :=
  match b.startValue env with
  | some _ => hhmm (b.endMinutes env / 60) (b.endMinutes env % 60)
  | none => "Inval"

end CreateBody

/-- Lines 247-263 of Court.js, the part of `isAvailableAt` after the weekday
name was obtained: the tests on the rule of that weekday and on the blocked
slots. -/
def Court.availableOn (c : Court) (dayOfWeek : String) (date : JsDate)
    (startTime endTime : String) : Except JsError Bool :=
  match Court.dayRuleAt c dayOfWeek with
  | none => .ok false
  | some dayRule =>
    if !dayRule.available then .ok false
    else if strLt startTime dayRule.start || strGt endTime dayRule.stop then .ok false
    else do
      let dateStr ← toISODate date
      let hasBlockedSlot := c.blockedSlots.any (Court.blocks dateStr startTime endTime)
      return !hasBlockedSlot

/-- The create request that `POST /api/bookings` (bookings.js lines 25-149)
makes of a body, for the court that the query of lines 51-71 looks up, the host
zone and the clock value `now`: every check of the route is evaluated as the
source does. The venue of the court is taken to be active and verified; the
database takes the row unless its `endTime` is the text of an Invalid Date. -/
def createRequestOf (env : Env) (now : Int) (court : Court) (v : VenueInstance)
    (b : CreateBody) : CreateRequest where
  id := b.id
  courtId := b.courtId
  bookingDate := daysFromCivil b.year b.month b.day
  startTime := b.startHour * 60 + b.startMinute
  endTime := b.endMinutes env
  inputValid := b.valid
  courtFound := court.isActive && court.isAvailable && !court.maintenanceMode
  startsInFuture := !((dateValue (b.startValue env)).le (dateValue (some now)))
  available :=
    Court.isAvailableAt env court (dateOnly b.year b.month b.day) b.startText (b.endText env)
  price := Court.calculatePrice env court (dateOnly b.year b.month b.day) b.startText b.duration
  rowAccepted := (b.startValue env).isSome
  autoConfirm := v.autoConfirm

/-- `POST /api/bookings` on the table, for a request body. -/
def createRoute (env : Env) (now : Int) (rows : List BookingRow) (court : Court)
    (v : VenueInstance) (ownerRate : Option ℚ) (b : CreateBody) : Except Nat (List BookingRow) :=
  applyRowOp env rows
    (.create (createRequestOf env now court v b) court ownerRate b.duration now)

/-- A request body for court 7 on 2024-06-15. -/
def sampleBody (id startHour startMinute : Nat) (duration : Int) : CreateBody where
  id := id
  courtId := 7
  year := 2024
  month := 6
  day := 15
  startHour := startHour
  startMinute := startMinute
  duration := duration


/-! ## Conflict detection and the ledger invariant -/

/-- Whatever the excluded id, a row returned by the conflict query satisfies the
three-way disjunction, and conversely an active row of the same court and date
whose interval meets the candidate under the half-open rule satisfies the
`where` clause of the query without exclusion. -/
theorem conflictWhere_of_halfOpen (courtId : Nat) (bookingDate : Int) (startTime endTime : Nat)
    (b : Booking) (hc : b.courtId = courtId) (hd : b.bookingDate = bookingDate)
    (ha : b.isActive = true) (h1 : startTime < b.endTime) (h2 : endTime > b.startTime) :
    Booking.conflictWhere courtId bookingDate startTime endTime none b = true := by
  simp only [Booking.conflictWhere, Booking.between, hc, hd, ha, decide_True, Bool.true_and,
    Bool.and_true, Bool.and_eq_true, Bool.or_eq_true, decide_eq_true_eq]
  omega

/-- Rows with pairwise different ids: two members with the same id are equal. -/
theorem eq_of_id_eq {rows : Ledger} (hid : rows.Pairwise fun a b => a.id ≠ b.id)
    {a b : Booking} (ha : a ∈ rows) (hb : b ∈ rows) (h : a.id = b.id) : a = b := by
  by_contra hne
  exact (List.Pairwise.forall (fun x y hxy => Ne.symm hxy) hid ha hb hne) h

/-- What `findOne` returns is a row with the id and one of the statuses asked for. -/
theorem findOne_some {rows : Ledger} {id : Nat} {allowed : List BookingStatus} {b : Booking}
    (h : Booking.findOne rows id allowed = some b) :
    b ∈ rows ∧ b.id = id ∧ b.status ∈ allowed := by
  unfold Booking.findOne at h
  have hm := List.mem_of_find?_eq_some h
  have hp := List.find?_some h
  simp only [Bool.and_eq_true, decide_eq_true_eq] at hp
  exact ⟨hm, hp.1, by simpa using hp.2⟩

/-- Writing a status into a row that was active keeps the invariant. -/
theorem ledgerInv_updateStatus {rows : Ledger} (hinv : LedgerInv rows) {b : Booking}
    (hb : b ∈ rows) (hact : b.isActive = true) (status : BookingStatus) :
    LedgerInv (Booking.updateStatus rows b.id status) := by
  obtain ⟨hid, hnd⟩ := hinv
  have key : ∀ x ∈ rows, ((if x.id = b.id then { x with status := status } else x).isActive = true
      → x.isActive = true) := by
    intro x hx hxa
    by_cases hxi : x.id = b.id
    · rw [eq_of_id_eq hid hx hb hxi]; exact hact
    · simpa [hxi] using hxa
  constructor
  · unfold Booking.updateStatus
    rw [List.pairwise_map]
    refine hid.imp ?_
    intro x y hxy
    by_cases hx : x.id = b.id <;> by_cases hy : y.id = b.id <;> simp [hx, hy] <;> omega
  · unfold NoDoubleBooking Booking.updateStatus
    rw [List.pairwise_map]
    refine List.Pairwise.imp_of_mem ?_ hnd
    intro x y hx hy hR hc hd hxa hya hov
    have hxa1 := key x hx hxa
    have hya1 := key y hy hya
    have hc1 : x.courtId = y.courtId := by
      by_cases h1 : x.id = b.id <;> by_cases h2 : y.id = b.id <;> simpa [h1, h2] using hc
    have hd1 : x.bookingDate = y.bookingDate := by
      by_cases h1 : x.id = b.id <;> by_cases h2 : y.id = b.id <;> simpa [h1, h2] using hd
    refine hR hc1 hd1 hxa1 hya1 ?_
    unfold Booking.overlaps at hov ⊢
    by_cases h1 : x.id = b.id <;> by_cases h2 : y.id = b.id <;> simpa [h1, h2] using hov

/-- A lifecycle route keeps the invariant when every status it starts from is
pending, confirmed or paid. -/
theorem ledgerInv_transition {rows rows1 : Ledger} (hinv : LedgerInv rows) (id : Nat)
    (found : Bool) (allowed : List BookingStatus) (refusal : Option Nat) (status : BookingStatus)
    (hallowed : ∀ s ∈ allowed, s ∈ [BookingStatus.pending, .confirmed, .paid])
    (h : transition rows id found allowed refusal status = .ok rows1) : LedgerInv rows1 := by
  unfold transition at h
  split at h
  · cases h
  · rename_i b hfind
    split at h
    · cases h
    · cases h
      have hsome : Booking.findOne rows id allowed = some b := by
        by_cases hf : found = true
        · simpa [hf] using hfind
        · simp [hf] at hfind
      obtain ⟨hb, _, hst⟩ := findOne_some hsome
      have hact : b.isActive = true := by
        unfold Booking.isActive
        simpa using hallowed _ hst
      exact ledgerInv_updateStatus hinv hb hact status

/-- Every request keeps the invariant. -/
theorem ledgerInv_applyOp {rows rows1 : Ledger} (hinv : LedgerInv rows) (op : LedgerOp)
    (h : applyOp rows op = .ok rows1) : LedgerInv rows1 := by
  cases op with
  | create r =>
    simp only [applyOp] at h
    split at h; · cases h
    split at h; · cases h
    split at h; · cases h
    split at h
    · cases h
    · cases h
    · split at h; · cases h
      rename_i hconf
      split at h
      · cases h
      · split at h; · cases h
        rename_i hins
        cases h
        simp only [Bool.or_eq_true, Bool.not_eq_true', List.any_eq_true, not_or, not_exists,
          not_and, decide_eq_true_eq, Bool.and_eq_true] at hins
        have hnone : Booking.findConflicting rows r.courtId r.bookingDate r.startTime r.endTime
            none = [] := by
          cases hl : Booking.findConflicting rows r.courtId r.bookingDate r.startTime r.endTime none
            with
          | nil => rfl
          | cons a t => simp [hl] at hconf
        obtain ⟨hid, hnd⟩ := hinv
        constructor
        · rw [List.pairwise_append]
          refine ⟨hid, by simp, ?_⟩
          intro a ha b hb
          simp only [List.mem_singleton] at hb
          subst hb
          exact fun hab => hins.1.2 a ha hab
        · unfold NoDoubleBooking
          rw [List.pairwise_append]
          refine ⟨hnd, by simp, ?_⟩
          intro a ha b hb hc hd haa _ hov
          simp only [List.mem_singleton] at hb
          subst hb
          have hw := conflictWhere_of_halfOpen r.courtId r.bookingDate r.startTime r.endTime a
            hc hd haa hov.2 hov.1
          have hmem : a ∈ Booking.findConflicting rows r.courtId r.bookingDate r.startTime
              r.endTime none := by
            unfold Booking.findConflicting
            exact List.mem_filter.mpr ⟨ha, hw⟩
          rw [hnone] at hmem
          cases hmem
  | confirm id owned =>
    simp only [applyOp] at h
    exact ledgerInv_transition hinv id owned _ _ _ (by simp) h
  | reject id owned =>
    simp only [applyOp] at h
    exact ledgerInv_transition hinv id owned _ _ _ (by simp) h
  | cancel id visible canBeCancelled =>
    simp only [applyOp] at h
    exact ledgerInv_transition hinv id visible _ _ _ (by simp) h
  | checkIn id owned isToday =>
    simp only [applyOp] at h
    exact ledgerInv_transition hinv id owned _ _ _ (by simp) h
  | complete id owned hasEnded =>
    simp only [applyOp] at h
    exact ledgerInv_transition hinv id owned _ _ _ (by simp) h

/-- Every reachable ledger satisfies the invariant. -/
theorem ledgerInv_of_reachable {rows : Ledger} (h : Reachable rows) : LedgerInv rows := by
  induction h with
  | empty => exact ⟨List.Pairwise.nil, List.Pairwise.nil⟩
  | step op _ hop ih => exact ledgerInv_applyOp ih op hop

/-! ## Binary64 rounding -/

theorem pow2_eq_zpow (e : Int) : pow2 e = (2 : ℚ) ^ e := by
  unfold pow2
  split
  · rename_i h
    obtain ⟨n, rfl⟩ := Int.eq_ofNat_of_zero_le h
    simp
  · rename_i h
    have h' : e < 0 := not_le.mp h
    obtain ⟨n, hn⟩ := Int.eq_ofNat_of_zero_le (show 0 ≤ -e by omega)
    have : e = -(n : Int) := by omega
    subst this
    simp

theorem pow2_pos (e : Int) : 0 < pow2 e := by
  rw [pow2_eq_zpow]; positivity

theorem pow2_add (a b : Int) : pow2 (a + b) = pow2 a * pow2 b := by
  simp only [pow2_eq_zpow]
  exact zpow_add₀ (by norm_num) a b

theorem pow2_lt_pow2 {a b : Int} (h : a < b) : pow2 a < pow2 b := by
  simp only [pow2_eq_zpow]
  exact zpow_lt_zpow_right₀ (by norm_num) h

theorem pow2_le_pow2 {a b : Int} (h : a ≤ b) : pow2 a ≤ pow2 b := by
  simp only [pow2_eq_zpow]
  exact zpow_le_zpow_right₀ (by norm_num) h

theorem bitLenAux_spec : ∀ (fuel n : Nat), n ≤ fuel →
    n < 2 ^ bitLenAux fuel n ∧ (n ≠ 0 → 2 ^ (bitLenAux fuel n - 1) ≤ n)
  | 0, n, h => by
    have : n = 0 := by omega
    subst this
    simp [bitLenAux]
  | fuel + 1, n, h => by
    unfold bitLenAux
    split
    · rename_i h0
      subst h0
      simp
    · rename_i h0
      have hle : n / 2 ≤ fuel := by omega
      obtain ⟨ih1, ih2⟩ := bitLenAux_spec fuel (n / 2) hle
      constructor
      · rw [pow_succ]; omega
      · intro _
        simp only [Nat.add_sub_cancel]
        by_cases hz : n / 2 = 0
        · have h1 : n = 1 := by omega
          have : bitLenAux fuel (n / 2) = 0 := by
            rw [hz]; cases fuel <;> simp [bitLenAux]
          rw [this]; omega
        · have ih := ih2 hz
          have hL : 1 ≤ bitLenAux fuel (n / 2) := by
            by_contra hc
            have : bitLenAux fuel (n / 2) = 0 := by omega
            rw [this] at ih1
            omega
          obtain ⟨L, hLeq⟩ : ∃ L, bitLenAux fuel (n / 2) = L + 1 := ⟨_, (Nat.sub_add_cancel hL).symm⟩
          rw [hLeq] at ih ⊢
          simp only [Nat.add_sub_cancel] at ih
          rw [pow_succ]; omega

theorem bitLen_spec (n : Nat) (h : n ≠ 0) : 2 ^ (bitLen n - 1) ≤ n ∧ n < 2 ^ bitLen n :=
  ⟨(bitLenAux_spec n n le_rfl).2 h, (bitLenAux_spec n n le_rfl).1⟩

theorem floorLog2_spec (q : ℚ) (hq : 0 < q) :
    pow2 (floorLog2 q) ≤ q ∧ q < pow2 (floorLog2 q + 1) := by
  have hnum : 0 < q.num := Rat.num_pos.mpr hq
  have hN0 : q.num.natAbs ≠ 0 := by omega
  have hD0 : q.den ≠ 0 := q.den_nz
  obtain ⟨hN1, hN2⟩ := bitLen_spec _ hN0
  obtain ⟨hD1, hD2⟩ := bitLen_spec _ hD0
  have ha : 1 ≤ bitLen q.num.natAbs := by
    by_contra hc
    have : bitLen q.num.natAbs = 0 := by omega
    rw [this] at hN2; omega
  have hb : 1 ≤ bitLen q.den := by
    by_contra hc
    have : bitLen q.den = 0 := by omega
    rw [this] at hD2; omega
  obtain ⟨a, hae⟩ : ∃ a, bitLen q.num.natAbs = a + 1 := ⟨_, (Nat.sub_add_cancel ha).symm⟩
  obtain ⟨b, hbe⟩ : ∃ b, bitLen q.den = b + 1 := ⟨_, (Nat.sub_add_cancel hb).symm⟩
  rw [hae] at hN1 hN2
  rw [hbe] at hD1 hD2
  simp only [Nat.add_sub_cancel] at hN1 hD1
  have hqeq : q = (q.num.natAbs : ℚ) / (q.den : ℚ) := by
    have h2 : (q.num.natAbs : ℚ) = (q.num : ℚ) := by
      rw [Nat.cast_natAbs, abs_of_pos hnum]
    rw [h2]
    exact (Rat.num_div_den q).symm
  set N : ℚ := (q.num.natAbs : ℚ) with hNdef
  set D : ℚ := (q.den : ℚ) with hDdef
  have hN1q : (2 : ℚ) ^ a ≤ N := by rw [hNdef]; exact_mod_cast hN1
  have hN2q : N < (2 : ℚ) ^ (a + 1) := by rw [hNdef]; exact_mod_cast hN2
  have hD1q : (2 : ℚ) ^ b ≤ D := by rw [hDdef]; exact_mod_cast hD1
  have hD2q : D < (2 : ℚ) ^ (b + 1) := by rw [hDdef]; exact_mod_cast hD2
  have hDpos : 0 < D := lt_of_lt_of_le (by positivity) hD1q
  have hNpos : 0 < N := lt_of_lt_of_le (by positivity) hN1q
  have e0eq : ((bitLen q.num.natAbs : Int) - (bitLen q.den : Int)) = (a : Int) - (b : Int) := by
    rw [hae, hbe]; push_cast; ring
  have p0 : pow2 ((a : Int) - (b : Int)) = (2 : ℚ) ^ a / (2 : ℚ) ^ b := by
    rw [pow2_eq_zpow, zpow_sub₀ (by norm_num), zpow_natCast, zpow_natCast]
  have p1 : pow2 ((a : Int) - (b : Int) + 1) = (2 : ℚ) ^ (a + 1) / (2 : ℚ) ^ b := by
    rw [show (a : Int) - (b : Int) + 1 = ((a + 1 : Nat) : Int) - (b : Int) by push_cast; ring,
      pow2_eq_zpow, zpow_sub₀ (by norm_num), zpow_natCast, zpow_natCast]
  have pm : pow2 ((a : Int) - (b : Int) - 1) = (2 : ℚ) ^ a / (2 : ℚ) ^ (b + 1) := by
    rw [show (a : Int) - (b : Int) - 1 = (a : Int) - ((b + 1 : Nat) : Int) by push_cast; ring,
      pow2_eq_zpow, zpow_sub₀ (by norm_num), zpow_natCast, zpow_natCast]
  unfold floorLog2
  simp only [e0eq]
  split
  · rename_i hc
    refine ⟨hc, ?_⟩
    rw [p1, hqeq, div_lt_div_iff₀ hDpos (by positivity)]
    calc N * 2 ^ b < 2 ^ (a + 1) * 2 ^ b := by
          exact mul_lt_mul_of_pos_right hN2q (by positivity)
      _ ≤ 2 ^ (a + 1) * D := by
          exact mul_le_mul_of_nonneg_left hD1q (by positivity)
  · rename_i hc
    constructor
    · rw [pm, hqeq, div_le_div_iff₀ (by positivity) hDpos]
      calc 2 ^ a * D ≤ 2 ^ a * 2 ^ (b + 1) := by
            exact mul_le_mul_of_nonneg_left hD2q.le (by positivity)
        _ ≤ N * 2 ^ (b + 1) := by
            exact mul_le_mul_of_nonneg_right hN1q (by positivity)
    · rw [show (a : Int) - (b : Int) - 1 + 1 = (a : Int) - (b : Int) by ring]
      exact not_le.mp hc

theorem floorLog2_unique (q : ℚ) (hq : 0 < q) (e : Int) (h1 : pow2 e ≤ q) (h2 : q < pow2 (e + 1)) :
    floorLog2 q = e := by
  obtain ⟨s1, s2⟩ := floorLog2_spec q hq
  have a1 : floorLog2 q < e + 1 := by
    by_contra hc
    have := pow2_le_pow2 (not_lt.mp hc)
    linarith
  have a2 : e < floorLog2 q + 1 := by
    by_contra hc
    have := pow2_le_pow2 (not_lt.mp hc)
    linarith
  omega

theorem roundHalfEven_intCast (k : Int) : roundHalfEven (k : ℚ) = k := by
  unfold roundHalfEven
  simp

theorem floor_le_roundHalfEven (x : ℚ) : ⌊x⌋ ≤ roundHalfEven x := by
  unfold roundHalfEven
  simp only
  split
  · exact le_rfl
  · split
    · omega
    · split <;> omega

theorem roundHalfEven_le_floor_add_one (x : ℚ) : roundHalfEven x ≤ ⌊x⌋ + 1 := by
  unfold roundHalfEven
  simp only
  split
  · omega
  · split
    · omega
    · split <;> omega

theorem pow2_zero : pow2 0 = 1 := by
  rw [pow2_eq_zpow]; simp

theorem pow2_natCast (n : Nat) : pow2 (n : Int) = (2 : ℚ) ^ n := by
  rw [pow2_eq_zpow, zpow_natCast]

/-- A finite result of binary64 rounding that is at least `10^21` is an integer
and is its own rounding. -/
theorem flPos_large_fixed (q r : ℚ) (hq : 0 < q) (h : flPos q = .fin r)
    (hbig : (10 : ℚ) ^ 21 ≤ r) : (∃ z : Int, r = (z : ℚ)) ∧ flPos r = .fin r := by
  obtain ⟨s1, s2⟩ := floorLog2_spec q hq
  unfold flPos at h
  simp only at h
  split at h
  · cases h
  rename_i hfin
  injection h with hr
  by_cases hsub : floorLog2 q < -1022
  · exfalso
    rw [max_eq_right hsub.le] at hr
    have hu : 0 < pow2 (-1022 - 52) := pow2_pos _
    have hq2 : q < pow2 (-1022) := lt_of_lt_of_le s2 (pow2_le_pow2 (by omega))
    have hk : ((roundHalfEven (q / pow2 (-1022 - 52)) : Int) : ℚ) ≤ q / pow2 (-1022 - 52) + 1 := by
      have h1 := roundHalfEven_le_floor_add_one (q / pow2 (-1022 - 52))
      have h2 : ((roundHalfEven (q / pow2 (-1022 - 52)) : Int) : ℚ)
          ≤ ((⌊q / pow2 (-1022 - 52)⌋ + 1 : Int) : ℚ) := by exact_mod_cast h1
      have h3 := Int.floor_le (q / pow2 (-1022 - 52))
      push_cast at h2
      linarith
    have hr2 : r ≤ q + pow2 (-1022 - 52) := by
      rw [← hr]
      calc ((roundHalfEven (q / pow2 (-1022 - 52)) : Int) : ℚ) * pow2 (-1022 - 52)
          ≤ (q / pow2 (-1022 - 52) + 1) * pow2 (-1022 - 52) :=
            mul_le_mul_of_nonneg_right hk hu.le
        _ = q + pow2 (-1022 - 52) := by field_simp
    have h4 : pow2 (-1022) ≤ 1 := by
      rw [← pow2_zero]; exact pow2_le_pow2 (by omega)
    have h5 : pow2 (-1022 - 52) ≤ 1 := by
      rw [← pow2_zero]; exact pow2_le_pow2 (by omega)
    have : r ≤ 2 := by linarith
    have : (10 : ℚ) ^ 21 ≤ 2 := le_trans hbig this
    norm_num at this
  · have hmax : max (floorLog2 q) (-1022) = floorLog2 q := max_eq_left (not_lt.mp hsub)
    rw [hmax] at hr hfin
    set e := floorLog2 q with he
    set u := pow2 (e - 52) with hu
    set k := roundHalfEven (q / u) with hk
    have hupos : 0 < u := pow2_pos _
    have hesplit : pow2 e = pow2 52 * u := by
      rw [hu, ← pow2_add]; congr 1; ring
    have he1split : pow2 (e + 1) = pow2 53 * u := by
      rw [hu, ← pow2_add]; congr 1; ring
    have p52 : pow2 52 = ((2 ^ 52 : Int) : ℚ) := by
      rw [show (52 : Int) = ((52 : Nat) : Int) by rfl, pow2_natCast]; norm_num
    have p53 : pow2 53 = ((2 ^ 53 : Int) : ℚ) := by
      rw [show (53 : Int) = ((53 : Nat) : Int) by rfl, pow2_natCast]; norm_num
    have hx1 : ((2 ^ 52 : Int) : ℚ) ≤ q / u := by
      rw [le_div_iff₀ hupos, ← p52, ← hesplit]; exact s1
    have hx2 : q / u < ((2 ^ 53 : Int) : ℚ) := by
      rw [div_lt_iff₀ hupos, ← p53, ← he1split]; exact s2
    have hk1 : (2 ^ 52 : Int) ≤ k := by
      have := floor_le_roundHalfEven (q / u)
      have h2 : (2 ^ 52 : Int) ≤ ⌊q / u⌋ := Int.le_floor.mpr hx1
      omega
    have hk2 : k ≤ (2 ^ 53 : Int) := by
      have := roundHalfEven_le_floor_add_one (q / u)
      have h2 : ⌊q / u⌋ < (2 ^ 53 : Int) := Int.floor_lt.mpr hx2
      omega
    have hk1q : ((2 ^ 52 : Int) : ℚ) ≤ (k : ℚ) := by exact_mod_cast hk1
    have hk2q : (k : ℚ) ≤ ((2 ^ 53 : Int) : ℚ) := by exact_mod_cast hk2
    have hkpos : (0 : ℚ) < (k : ℚ) := lt_of_lt_of_le (by norm_num) hk1q
    have hrpos : 0 < r := by rw [← hr]; positivity
    -- the unit in the last place is a power of two with positive exponent
    have hepos : 0 < e - 52 := by
      by_contra hc
      have hu1 : u ≤ 1 := by
        rw [← pow2_zero, hu]; exact pow2_le_pow2 (not_lt.mp hc)
      have : r ≤ ((2 ^ 53 : Int) : ℚ) * 1 := by
        rw [← hr]
        exact mul_le_mul hk2q hu1 hupos.le (by positivity)
      have : (10 : ℚ) ^ 21 ≤ ((2 ^ 53 : Int) : ℚ) * 1 := le_trans hbig this
      norm_num at this
    obtain ⟨m, hm⟩ := Int.eq_ofNat_of_zero_le hepos.le
    have humm : u = (((2 ^ m : Nat) : Int) : ℚ) := by
      rw [hu, hm, pow2_natCast]; push_cast; rfl
    refine ⟨⟨k * ((2 ^ m : Nat) : Int), ?_⟩, ?_⟩
    · rw [← hr, humm]; push_cast; ring
    · by_cases hktop : k = (2 ^ 53 : Int)
      · have hre : r = pow2 (e + 1) := by
          rw [he1split, p53, ← hr, hktop]
        have hfl : floorLog2 r = e + 1 :=
          floorLog2_unique r hrpos (e + 1) (by rw [hre]) (by rw [hre]; exact pow2_lt_pow2 (by omega))
        unfold flPos
        simp only
        rw [hfl, max_eq_left (by omega : (-1022 : Int) ≤ e + 1)]
        have hu2 : pow2 (e + 1 - 52) = 2 * u := by
          rw [hu, show e + 1 - 52 = 1 + (e - 52) by ring, pow2_add]
          congr 1
        have hdiv : r / pow2 (e + 1 - 52) = ((2 ^ 52 : Int) : ℚ) := by
          rw [hu2, ← hr, hktop]
          field_simp
          norm_num
          ring
        rw [hdiv, roundHalfEven_intCast, hu2]
        have hval : ((2 ^ 52 : Int) : ℚ) * (2 * u) = r := by
          rw [← hr, hktop]; norm_num; ring
        rw [hval, if_neg (by rw [← hr]; exact hfin)]
      · have hklt : k < (2 ^ 53 : Int) := lt_of_le_of_ne hk2 hktop
        have hkltq : (k : ℚ) < ((2 ^ 53 : Int) : ℚ) := by exact_mod_cast hklt
        have h1 : pow2 e ≤ r := by
          rw [hesplit, p52, ← hr]
          exact mul_le_mul_of_nonneg_right hk1q hupos.le
        have h2 : r < pow2 (e + 1) := by
          rw [he1split, p53, ← hr]
          exact mul_lt_mul_of_pos_right hkltq hupos
        have hfl : floorLog2 r = e := floorLog2_unique r hrpos e h1 h2
        unfold flPos
        simp only
        rw [hfl, max_eq_left (not_lt.mp hsub), ← hu]
        have hdiv : r / u = (k : ℚ) := by
          rw [← hr]; field_simp
        rw [hdiv, roundHalfEven_intCast, hr, if_neg (by rw [← hr]; exact hfin)]

theorem fl_neg (x : ℚ) : fl (-x) = (fl x).neg := by
  unfold fl
  rcases lt_trichotomy x 0 with h | h | h
  · have h1 : ¬ (-x = 0) := by intro hc; linarith
    have h2 : 0 < -x := by linarith
    have h3 : ¬ (x = 0) := ne_of_lt h
    have h4 : ¬ (0 < x) := not_lt.mpr h.le
    simp only [h1, h2, h3, h4, if_false, if_true, neg_neg]
    cases flPos (-x) <;> simp [JsNum.neg]
  · subst h; simp [JsNum.neg]
  · have h1 : ¬ (-x = 0) := by intro hc; linarith
    have h2 : ¬ (0 < -x) := by linarith
    have h3 : ¬ (x = 0) := ne_of_gt h
    simp only [h1, h2, h3, h, if_false, if_true, neg_neg]

theorem halfUp2_intCast (z : Int) : halfUp2 (z : ℚ) = z := by
  unfold halfUp2
  have key : ∀ w : Int, ⌊(w : ℚ) * 100 + 1 / 2⌋ = w * 100 := by
    intro w
    rw [Int.floor_eq_iff]
    push_cast
    constructor <;> linarith
  split
  · have : (-(z : ℚ)) = ((-z : Int) : ℚ) := by push_cast; ring
    rw [this, key]; push_cast; ring
  · rw [key]; push_cast; ring

/-- The text of `toFixed(2)` read back by `parseFloat` is the half-up rounding to
two decimals, for every number that binary64 rounding can produce. -/
theorem parseFloat_toFixed2_fl (y q : ℚ) (h : fl y = .fin q) :
    parseFloat (toFixed2 (.fin q)) = roundHalfUp2 (.fin q) := by
  unfold toFixed2 roundHalfUp2
  simp only
  split
  · rename_i hbig
    simp only [parseFloat]
    rcases lt_trichotomy y 0 with hy | hy | hy
    · have hfl : fl y = (flPos (-y)).neg := by
        unfold fl
        rw [if_neg (ne_of_lt hy), if_neg (not_lt.mpr hy.le)]
      rw [hfl] at h
      cases hp : flPos (-y) with
      | nan => rw [hp] at h; cases h
      | inf s => rw [hp] at h; cases h
      | fin r =>
        rw [hp] at h
        simp only [JsNum.neg, JsNum.fin.injEq] at h
        have hrq : r = -q := by rw [← h]; ring
        have hr0 : 0 ≤ r := by
          unfold flPos at hp
          simp only at hp
          split at hp
          · cases hp
          · injection hp with hp
            rw [← hp]
            have hfloor : (0 : Int) ≤ roundHalfEven (-y / pow2 (max (floorLog2 (-y)) (-1022) - 52)) :=
              le_trans (Int.floor_nonneg.mpr (div_nonneg (by linarith) (pow2_pos _).le))
                (floor_le_roundHalfEven _)
            have : (0 : ℚ) ≤ (roundHalfEven (-y / pow2 (max (floorLog2 (-y)) (-1022) - 52)) : ℚ) := by
              exact_mod_cast hfloor
            exact mul_nonneg this (pow2_pos _).le
        have hrbig : (10 : ℚ) ^ 21 ≤ r := by
          rw [hrq] at hr0 ⊢
          have : |q| = -q := abs_of_nonpos (by linarith)
          rw [← this]; exact hbig
        obtain ⟨⟨z, hz⟩, hfix⟩ := flPos_large_fixed (-y) r (by linarith) hp hrbig
        have hqz : q = ((-z : Int) : ℚ) := by push_cast; rw [← hz, hrq]; ring
        rw [hqz, halfUp2_intCast, ← hqz]
        have hrpos : 0 < r := lt_of_lt_of_le (by norm_num) hrbig
        have hq1 : ¬ (q = 0) := by intro hc; rw [hc] at hrq; linarith
        have hq2 : ¬ (0 < q) := by linarith
        unfold fl
        rw [if_neg hq1, if_neg hq2, ← hrq, hfix]
        simp [JsNum.neg, hrq]
    · subst hy
      simp only [fl, if_true, JsNum.fin.injEq] at h
      subst h
      norm_num at hbig
    · have hfl : fl y = flPos y := by
        unfold fl
        rw [if_neg (ne_of_gt hy), if_pos hy]
      rw [hfl] at h
      have hq0 : 0 ≤ q := by
        unfold flPos at h
        simp only at h
        split at h
        · cases h
        · injection h with h
          rw [← h]
          have hfloor : (0 : Int) ≤ roundHalfEven (y / pow2 (max (floorLog2 y) (-1022) - 52)) :=
            le_trans (Int.floor_nonneg.mpr (div_nonneg hy.le (pow2_pos _).le))
              (floor_le_roundHalfEven _)
          have : (0 : ℚ) ≤ (roundHalfEven (y / pow2 (max (floorLog2 y) (-1022) - 52)) : ℚ) := by
            exact_mod_cast hfloor
          exact mul_nonneg this (pow2_pos _).le
      have hqbig : (10 : ℚ) ^ 21 ≤ q := by rw [← abs_of_nonneg hq0]; exact hbig
      obtain ⟨⟨z, hz⟩, hfix⟩ := flPos_large_fixed y q hy h hqbig
      rw [hz, halfUp2_intCast, ← hz]
      have hqpos : 0 < q := lt_of_lt_of_le (by norm_num) hqbig
      unfold fl
      rw [if_neg (ne_of_gt hqpos), if_pos hqpos, hfix]
  · simp only [parseFloat, halfUp2]
    by_cases hneg : q < 0
    · have habs : |q| = -q := abs_of_neg hneg
      have hfl0 : (0 : Int) ≤ ⌊-q * 100 + 1 / 2⌋ := Int.floor_nonneg.mpr (by linarith)
      have hcast : ((⌊-q * 100 + 1 / 2⌋.toNat : Nat) : ℚ) = ((⌊-q * 100 + 1 / 2⌋ : Int) : ℚ) := by
        have := Int.toNat_of_nonneg hfl0
        exact_mod_cast this
      simp only [hneg, decide_True, if_true, habs, hcast]
      rw [fl_neg]
    · have habs : |q| = q := abs_of_nonneg (not_lt.mp hneg)
      have hfl0 : (0 : Int) ≤ ⌊q * 100 + 1 / 2⌋ := Int.floor_nonneg.mpr (by linarith [not_lt.mp hneg])
      have hcast : ((⌊q * 100 + 1 / 2⌋.toNat : Nat) : ℚ) = ((⌊q * 100 + 1 / 2⌋ : Int) : ℚ) := by
        have := Int.toNat_of_nonneg hfl0
        exact_mod_cast this
      simp only [hneg, decide_False, if_false, habs, hcast]
      simp

theorem mul_eq_fin {x y : JsNum} {q : ℚ} (h : x.mul y = .fin q) : ∃ z : ℚ, fl z = .fin q := by
  cases x with
  | nan => simp [JsNum.mul] at h
  | inf s =>
    cases y with
    | nan => simp [JsNum.mul] at h
    | inf t => simp [JsNum.mul] at h
    | fin b =>
      simp only [JsNum.mul] at h
      split at h <;> cases h
  | fin a =>
    cases y with
    | nan => simp [JsNum.mul] at h
    | inf t =>
      simp only [JsNum.mul] at h
      split at h <;> cases h
    | fin b => exact ⟨a * b, by simpa [JsNum.mul] using h⟩

/-- On a product, `parseFloat(x.toFixed(2))` is the half-up rounding to two decimals. -/
theorem parseFloat_toFixed2_mul (x y : JsNum) :
    parseFloat (toFixed2 (x.mul y)) = roundHalfUp2 (x.mul y) := by
  cases h : x.mul y with
  | nan => rfl
  | inf s => rfl
  | fin q =>
    obtain ⟨z, hz⟩ := mul_eq_fin h
    exact parseFloat_toFixed2_fl z q hz

/-! ## Claims on conflict detection and the ledger -/

/-- C1, where the code departs from it: with a pending booking 10:00-11:00 stored,
`Booking.findConflicting` for the candidate 11:00-12:00 of the same court and
date returns that booking, although the two intervals do not intersect under the
half-open rule (`start < e` fails: the booking ends exactly when the candidate
starts). Times are minutes after midnight. -/
theorem findConflicting_returns_touching_booking :
    Booking.findConflicting [sampleRow 1 600 660 .pending] 7 19889 660 720 none
      = [sampleRow 1 600 660 .pending]
    ∧ ¬ ((660 : Nat) < (sampleRow 1 600 660 .pending).endTime
          ∧ (720 : Nat) > (sampleRow 1 600 660 .pending).startTime) := by
  decide

/-- C2: in every ledger reachable from the empty one by create, confirm, reject,
cancel, check-in and complete requests (whatever the checks of those routes that
do not read the ledger answer), no two distinct bookings of the same court and
date that are both pending, confirmed or paid intersect under the half-open
rule. -/
theorem no_double_booking (rows : Ledger) (h : Reachable rows) :
    ∀ a ∈ rows, ∀ b ∈ rows, a ≠ b → a.courtId = b.courtId → a.bookingDate = b.bookingDate →
      a.isActive = true → b.isActive = true → ¬ Booking.overlaps a b := by
  intro a ha b hb hab
  have hsymm : Symmetric fun (a b : Booking) =>
      a.courtId = b.courtId → a.bookingDate = b.bookingDate →
        a.isActive = true → b.isActive = true → ¬ Booking.overlaps a b := by
    intro x y hxy hc hd hya hxa hov
    exact hxy hc.symm hd.symm hxa hya ⟨by unfold Booking.overlaps at hov; omega,
      by unfold Booking.overlaps at hov; omega⟩
  exact List.Pairwise.forall hsymm (ledgerInv_of_reachable h).2 ha hb hab

/-- The sample ledger is reachable. -/
theorem sampleLedger_reachable : Reachable sampleLedger := by
  have h1 : Reachable [sampleRow 1 600 660 .pending] :=
    Reachable.step (.create (sampleRequest 1 7 600 660 false)) Reachable.empty (by decide)
  have h2 : Reachable [sampleRow 1 600 660 .pending, sampleRow 2 720 780 .confirmed] :=
    Reachable.step (.create (sampleRequest 2 7 720 780 true)) h1 (by decide)
  exact Reachable.step (.confirm 1 true) h2 (by decide)

/-- C2 at the sample ledger, which is reachable and holds two bookings. -/
theorem no_double_booking_witness :
    Reachable sampleLedger ∧
    ∀ a ∈ sampleLedger, ∀ b ∈ sampleLedger, a ≠ b → a.courtId = b.courtId →
      a.bookingDate = b.bookingDate → a.isActive = true → b.isActive = true →
        ¬ Booking.overlaps a b :=
  ⟨sampleLedger_reachable, no_double_booking sampleLedger sampleLedger_reachable⟩

/-! ## Claims on pricing -/

/-- The result of `calculatePrice` is the half-up rounding to two decimal places
of the binary64 product, for the multiplier that the lookup gives; the error of
the lookup when it gives none. -/

theorem calculatePrice_rounds_product_once (env : Env) (c : Court) (date : JsDate)
    (startTime : String) (duration : Int) :
    Court.calculatePrice env c date startTime duration
      = (Court.multiplierAt c.priceRules (Court.ruleKeyOf env date)
            (Court.timeSlotOf (parseInt (splitColonHead startTime)))).map
          fun multiplier =>
            roundHalfUp2 (((fl c.basePrice).mul multiplier).mul ((fl duration).div (fl 60))) := by
  simp only [Court.calculatePrice, bind, Except.bind, pure, Except.pure, Except.map]
  cases Court.multiplierAt c.priceRules (Court.ruleKeyOf env date)
      (Court.timeSlotOf (parseInt (splitColonHead startTime))) with
  | error e => rfl
  | ok m => simp only [parseFloat_toFixed2_mul]

theorem splitColonHead_hhmm (hh mm : Nat) (h : hh < 24) :
    splitColonHead (hhmm hh mm) = padDigits 2 hh := by
  interval_cases hh <;> rfl

/-- The hour that `calculatePrice` reads from a time `HH:MM`. -/

theorem parseInt_hhmm (hh mm : Nat) (h : hh < 24) :
    parseInt (splitColonHead (hhmm hh mm)) = .fin (hh : ℚ) := by
  rw [splitColonHead_hhmm hh mm h]
  interval_cases hh <;> decide!

/-- The day part chosen by lines 233-235 for an hour `n` is the one the
specification names. -/

theorem timeSlotOf_natCast (n : Nat) : Court.timeSlotOf (.fin (n : ℚ)) = specDayPart n := by
  unfold Court.timeSlotOf specDayPart
  simp only [JsNum.lt, JsNum.ge, decide_eq_true_eq, Bool.not_eq_true', decide_eq_false_iff_not,
    not_lt]
  have h12 : ((n : ℚ) < 12) ↔ n < 12 := by exact_mod_cast Iff.rfl
  have h18 : ((18 : ℚ) ≤ (n : ℚ)) ↔ 18 ≤ n := by exact_mod_cast Iff.rfl
  simp only [h12, h18]

/-- The row chosen by lines 229-230 and 237 for a valid date is the one the
specification names, for the weekday that `getDay` reports. -/

theorem ruleKeyOf_some (env : Env) (t : Int) :
    Court.ruleKeyOf env (some t) = specDayKind (weekDay (localDay env t)) := by
  unfold Court.ruleKeyOf specDayKind getDay
  simp only [JsNum.strictEq, Bool.or_eq_true, decide_eq_true_eq, JsNum.fin.injEq]
  have h0 : (((weekDay (localDay env t) : Nat) : ℚ) = 0) ↔ weekDay (localDay env t) = 0 := by
    exact_mod_cast Iff.rfl
  have h6 : (((weekDay (localDay env t) : Nat) : ℚ) = 6) ↔ weekDay (localDay env t) = 6 := by
    exact_mod_cast Iff.rfl
  simp only [h0, h6, or_comm]

/-- The weekday of a date-only string's day, on a host at or east of UTC: the
local day of midnight UTC is that same day. -/

theorem localDay_dateOnly_east (env : Env) (day : Int) (h0 : 0 ≤ env.tzOffsetMinutes)
    (h1 : env.tzOffsetMinutes < 1440) : localDay env (day * msPerDay) = day := by
  unfold localDay msPerDay
  omega

/-- On a host west of UTC (by at most a day) the local day of midnight UTC is
the day before. -/

theorem localDay_dateOnly_west (env : Env) (day : Int) (h0 : env.tzOffsetMinutes < 0)
    (h1 : -1440 ≤ env.tzOffsetMinutes) : localDay env (day * msPerDay) = day - 1 := by
  unfold localDay msPerDay
  omega

/-- With the host's zone fixed, `calculatePrice` is a function of the court and
its three arguments: equal inputs give equal results. -/

theorem calculatePrice_deterministic (env : Env) (c1 c2 : Court) (d1 d2 : JsDate)
    (s1 s2 : String) (n1 n2 : Int) (hc : c1 = c2) (hd : d1 = d2) (hs : s1 = s2) (hn : n1 = n2) :
    Court.calculatePrice env c1 d1 s1 n1 = Court.calculatePrice env c2 d2 s2 n2 := by
  rw [hc, hd, hs, hn]

/-- C5, where the code departs from it: for the court with base price 3000 and
the default table (weekend/night 1.4, weekday/night 1.2),
`calculatePrice("2024-06-15", "19:00", 60)` is 4200 on a host in UTC but 3600 on
a host in UTC-03:00, where `getDay()` of midnight UTC of that Saturday is Friday;
the result is not a function of the court and the three arguments alone. -/

theorem calculatePrice_saturday_depends_on_host_zone :
    Court.calculatePrice ⟨0⟩ (defaultCourt 3000) (dateOnly 2024 6 15) "19:00" 60
      = .ok (.fin 4200)
    ∧ Court.calculatePrice ⟨-180⟩ (defaultCourt 3000) (dateOnly 2024 6 15) "19:00" 60
      = .ok (.fin 3600)
    ∧ getDay ⟨-180⟩ (dateOnly 2024 6 15) = .fin 5 := by
  decide!

/-- C6 as stated fails: for a court whose weekend/night entry has no
`multiplier` field, `calculatePrice` on a Saturday at 19:00 does not fail; it
returns `NaN`. -/

theorem calculatePrice_returns_nan_without_multiplier :
    Court.calculatePrice ⟨0⟩ (courtWithWeekendRow (some weekendRowWithoutNightMultiplier)) (dateOnly 2024 6 15) "19:00" 60
      = .ok .nan := by
  decide!

theorem mul_nan_right (x : JsNum) : x.mul .nan = .nan := by
  cases x <;> rfl

theorem mul_nan_left (x : JsNum) : JsNum.nan.mul x = .nan := by
  cases x <;> rfl

/-- C6, amended: when the row selected by the date is missing, or the entry
selected by the start time is missing from that row, `calculatePrice` throws a
`TypeError` and returns no price; when the entry is there but has no
`multiplier` field, `calculatePrice` does not fail and returns `NaN`. -/

theorem calculatePrice_missing_bucket (env : Env) (c : Court) (date : JsDate)
    (startTime : String) (duration : Int) :
    (Court.rowAt c.priceRules (Court.ruleKeyOf env date) = none →
      Court.calculatePrice env c date startTime duration = .error .typeError)
    ∧ (∀ row, Court.rowAt c.priceRules (Court.ruleKeyOf env date) = some row →
        Court.entryAt row (Court.timeSlotOf (parseInt (splitColonHead startTime))) = none →
        Court.calculatePrice env c date startTime duration = .error .typeError)
    ∧ (∀ row entry, Court.rowAt c.priceRules (Court.ruleKeyOf env date) = some row →
        Court.entryAt row (Court.timeSlotOf (parseInt (splitColonHead startTime))) = some entry →
        entry.multiplier = none →
        Court.calculatePrice env c date startTime duration = .ok .nan) := by
  refine ⟨?_, ?_, ?_⟩
  · intro h
    simp only [Court.calculatePrice, Court.multiplierAt, h, bind, Except.bind]
  · intro row h1 h2
    simp only [Court.calculatePrice, Court.multiplierAt, h1, h2, bind, Except.bind]
  · intro row entry h1 h2 h3
    simp only [Court.calculatePrice, Court.multiplierAt, h1, h2, h3, bind, Except.bind,
      pure, Except.pure, mul_nan_right, mul_nan_left]
    rfl

/-- C6, amended, at three courts on Saturday 2024-06-15, 19:00: no weekend row,
no night entry, a night entry without multiplier. -/

theorem calculatePrice_missing_bucket_witness :
    Court.calculatePrice ⟨0⟩ (courtWithWeekendRow none) (dateOnly 2024 6 15) "19:00" 60
      = .error .typeError
    ∧ Court.calculatePrice ⟨0⟩ (courtWithWeekendRow (some weekendRowWithoutNight))
        (dateOnly 2024 6 15) "19:00" 60 = .error .typeError
    ∧ Court.calculatePrice ⟨0⟩ (courtWithWeekendRow (some weekendRowWithoutNightMultiplier))
        (dateOnly 2024 6 15) "19:00" 60 = .ok .nan :=
  ⟨(calculatePrice_missing_bucket ⟨0⟩ (courtWithWeekendRow none) (dateOnly 2024 6 15) "19:00"
      60).1 (by decide!),
   (calculatePrice_missing_bucket ⟨0⟩ (courtWithWeekendRow (some weekendRowWithoutNight))
      (dateOnly 2024 6 15) "19:00" 60).2.1 weekendRowWithoutNight (by decide!) (by decide!),
   (calculatePrice_missing_bucket ⟨0⟩ (courtWithWeekendRow (some weekendRowWithoutNightMultiplier))
      (dateOnly 2024 6 15) "19:00" 60).2.2 weekendRowWithoutNightMultiplier
      ⟨none, some "Nocturno (18:00+)"⟩ (by decide!) (by decide!) (by decide!)⟩

/-! ## Claims on availability and slot generation -/

/-- The value `"lowercase"` is not one that the `weekday` option admits: for a
valid date the call of lines 245 and 267 throws a `RangeError`. -/

theorem toLocaleDateString_lowercase (env : Env) (t : Int) :
    toLocaleDateString env (some t) "lowercase" = .error .rangeError := by
  simp only [toLocaleDateString]
  rw [if_neg (by decide)]

/-- The blocked-slot test of lines 258-261 is the half-open rule on the entries
stored for the same date string. -/

theorem blocks_iff (dateStr startTime endTime : String) (slot : BlockedSlot) :
    Court.blocks dateStr startTime endTime slot = true
      ↔ slot.date = dateStr
        ∧ ¬ (strLe endTime slot.startTime = true ∨ strGe startTime slot.endTime = true) := by
  unfold Court.blocks
  simp

/-- C7, where the code departs from it: for the default court (open 08:00-23:00
every day) with one blocked entry stored for another date, the window
10:00-11:00 on 2024-06-15 is inside the open hours and no entry of that date
blocks it, yet `isAvailableAt` does not return `true`: it throws a `RangeError`. -/

theorem isAvailableAt_throws_for_unblocked_window :
    Court.isAvailableAt ⟨0⟩ (courtWithBlock "2024-06-16" "10:00" "11:00") (dateOnly 2024 6 15)
      "10:00" "11:00" = .error .rangeError
    ∧ (courtWithBlock "2024-06-16" "10:00" "11:00").blockedSlots.any
        (Court.blocks "2024-06-15" "10:00" "11:00") = false := by
  decide

/-- C8, where the code departs from it: for every court, every host zone, every
valid date and every window, `isAvailableAt` does not end with a boolean and
reads no availability rule: it throws a `RangeError` in its first statement. -/

theorem isAvailableAt_throws_on_every_valid_date (env : Env) (c : Court) (t : Int)
    (startTime endTime : String) :
    Court.isAvailableAt env c (some t) startTime endTime = .error .rangeError := by
  unfold Court.isAvailableAt
  rw [toLocaleDateString_lowercase]
  rfl

/-- C9, where the code departs from it: for the court open 08:00-23:00 every
day with slot duration 60 and the one blocked entry 12:00-13:00 on 2024-06-15,
`getAvailableSlots` of that date returns no list of 14 slots: it throws a
`RangeError`, however many loop iterations are allowed and whatever the host
zone. -/

theorem getAvailableSlots_throws_for_default_hours (fuel : Nat) (env : Env) :
    Court.getAvailableSlots fuel env (courtWithBlock "2024-06-15" "12:00" "13:00")
      (dateOnly 2024 6 15) = .error .rangeError := by
  unfold Court.getAvailableSlots dateOnly
  rw [toLocaleDateString_lowercase]
  rfl

/-- C10, where the code departs from it: for a court closed on Saturdays,
`getAvailableSlots` of Saturday 2024-06-15 does not return the empty list: it
throws a `RangeError` before it reads the day's rule. -/

theorem getAvailableSlots_throws_on_closed_day (fuel : Nat) (env : Env) :
    Court.getAvailableSlots fuel env courtClosedOnSaturday (dateOnly 2024 6 15)
      = .error .rangeError
    ∧ (Court.dayRuleAt courtClosedOnSaturday "saturday").map (fun r => r.available)
      = some false := by
  constructor
  · unfold Court.getAvailableSlots dateOnly
    rw [toLocaleDateString_lowercase]
    rfl
  · decide


/-! ## Claims on the availability filter, amounts and booking numbers -/

/-- C11, where the code departs from it: with the pending booking 10:00-11:00
stored, the slot 09:00-10:00 survives the booking filter of the availability
route, yet `Booking.findConflicting` for 09:00-10:00 returns that booking (its
start 10:00 is between 09:00 and 10:00, both ends included), so the create
route refuses the slot that the availability route reports. -/
theorem reported_slot_is_refused_by_conflict_query :
    survivesBookingFilter [sampleRow 1 600 660 .pending] ⟨"09:00", "10:00", .fin 3000⟩ = true
    ∧ Booking.findConflicting [sampleRow 1 600 660 .pending] 7 19889 540 600 none
      = [sampleRow 1 600 660 .pending] := by
  decide

/-- C12, where the code departs from it: a booking of 1000.50 (base price
1000.50, weekday afternoon, 60 minutes) created for an owner with commission
rate 0.15 is stored with `commissionAmount` 150.08 and `venueAmount` 850.43,
whose sum is 1000.51, not the stored `totalPrice` 1000.50: the hook computes
150.075 and 850.425 and each is rounded on its own when written. -/
theorem stored_amounts_miss_total_at_half_cent :
    Court.calculatePrice ⟨0⟩ (defaultCourt (100050 / 100)) (dateOnly 2024 6 12) "14:00" 60
      = .ok (fl (100050 / 100))
    ∧ createAmounts (defaultCourt (100050 / 100)) (some (15 / 100)) 60 (fl (100050 / 100))
      = some (.val (100050 / 100), .val 1,
          { totalPrice := .val (100050 / 100), commissionRate := .val (15 / 100),
            commissionAmount := .val (15008 / 100), venueAmount := .val (85043 / 100) })
    ∧ (15008 / 100 : ℚ) + 85043 / 100 ≠ 100050 / 100 := by
  refine ⟨by decide!, by decide!, by norm_num⟩

/-- The values that lines 117-147 of bookings.js compute for the columns of a
new row (lines which no request reaches as long as line 95 throws): for a court
with base price 0 the price is 0 and `priceMultiplier` is `0 / (0 * 1)`, the
value `NaN`, not the weekday/afternoon multiplier 1 that was applied; for a
court with base price 0.01 on a weekday morning (multiplier 0.8) the price
rounds to 0.01 and `priceMultiplier` is 1, not 0.8. -/
theorem stored_priceMultiplier_is_not_the_applied_one :
    Court.calculatePrice ⟨0⟩ (defaultCourt 0) (dateOnly 2024 6 12) "14:00" 60 = .ok (.fin 0)
    ∧ createAmounts (defaultCourt 0) (some (1 / 10)) 60 (.fin 0)
      = some (.val 0, .nan,
          { totalPrice := .val 0, commissionRate := .val (1 / 10), commissionAmount := .val 0,
            venueAmount := .val 0 })
    ∧ Court.multiplierAt (defaultCourt (1 / 100)).priceRules .weekday .morning
      = .ok (fl (8 / 10))
    ∧ Court.calculatePrice ⟨0⟩ (defaultCourt (1 / 100)) (dateOnly 2024 6 12) "09:00" 60
      = .ok (fl (1 / 100))
    ∧ createAmounts (defaultCourt (1 / 100)) (some (1 / 10)) 60 (fl (1 / 100))
      = some (.val (1 / 100), .val 1,
          { totalPrice := .val (1 / 100), commissionRate := .val (1 / 10),
            commissionAmount := .val 0, venueAmount := .val (1 / 100) }) := by
  decide!

/-- C15, where the code departs from it: with the number `TY-20240615-9999`
stored, `generateBookingNumber` on 2024-06-15 returns `TY-20240615-10000`, whose
sequence part has five digits: `padStart(4, "0")` pads but does not limit. -/
theorem generateBookingNumber_five_digits :
    generateBookingNumber (19889 * msPerDay + 5000) ["TY-20240615-9999"] = "TY-20240615-10000"
    ∧ isBookingNumberFormat "TY-20240615-10000" = false
    ∧ isBookingNumberFormat "TY-20240615-9999" = true := by
  decide!

/-- The three steps of lines 102-149 of bookings.js (conflict query, number
allocation, insert) composed in two orders for two requests of court 7 on the
same date, 10:00-11:00 and 10:30-11:30; no request reaches these lines as long
as line 95 throws. Both conflict checks run on the empty table and pass; then
the first request allocates its number and inserts, then the second does: both
rows are stored, both pending, and they overlap. When both requests allocate
their number before either inserts, both hold `TY-20240615-0001` and the second
insert is refused by the unique index. Run one after the other, the second
request is refused by the conflict check. -/
theorem interleaved_creates_double_book :
    conflictFree [] (sampleRequest 1 7 600 660 false) = true
    ∧ conflictFree [] (sampleRequest 2 7 630 690 false) = true
    ∧ insertRow []
        (newRow (sampleRequest 1 7 600 660 false) 60
          (allocateNumber (19889 * msPerDay + 5000) []) sampleAmounts)
      = .ok [sampleBookingRow 1 600 660 .pending "TY-20240615-0001"]
    ∧ insertRow [sampleBookingRow 1 600 660 .pending "TY-20240615-0001"]
        (newRow (sampleRequest 2 7 630 690 false) 60
          (allocateNumber (19889 * msPerDay + 5000)
            [sampleBookingRow 1 600 660 .pending "TY-20240615-0001"]) sampleAmounts)
      = .ok [sampleBookingRow 1 600 660 .pending "TY-20240615-0001",
             sampleBookingRow 2 630 690 .pending "TY-20240615-0002"]
    ∧ Booking.overlaps (sampleBookingRow 1 600 660 .pending "TY-20240615-0001").toBooking
        (sampleBookingRow 2 630 690 .pending "TY-20240615-0002").toBooking
    ∧ insertRow [sampleBookingRow 1 600 660 .pending "TY-20240615-0001"]
        (newRow (sampleRequest 2 7 630 690 false) 60
          (allocateNumber (19889 * msPerDay + 5000) []) sampleAmounts)
      = .error 500
    ∧ conflictFree [sampleBookingRow 1 600 660 .pending "TY-20240615-0001"]
        (sampleRequest 2 7 630 690 false) = false := by
  refine ⟨by decide, by decide, by decide!, by decide!, ?_, by decide!, by decide⟩
  unfold Booking.overlaps
  decide


/-! ## Claims on the commission rate and on cancellation -/

/-- A decimal with four decimals is its own rounding to four decimals. -/
theorem roundScale_four_of_tenThousandths (k : Nat) :
    roundScale 4 ((k : ℚ) / 10000) = (k : ℚ) / 10000 := by
  unfold roundScale
  have hnn : ¬ ((k : ℚ) / 10000 < 0) := by
    have : (0 : ℚ) ≤ (k : ℚ) / 10000 := by positivity
    linarith
  rw [if_neg hnn]
  have hfloor : ⌊(k : ℚ) / 10000 * (10 : ℚ) ^ 4 + 1 / 2⌋ = (k : Int) := by
    rw [Int.floor_eq_iff]
    constructor
    · push_cast; norm_num
    · push_cast; norm_num
  rw [hfloor]
  push_cast
  norm_num

/-- A lifecycle write on the table keeps the id, the rate and the amounts of
every row. -/
theorem commissionColumns_updateRow (rows : List BookingRow) (id : Nat)
    (f : BookingRow → BookingRow) (hf : ∀ r, commissionColumns (f r) = commissionColumns r) :
    (updateRow rows id f).map commissionColumns = rows.map commissionColumns := by
  unfold updateRow
  rw [List.map_map]
  apply List.map_congr_left
  intro r _
  simp only [Function.comp]
  split
  · exact hf r
  · rfl

theorem commissionColumns_transitionRow {rows rows1 : List BookingRow} {id : Nat} {found : Bool}
    {allowed : List BookingStatus} {refusal : Option Nat} {write : BookingRow → BookingRow}
    (h : transitionRow rows id found allowed refusal write = .ok rows1)
    (hw : ∀ r, commissionColumns (write r) = commissionColumns r) :
    rows1.map commissionColumns = rows.map commissionColumns := by
  unfold transitionRow at h
  split at h
  · cases h
  · split at h
    · cases h
    · cases h
      exact commissionColumns_updateRow rows _ _ hw

theorem commissionColumns_cancelRoute {env : Env} {now1 now2 now3 : Int}
    {rows rows1 : List BookingRow} {id : Nat} {visible : Bool} {actor : UserType}
    (h : cancelRoute env now1 now2 now3 rows id visible actor = .ok rows1) :
    rows1.map commissionColumns = rows.map commissionColumns := by
  unfold cancelRoute at h
  split at h
  · cases h
  · split at h
    · cases h
    · split at h
      · cases h
      · split at h
        · cases h
        · cases h
          exact commissionColumns_updateRow rows _ _ (fun r => rfl)

/-- What a successful create does to the table: it appends the new row. -/
theorem applyRowOp_create_ok {env : Env} {rows rows1 : List BookingRow} {r : CreateRequest}
    {court : Court} {ownerRate : Option ℚ} {duration : Int} {now : Int}
    (h : applyRowOp env rows (.create r court ownerRate duration now) = .ok rows1) :
    ∃ price amounts, r.price = .ok price
      ∧ createAmounts court ownerRate duration price = some amounts
      ∧ rows1 = rows ++ [newRow r duration (allocateNumber now rows) amounts] := by
  simp only [applyRowOp] at h
  split at h; · cases h
  split at h; · cases h
  split at h; · cases h
  split at h
  · cases h
  · cases h
  · split at h; · cases h
    split at h
    · cases h
    · rename_i price hprice
      split at h
      · cases h
      · rename_i amounts hamounts
        split at h; · cases h
        unfold insertRow at h
        split at h
        · cases h
        · cases h
          exact ⟨price, amounts, hprice, hamounts, rfl⟩

/-- The rate that `createAmounts` stores for an owner rate with four decimals
between 0 and 1 is that rate. -/
theorem createAmounts_commissionRate {c : Court} {r : ℚ} {duration : Int} {price : JsNum}
    {amounts : PgNumeric × PgNumeric × StoredAmounts} (h0 : 0 ≤ r) (h1 : r ≤ 1)
    (h4 : ∃ k : Nat, r = (k : ℚ) / 10000)
    (h : createAmounts c (some r) duration price = some amounts) :
    amounts.2.2.commissionRate = .val r := by
  obtain ⟨k, rfl⟩ := h4
  have hw : writeDecimalText 5 4 ((k : ℚ) / 10000) = some (.val ((k : ℚ) / 10000)) := by
    unfold writeDecimalText
    rw [roundScale_four_of_tenThousandths, if_neg]
    rw [abs_of_nonneg h0]
    norm_num
    linarith
  simp only [createAmounts, effectiveCommissionRate, hw, Option.bind_eq_bind, Option.some_bind,
    Option.bind_eq_some, Option.pure_def, Option.some.injEq] at h
  obtain ⟨b, _, m, _, t, _, ca, _, va, _, rfl⟩ := h
  rfl

/-- C13: for every owner commission rate `r` with `0 ≤ r ≤ 1` (a value of the
`DECIMAL(5,4)` column), a booking that the create request stores has
`commissionRate = r`; and every request whatsoever (a lifecycle request, or a
create for an owner rate that has changed since) leaves the id, the rate and the
two amounts of every row already stored as they are. -/
theorem commissionRate_is_snapshot :
    (∀ (env : Env) (rows rows1 : List BookingRow) (req : CreateRequest) (court : Court)
        (r : ℚ) (duration now : Int), 0 ≤ r → r ≤ 1 → (∃ k : Nat, r = (k : ℚ) / 10000) →
        applyRowOp env rows (.create req court (some r) duration now) = .ok rows1 →
        ∃ row, rows1 = rows ++ [row] ∧ row.commissionRate = .val r)
    ∧ (∀ (env : Env) (rows rows1 : List BookingRow) (op : RowOp),
        applyRowOp env rows op = .ok rows1 →
        (rows1.map commissionColumns).take rows.length = rows.map commissionColumns) := by
  constructor
  · intro env rows rows1 req court r duration now h0 h1 h4 h
    obtain ⟨price, amounts, _, hamounts, hrows⟩ := applyRowOp_create_ok h
    exact ⟨_, hrows, createAmounts_commissionRate h0 h1 h4 hamounts⟩
  · intro env rows rows1 op h
    cases op with
    | create r court ownerRate duration now =>
      obtain ⟨price, amounts, _, _, hrows⟩ := applyRowOp_create_ok h
      rw [hrows, List.map_append, List.take_append_of_le_length (by simp)]
      simp
    | confirm id owned =>
      simp only [applyRowOp] at h
      rw [commissionColumns_transitionRow h (fun r => rfl)]; simp
    | reject id owned =>
      simp only [applyRowOp] at h
      rw [commissionColumns_transitionRow h (fun r => rfl)]; simp
    | cancel id visible actor now1 now2 now3 =>
      simp only [applyRowOp] at h
      rw [commissionColumns_cancelRoute h]; simp
    | checkIn id owned isToday now =>
      simp only [applyRowOp] at h
      rw [commissionColumns_transitionRow h (fun r => rfl)]; simp
    | complete id owned hasEnded =>
      simp only [applyRowOp] at h
      rw [commissionColumns_transitionRow h (fun r => rfl)]; simp

/-- C13 at an owner rate of 0: the create request stores the rate 0, and a later
create for the owner rate 0.2 leaves the stored row as it is. -/
theorem commissionRate_is_snapshot_witness :
    (∃ row, [sampleRowRateZero] = [] ++ [row] ∧ row.commissionRate = .val 0)
    ∧ ([sampleRowRateZero, sampleRowRateFifth].map commissionColumns).take
        [sampleRowRateZero].length = [sampleRowRateZero].map commissionColumns :=
  ⟨commissionRate_is_snapshot.1 ⟨0⟩ [] [sampleRowRateZero] (sampleRequest 1 7 600 660 false)
      (defaultCourt 3000) 0 60 sampleNow (by norm_num) (by norm_num) ⟨0, by norm_num⟩
      (by decide!),
   commissionRate_is_snapshot.2 ⟨0⟩ [sampleRowRateZero] [sampleRowRateZero, sampleRowRateFifth]
      (.create (sampleRequest 2 7 720 780 false) (defaultCourt 3000) (some (2 / 10)) 60
        sampleNow) (by decide!)⟩

theorem ge_of_gt_twentyFour (x : JsNum) (h : x.gt (.fin 24) = true) :
    x.ge (.fin 24) = true := by
  cases x with
  | nan => simp [JsNum.gt, JsNum.lt] at h
  | inf s =>
    cases s
    · rfl
    · simp [JsNum.gt, JsNum.lt] at h
  | fin a =>
    simp only [JsNum.gt, JsNum.lt, decide_eq_true_eq] at h
    simp only [JsNum.ge, JsNum.lt, Bool.not_eq_true', decide_eq_false_iff_not, not_lt]
    exact h.le

/-- With one clock value for both reads, `calculateRefundAmount` is the full
`totalPrice` when `canBeCancelled` holds and 0 otherwise. -/
theorem calculateRefundAmount_same_clock (env : Env) (now : Int) (row : BookingRow) :
    row.calculateRefundAmount env now now
      = if row.toBooking.canBeCancelled env now = true then .column row.totalPrice
        else .number (.fin 0) := by
  unfold BookingRow.calculateRefundAmount
  by_cases hc : row.toBooking.canBeCancelled env now = true
  · have hgt : (row.toBooking.hoursUntilBooking env now).gt (.fin 24) = true := by
      unfold Booking.canBeCancelled at hc
      split at hc
      · cases hc
      · exact hc
    simp only [hc, Bool.not_true, if_true, ge_of_gt_twentyFour _ hgt]
    rfl
  · simp only [hc, Bool.not_eq_true] at *
    simp [hc]

theorem findRow_some {rows : List BookingRow} {id : Nat} {allowed : List BookingStatus}
    {b : BookingRow} (h : findRow rows id allowed = some b) :
    b ∈ rows ∧ b.id = id ∧ b.status ∈ allowed := by
  unfold findRow at h
  have hm := List.mem_of_find?_eq_some h
  have hp := List.find?_some h
  simp only [Bool.and_eq_true, decide_eq_true_eq] at hp
  exact ⟨hm, hp.1, by simpa using hp.2⟩

/-- C19: for every booking and every single clock value `now`,
`calculateRefundAmount` returns 0 when `canBeCancelled` is false and the full
`totalPrice` when it is true (so never the 50% tier), and a cancel request that
succeeds stores the booking's `totalPrice` as `refundAmount`. -/
theorem refund_is_zero_or_full (env : Env) (now : Int) :
    (∀ row : BookingRow,
      (row.toBooking.canBeCancelled env now = false →
        row.calculateRefundAmount env now now = .number (.fin 0))
      ∧ (row.toBooking.canBeCancelled env now = true →
        row.calculateRefundAmount env now now = .column row.totalPrice))
    ∧ (∀ (rows rows1 : List BookingRow) (id : Nat) (visible : Bool) (actor : UserType),
        cancelRoute env now now now rows id visible actor = .ok rows1 →
        ∃ booking, findRow rows id [.pending, .confirmed, .paid] = some booking
          ∧ rows1 = updateRow rows booking.id fun r =>
              { r with status := .cancelled, refundAmount := some booking.totalPrice,
                       cancelledBy := some actor.text }) := by
  constructor
  · intro row
    constructor
    · intro h
      rw [calculateRefundAmount_same_clock, h]; rfl
    · intro h
      rw [calculateRefundAmount_same_clock, h]; rfl
  · intro rows rows1 id visible actor h
    unfold cancelRoute at h
    split at h
    · cases h
    · rename_i booking hfind
      have hsome : findRow rows id [.pending, .confirmed, .paid] = some booking := by
        by_cases hv : visible = true
        · simpa [hv] using hfind
        · simp [hv] at hfind
      split at h
      · cases h
      · rename_i hcan
        have hcan1 : booking.toBooking.canBeCancelled env now = true := by
          simpa using hcan
        rw [calculateRefundAmount_same_clock, hcan1] at h
        simp only [if_true, writeRefund] at h
        split at h
        · cases h
        · cases h
          exact ⟨booking, hsome, rfl⟩


/-! ## Order facts of binary64 rounding -/

theorem roundHalfEven_le_of_le_intCast (x : ℚ) (m : Int) (h : x ≤ m) :
    roundHalfEven x ≤ m := by
  rcases eq_or_lt_of_le h with h1 | h1
  · rw [h1, roundHalfEven_intCast]
  · have h2 : ⌊x⌋ < m := Int.floor_lt.mpr h1
    have h3 := roundHalfEven_le_floor_add_one x
    omega

theorem intCast_le_roundHalfEven (x : ℚ) (m : Int) (h : (m : ℚ) ≤ x) :
    m ≤ roundHalfEven x := by
  have h2 : m ≤ ⌊x⌋ := Int.le_floor.mpr h
  have h3 := floor_le_roundHalfEven x
  omega

theorem pow2_split (e : Int) (k : Nat) :
    pow2 e = ((2 ^ k : Int) : ℚ) * pow2 (e - k) := by
  have h : pow2 e = pow2 ((k : Int) + (e - k)) := by congr 1; ring
  rw [h, pow2_add, pow2_natCast]
  push_cast
  rfl

/-- Rounding a value at or above a binary64 number `c` gives a result at or
above `c`. -/
theorem flPos_ge_grid (q c : ℚ) (ec m : Int) (hc1 : pow2 ec ≤ c) (hc2 : c < pow2 (ec + 1))
    (hec : -1022 ≤ ec) (hm : c = (m : ℚ) * pow2 (ec - 52)) (hq : c ≤ q) :
    flPos q = .inf false ∨ ∃ r, flPos q = .fin r ∧ c ≤ r := by
  have hc0 : 0 < c := lt_of_lt_of_le (pow2_pos ec) hc1
  have hq0 : 0 < q := lt_of_lt_of_le hc0 hq
  obtain ⟨s1, s2⟩ := floorLog2_spec q hq0
  have hle : ec ≤ floorLog2 q := by
    by_contra hcon
    have h1 : floorLog2 q + 1 ≤ ec := by omega
    have h2 := pow2_le_pow2 h1
    linarith
  have hmax : max (floorLog2 q) (-1022) = floorLog2 q := max_eq_left (by omega)
  unfold flPos
  simp only [hmax]
  split
  · left; rfl
  · right
    refine ⟨_, rfl, ?_⟩
    have hu : 0 < pow2 (floorLog2 q - 52) := pow2_pos _
    rcases eq_or_lt_of_le hle with he | he
    · rw [← he]
      have h1 : (m : ℚ) ≤ q / pow2 (ec - 52) := by
        rw [le_div_iff₀ (pow2_pos _), ← hm]; exact hq
      have h2 := intCast_le_roundHalfEven _ _ h1
      have h3 : (m : ℚ) ≤ (roundHalfEven (q / pow2 (ec - 52)) : ℚ) := by exact_mod_cast h2
      calc c = m * pow2 (ec - 52) := hm
        _ ≤ _ := mul_le_mul_of_nonneg_right h3 (pow2_pos _).le
    · have hsplit := pow2_split (floorLog2 q) 52
      have h1 : (((2 ^ 52 : Int)) : ℚ) ≤ q / pow2 (floorLog2 q - 52) := by
        rw [le_div_iff₀ hu]
        have h0 : ((52 : Nat) : Int) = 52 := rfl
        rw [h0] at hsplit
        linarith
      have h2 := intCast_le_roundHalfEven _ _ h1
      have h3 : (((2 ^ 52 : Int)) : ℚ) ≤ (roundHalfEven (q / pow2 (floorLog2 q - 52)) : ℚ) := by
        exact_mod_cast h2
      have h4 := mul_le_mul_of_nonneg_right h3 hu.le
      have h0 : ((52 : Nat) : Int) = 52 := rfl
      rw [h0] at hsplit
      have h5 : pow2 (ec + 1) ≤ pow2 (floorLog2 q) := pow2_le_pow2 (by omega)
      rw [← hsplit] at h4
      linarith

/-- Rounding a positive value at or below a binary64 number `c` gives a finite
result between 0 and `c`. -/
theorem flPos_le_grid (q c : ℚ) (ec m : Int) (hc1 : pow2 ec ≤ c) (hc2 : c < pow2 (ec + 1))
    (hec : -1022 ≤ ec) (hec2 : ec < 1024) (hm : c = (m : ℚ) * pow2 (ec - 52))
    (hq0 : 0 < q) (hq : q ≤ c) :
    ∃ r, flPos q = .fin r ∧ 0 ≤ r ∧ r ≤ c := by
  obtain ⟨s1, s2⟩ := floorLog2_spec q hq0
  have hfl : floorLog2 q ≤ ec := by
    by_contra hcon
    have h1 : ec + 1 ≤ floorLog2 q := by omega
    have h2 := pow2_le_pow2 h1
    linarith
  have hemax : max (floorLog2 q) (-1022) ≤ ec := max_le hfl hec
  have hfle : floorLog2 q ≤ max (floorLog2 q) (-1022) := le_max_left _ _
  generalize hE : max (floorLog2 q) (-1022) = e at hemax hfle
  have hu : 0 < pow2 (e - 52) := pow2_pos _
  have hr0 : (0 : ℚ) ≤ (roundHalfEven (q / pow2 (e - 52)) : ℚ) * pow2 (e - 52) := by
    have h1 : ((0 : Int) : ℚ) ≤ q / pow2 (e - 52) := by
      push_cast; exact (div_pos hq0 hu).le
    have h2 := intCast_le_roundHalfEven _ _ h1
    have h3 : (0 : ℚ) ≤ (roundHalfEven (q / pow2 (e - 52)) : ℚ) := by exact_mod_cast h2
    exact mul_nonneg h3 hu.le
  have hrc : (roundHalfEven (q / pow2 (e - 52)) : ℚ) * pow2 (e - 52) ≤ c := by
    rcases eq_or_lt_of_le hemax with he | he
    · rw [he]
      have h1 : q / pow2 (ec - 52) ≤ (m : ℚ) := by
        rw [div_le_iff₀ (pow2_pos _), ← hm]; exact hq
      have h2 := roundHalfEven_le_of_le_intCast _ _ h1
      have h3 : (roundHalfEven (q / pow2 (ec - 52)) : ℚ) ≤ (m : ℚ) := by exact_mod_cast h2
      calc _ ≤ (m : ℚ) * pow2 (ec - 52) := mul_le_mul_of_nonneg_right h3 (pow2_pos _).le
        _ = c := hm.symm
    · have hsplit := pow2_split (e + 1) 53
      have h0 : e + 1 - ((53 : Nat) : Int) = e - 52 := by push_cast; ring
      rw [h0] at hsplit
      have h6 : pow2 (floorLog2 q + 1) ≤ pow2 (e + 1) := pow2_le_pow2 (by omega)
      have h1 : q / pow2 (e - 52) ≤ (((2 ^ 53 : Int)) : ℚ) := by
        rw [div_le_iff₀ hu]
        linarith
      have h2 := roundHalfEven_le_of_le_intCast _ _ h1
      have h3 : (roundHalfEven (q / pow2 (e - 52)) : ℚ) ≤ (((2 ^ 53 : Int)) : ℚ) := by
        exact_mod_cast h2
      have h4 := mul_le_mul_of_nonneg_right h3 hu.le
      have h5 : pow2 (e + 1) ≤ pow2 ec := pow2_le_pow2 (by omega)
      rw [← hsplit] at h4
      linarith
  have hfin : ¬ pow2 1024 ≤ (roundHalfEven (q / pow2 (e - 52)) : ℚ) * pow2 (e - 52) := by
    have h1 : pow2 (ec + 1) ≤ pow2 1024 := pow2_le_pow2 (by omega)
    intro hcon
    linarith
  refine ⟨(roundHalfEven (q / pow2 (e - 52)) : ℚ) * pow2 (e - 52), ?_, hr0, hrc⟩
  unfold flPos
  simp only [hE]
  rw [if_neg hfin]

theorem flPos_sign (p : ℚ) (hp : 0 < p) :
    flPos p = .inf false ∨ ∃ r, flPos p = .fin r ∧ 0 ≤ r := by
  unfold flPos
  simp only
  split
  · left; rfl
  · right
    refine ⟨_, rfl, ?_⟩
    have hu := pow2_pos (max (floorLog2 p) (-1022) - 52)
    have h1 : ((0 : Int) : ℚ) ≤ p / pow2 (max (floorLog2 p) (-1022) - 52) := by
      push_cast; exact (div_pos hp hu).le
    have h2 := intCast_le_roundHalfEven _ _ h1
    have h3 : (0 : ℚ) ≤ (roundHalfEven (p / pow2 (max (floorLog2 p) (-1022) - 52)) : ℚ) := by
      exact_mod_cast h2
    exact mul_nonneg h3 hu.le

theorem fl_ge_grid (q c : ℚ) (ec m : Int) (hc1 : pow2 ec ≤ c) (hc2 : c < pow2 (ec + 1))
    (hec : -1022 ≤ ec) (hm : c = (m : ℚ) * pow2 (ec - 52)) (hq : c ≤ q) :
    fl q = .inf false ∨ ∃ r, fl q = .fin r ∧ c ≤ r := by
  have hc0 : 0 < c := lt_of_lt_of_le (pow2_pos ec) hc1
  have hq0 : 0 < q := lt_of_lt_of_le hc0 hq
  unfold fl
  rw [if_neg (ne_of_gt hq0), if_pos hq0]
  exact flPos_ge_grid q c ec m hc1 hc2 hec hm hq

theorem fl_le_grid (q c : ℚ) (ec m : Int) (hc1 : pow2 ec ≤ c) (hc2 : c < pow2 (ec + 1))
    (hec : -1022 ≤ ec) (hec2 : ec < 1024) (hm : c = (m : ℚ) * pow2 (ec - 52)) (hq : q ≤ c) :
    fl q = .inf true ∨ ∃ r, fl q = .fin r ∧ r ≤ c := by
  have hc0 : 0 < c := lt_of_lt_of_le (pow2_pos ec) hc1
  rcases lt_trichotomy q 0 with h | h | h
  · have hneg := fl_neg (-q)
    rw [neg_neg] at hneg
    have hfl : fl (-q) = flPos (-q) := by
      unfold fl
      rw [if_neg (by intro hc; linarith), if_pos (by linarith)]
    rcases flPos_sign (-q) (by linarith) with h1 | ⟨r, h1, h2⟩
    · left; rw [hneg, hfl, h1]; rfl
    · right
      refine ⟨-r, ?_, by linarith⟩
      rw [hneg, hfl, h1]; rfl
  · right
    refine ⟨0, ?_, hc0.le⟩
    rw [h]; unfold fl; simp
  · right
    unfold fl
    rw [if_neg (ne_of_gt h), if_pos h]
    obtain ⟨r, h1, _, h3⟩ := flPos_le_grid q c ec m hc1 hc2 hec hec2 hm h hq
    exact ⟨r, h1, h3⟩

theorem msPerHour_eq : msPerHour = .fin 3600000 := by decide!

/-- More than 86400000 ms, so at least 86400001, gives an hour count above 24. -/
theorem hours_gt_of_more (d : ℚ) (h : 86400001 ≤ d) :
    ((fl d).div msPerHour).gt (.fin 24) = true := by
  rw [msPerHour_eq]
  rcases fl_ge_grid d 86400001 26 (86400001 * 2 ^ 26) (by decide!) (by decide!) (by decide)
    (by decide!) h with h1 | ⟨r, h1, h2⟩
  · rw [h1]; decide!
  · rw [h1]
    have hdiv : (JsNum.fin r).div (.fin 3600000) = fl (r / 3600000) := by
      simp [JsNum.div]
    rw [hdiv]
    have h3 : (24 + 1 / 2 ^ 40 : ℚ) ≤ r / 3600000 := by
      rw [le_div_iff₀ (by norm_num)]
      have : (24 + 1 / 2 ^ 40 : ℚ) * 3600000 ≤ 86400001 := by norm_num
      linarith
    rcases fl_ge_grid _ (24 + 1 / 2 ^ 40) 4 (24 * 2 ^ 48 + 2 ^ 8) (by decide!) (by decide!)
      (by decide) (by decide!) h3 with h4 | ⟨r2, h4, h5⟩
    · rw [h4]; rfl
    · rw [h4]
      simp only [JsNum.gt, JsNum.lt, decide_eq_true_eq]
      have : (0 : ℚ) < 1 / 2 ^ 40 := by norm_num
      linarith

/-- At most 86400000 ms gives an hour count that is not above 24. -/
theorem hours_not_gt_of_at_most (d : ℚ) (h : d ≤ 86400000) :
    ((fl d).div msPerHour).gt (.fin 24) = false := by
  rw [msPerHour_eq]
  rcases fl_le_grid d 86400000 26 (86400000 * 2 ^ 26) (by decide!) (by decide!) (by decide)
    (by decide) (by decide!) h with h1 | ⟨r, h1, h2⟩
  · rw [h1]; decide!
  · rw [h1]
    have hdiv : (JsNum.fin r).div (.fin 3600000) = fl (r / 3600000) := by
      simp [JsNum.div]
    rw [hdiv]
    have h3 : r / 3600000 ≤ (24 : ℚ) := by
      rw [div_le_iff₀ (by norm_num)]
      linarith
    rcases fl_le_grid _ 24 4 (24 * 2 ^ 48) (by decide!) (by decide!)
      (by decide) (by decide) (by decide!) h3 with h4 | ⟨r2, h4, h5⟩
    · rw [h4]; rfl
    · rw [h4]
      simp only [JsNum.gt, JsNum.lt, decide_eq_false_iff_not, not_lt]
      exact h5

theorem isActive_iff (b : Booking) :
    b.isActive = true ↔ (b.status = .pending ∨ b.status = .confirmed ∨ b.status = .paid) := by
  unfold Booking.isActive
  cases b.status <;> decide

theorem hoursUntilBooking_of_start (env : Env) (now : Int) (b : Booking) (bs : Int)
    (hs : b.startDateTime env = some bs) :
    b.hoursUntilBooking env now = (fl (((bs - now : Int) : ℚ))).div msPerHour := by
  unfold Booking.hoursUntilBooking
  rw [hs]
  simp only [dateValue, JsNum.sub]
  push_cast
  rfl

/-- When the date that `new Date` builds for the start of a booking is `bs`,
`canBeCancelled` returns true if and only if the status is pending, confirmed or
paid and `(bs - now)` in hours is strictly greater than 24. -/
theorem canBeCancelled_iff_active_and_over_24_hours (env : Env) (now : Int) (b : Booking)
    (bs : Int) (hs : b.startDateTime env = some bs) :
    b.canBeCancelled env now = true ↔
      (b.status = .pending ∨ b.status = .confirmed ∨ b.status = .paid)
        ∧ (24 : ℚ) < ((bs - now : Int) : ℚ) / 3600000 := by
  rw [← isActive_iff]
  have hh := hoursUntilBooking_of_start env now b bs hs
  have hlt : (24 : ℚ) < ((bs - now : Int) : ℚ) / 3600000 ↔ 86400001 ≤ bs - now := by
    rw [lt_div_iff₀ (by norm_num)]
    constructor
    · intro h
      have h1 : ((86400000 : Int) : ℚ) < ((bs - now : Int) : ℚ) := by
        push_cast at h ⊢; linarith
      have h2 : (86400000 : Int) < bs - now := by exact_mod_cast h1
      omega
    · intro h
      have h1 : ((86400001 : Int) : ℚ) ≤ ((bs - now : Int) : ℚ) := by exact_mod_cast h
      push_cast at h1 ⊢; linarith
  rw [hlt]
  unfold Booking.canBeCancelled
  by_cases ha : b.isActive = true
  · simp only [ha, Bool.not_true, Bool.false_eq_true, if_false, true_and]
    rw [hh]
    by_cases hd : 86400001 ≤ bs - now
    · have h1 : (86400001 : ℚ) ≤ ((bs - now : Int) : ℚ) := by exact_mod_cast hd
      simp only [hours_gt_of_more _ h1, hd]
    · have h0 : bs - now ≤ 86400000 := by omega
      have h1 : ((bs - now : Int) : ℚ) ≤ (86400000 : ℚ) := by exact_mod_cast h0
      simp only [hours_not_gt_of_at_most _ h1, hd]
      simp
  · simp [ha]

/-- C19 on the sample booking at one clock value 25 hours before its start: the
refund computed is the `totalPrice` column, and the cancel request stores it. -/
theorem refund_is_zero_or_full_witness :
    (sampleBookingRow 1 600 660 .confirmed "TY-20240601-0001").calculateRefundAmount ⟨0⟩
        (sampleStart - 90000000) (sampleStart - 90000000)
      = .column (sampleBookingRow 1 600 660 .confirmed "TY-20240601-0001").totalPrice
    ∧ (sampleBookingRow 1 600 660 .completed "TY-20240601-0001").calculateRefundAmount ⟨0⟩
        (sampleStart - 90000000) (sampleStart - 90000000) = .number (.fin 0)
    ∧ ∃ booking,
        findRow [sampleBookingRow 1 600 660 .confirmed "TY-20240601-0001"] 1
          [.pending, .confirmed, .paid] = some booking
        ∧ [{ sampleBookingRow 1 600 660 .confirmed "TY-20240601-0001" with
              status := .cancelled, refundAmount := some (.val 3000),
              cancelledBy := some "user" }]
          = updateRow [sampleBookingRow 1 600 660 .confirmed "TY-20240601-0001"] booking.id
              fun r => { r with status := .cancelled, refundAmount := some booking.totalPrice,
                                cancelledBy := some UserType.user.text } :=
  ⟨((refund_is_zero_or_full ⟨0⟩ (sampleStart - 90000000)).1
      (sampleBookingRow 1 600 660 .confirmed "TY-20240601-0001")).2 (by decide!),
   ((refund_is_zero_or_full ⟨0⟩ (sampleStart - 90000000)).1
      (sampleBookingRow 1 600 660 .completed "TY-20240601-0001")).1 (by decide!),
   (refund_is_zero_or_full ⟨0⟩ (sampleStart - 90000000)).2
      [sampleBookingRow 1 600 660 .confirmed "TY-20240601-0001"]
      [{ sampleBookingRow 1 600 660 .confirmed "TY-20240601-0001" with
          status := .cancelled, refundAmount := some (.val 3000),
          cancelledBy := some "user" }] 1 true .user (by decide!)⟩

/-- At exactly 24 hours before the start the sample booking cannot be cancelled:
`hoursUntilBooking` is 24, `canBeCancelled` is false, the cancel request answers
400 and writes nothing. -/
theorem cancel_at_exactly_24_hours_is_rejected :
    (sampleBookingRow 1 600 660 .confirmed "TY-20240601-0001").toBooking.hoursUntilBooking ⟨0⟩
        (sampleStart - 86400000) = .fin 24
    ∧ (sampleBookingRow 1 600 660 .confirmed "TY-20240601-0001").toBooking.canBeCancelled ⟨0⟩
        (sampleStart - 86400000) = false
    ∧ cancelRoute ⟨0⟩ (sampleStart - 86400000) (sampleStart - 86400000) (sampleStart - 86400000)
        [sampleBookingRow 1 600 660 .confirmed "TY-20240601-0001"] 1 true .user = .error 400 := by
  decide!

/-- The test of `canBeCancelled` in whole milliseconds: an active status and a
start more than 86400000 ms after the clock value. -/
theorem canBeCancelled_eq (env : Env) (now : Int) (b : Booking) (bs : Int)
    (hs : b.startDateTime env = some bs) :
    b.canBeCancelled env now = (b.isActive && decide (86400001 ≤ bs - now)) := by
  unfold Booking.canBeCancelled
  rw [hoursUntilBooking_of_start env now b bs hs]
  by_cases ha : b.isActive = true
  · simp only [ha, Bool.not_true, Bool.false_eq_true, if_false, Bool.true_and]
    by_cases hd : 86400001 ≤ bs - now
    · have h1 : (86400001 : ℚ) ≤ ((bs - now : Int) : ℚ) := by exact_mod_cast hd
      simp only [hours_gt_of_more _ h1, hd, decide_True]
    · have h0 : bs - now ≤ 86400000 := by omega
      have h1 : ((bs - now : Int) : ℚ) ≤ (86400000 : ℚ) := by exact_mod_cast h0
      simp only [hours_not_gt_of_at_most _ h1, hd, decide_False]
  · simp [ha]

/-- C20, amended: for a booking in status pending, confirmed or paid whose start
is the date `bs`, at one clock value `now`: when `bs - now` is 25 hours,
`canBeCancelled` holds, the refund computed is the full `totalPrice`, and a
cancel request of the booking's user or of an admin stores status cancelled and
that refund; when `bs - now` is exactly 24 hours or 23.99 hours, a cancel
request of any caller is rejected with 400 and the table is unchanged. -/
theorem cancellation_window_boundaries (env : Env) (now : Int) (rows : List BookingRow)
    (id : Nat) (booking : BookingRow) (bs : Int)
    (hfind : findRow rows id [.pending, .confirmed, .paid] = some booking)
    (hs : booking.toBooking.startDateTime env = some bs) :
    (bs - now = 90000000 →
      booking.toBooking.canBeCancelled env now = true
      ∧ booking.calculateRefundAmount env now now = .column booking.totalPrice
      ∧ ∀ actor : UserType, actor = .user ∨ actor = .admin →
        cancelRoute env now now now rows id true actor
          = .ok (updateRow rows booking.id fun r =>
              { r with status := .cancelled, refundAmount := some booking.totalPrice,
                       cancelledBy := some actor.text }))
    ∧ (bs - now = 86400000 →
        ∀ actor : UserType, cancelRoute env now now now rows id true actor = .error 400)
    ∧ (bs - now = 86364000 →
        ∀ actor : UserType, cancelRoute env now now now rows id true actor = .error 400) := by
  have hact : booking.toBooking.isActive = true := by
    have h := (findRow_some hfind).2.2
    unfold Booking.isActive
    simpa using h
  have hcan := canBeCancelled_eq env now booking.toBooking bs hs
  rw [hact, Bool.true_and] at hcan
  refine ⟨?_, ?_, ?_⟩
  · intro hd
    rw [hd] at hcan
    have hcan1 : booking.toBooking.canBeCancelled env now = true := by
      rw [hcan]; decide
    refine ⟨hcan1, ?_, ?_⟩
    · rw [calculateRefundAmount_same_clock, hcan1]; rfl
    · intro actor hactor
      have hmem : cancelledByValues.contains actor.text = true := by
        rcases hactor with h | h <;> subst h <;> decide
      unfold cancelRoute
      simp only [if_true, hfind, hcan1, Bool.not_true, Bool.false_eq_true, if_false,
        calculateRefundAmount_same_clock, writeRefund, hmem]
  · intro hd actor
    rw [hd] at hcan
    have hcan1 : booking.toBooking.canBeCancelled env now = false := by
      rw [hcan]; decide
    unfold cancelRoute
    simp only [if_true, hfind, hcan1, Bool.not_false]
  · intro hd actor
    rw [hd] at hcan
    have hcan1 : booking.toBooking.canBeCancelled env now = false := by
      rw [hcan]; decide
    unfold cancelRoute
    simp only [if_true, hfind, hcan1, Bool.not_false]

/-- C20 amended, on the sample booking at 25 hours, 24 hours and 23.99 hours
before its start, cancelled by its user. -/
theorem cancellation_window_boundaries_witness :
    cancelRoute ⟨0⟩ (sampleStart - 90000000) (sampleStart - 90000000) (sampleStart - 90000000)
        [sampleBookingRow 1 600 660 .paid "TY-20240601-0001"] 1 true .user
      = .ok (updateRow [sampleBookingRow 1 600 660 .paid "TY-20240601-0001"]
          (sampleBookingRow 1 600 660 .paid "TY-20240601-0001").id fun r =>
            { r with status := .cancelled,
                     refundAmount :=
                      some (sampleBookingRow 1 600 660 .paid "TY-20240601-0001").totalPrice,
                     cancelledBy := some UserType.user.text })
    ∧ cancelRoute ⟨0⟩ (sampleStart - 86400000) (sampleStart - 86400000) (sampleStart - 86400000)
        [sampleBookingRow 1 600 660 .paid "TY-20240601-0001"] 1 true .user = .error 400
    ∧ cancelRoute ⟨0⟩ (sampleStart - 86364000) (sampleStart - 86364000) (sampleStart - 86364000)
        [sampleBookingRow 1 600 660 .paid "TY-20240601-0001"] 1 true .user = .error 400 :=
  ⟨((cancellation_window_boundaries ⟨0⟩ (sampleStart - 90000000)
      [sampleBookingRow 1 600 660 .paid "TY-20240601-0001"] 1
      (sampleBookingRow 1 600 660 .paid "TY-20240601-0001") sampleStart (by decide!)
      (by decide)).1 (by decide)).2.2 .user (Or.inl rfl),
   (cancellation_window_boundaries ⟨0⟩ (sampleStart - 86400000)
      [sampleBookingRow 1 600 660 .paid "TY-20240601-0001"] 1
      (sampleBookingRow 1 600 660 .paid "TY-20240601-0001") sampleStart (by decide!)
      (by decide)).2.1 (by decide) .user,
   (cancellation_window_boundaries ⟨0⟩ (sampleStart - 86364000)
      [sampleBookingRow 1 600 660 .paid "TY-20240601-0001"] 1
      (sampleBookingRow 1 600 660 .paid "TY-20240601-0001") sampleStart (by decide!)
      (by decide)).2.2 (by decide) .user⟩

/-! ## Booking numbers past 9999 -/

theorem strLtList_append_left (p a b : List Char) :
    strLtList (p ++ a) (p ++ b) = strLtList a b := by
  induction p with
  | nil => rfl
  | cons c p ih => simp [strLtList, ih]

theorem digitChar_toNat_le (d : Nat) (h : d < 10) : (Nat.digitChar d).toNat ≤ 57 := by
  interval_cases d <;> decide

theorem toDigitsCore_chars (fuel : Nat) : ∀ (n : Nat) (ds : List Char),
    (∀ c ∈ ds, c.toNat ≤ 57) → ∀ c ∈ Nat.toDigitsCore 10 fuel n ds, c.toNat ≤ 57 := by
  induction fuel with
  | zero => intro n ds h c hc; exact h c (by simpa [Nat.toDigitsCore] using hc)
  | succ fuel ih =>
    intro n ds h c hc
    have hd : ∀ x ∈ Nat.digitChar (n % 10) :: ds, x.toNat ≤ 57 := by
      intro x hx
      rcases List.mem_cons.mp hx with hx | hx
      · rw [hx]; exact digitChar_toNat_le _ (Nat.mod_lt _ (by decide))
      · exact h x hx
    unfold Nat.toDigitsCore at hc
    simp only at hc
    split at hc
    · exact hd c hc
    · exact ih _ _ hd c hc

theorem natDigits_chars (n : Nat) : ∀ c ∈ natDigits n, c.toNat ≤ 57 :=
  toDigitsCore_chars (n + 1) n [] (by simp)

theorem natDigits_length_le_four (n : Nat) (h : n < 10000) : (natDigits n).length ≤ 4 :=
  Nat.toDigitsCore_length 10 (by decide) (n + 1) n 4 (by simpa using h) (by decide)

/-- A text of four characters, none above `9`, is `9999` or sorts before it, and
`9999` does not sort before it. -/
theorem four_chars_against_nines (l : List Char) (hlen : l.length = 4)
    (hall : ∀ c ∈ l, c.toNat ≤ 57) :
    strLtList "9999".data l = false ∧ (l = "9999".data ∨ strLtList l "9999".data = true) := by
  match l, hlen, hall with
  | [a, b, c, d], _, hall =>
    have ha : a.toNat ≤ 57 := hall a (by simp)
    have hb : b.toNat ≤ 57 := hall b (by simp)
    have hc : c.toNat ≤ 57 := hall c (by simp)
    have hd : d.toNat ≤ 57 := hall d (by simp)
    have h9 : ∀ x : Char, x.toNat ≤ 57 → ¬ x.toNat < 57 → x = Char.ofNat 57 := by
      intro x h1 h2
      have h3 : x.toNat = 57 := by omega
      rw [← Char.ofNat_toNat x, h3]
    have e9 : (Char.ofNat 57).toNat = 57 := by decide
    have hdata : "9999".data = [Char.ofNat 57, Char.ofNat 57, Char.ofNat 57, Char.ofNat 57] := by
      decide
    rw [hdata]
    simp only [strLtList, e9]
    by_cases h1 : a.toNat < 57
    · simp [h1, Nat.lt_asymm h1]
    · have := h9 a ha h1
      subst this
      by_cases h2 : b.toNat < 57
      · simp [h2, Nat.lt_asymm h2, e9]
      · have := h9 b hb h2
        subst this
        by_cases h3 : c.toNat < 57
        · simp [h3, Nat.lt_asymm h3, e9]
        · have := h9 c hc h3
          subst this
          by_cases h4 : d.toNat < 57
          · simp [h4, Nat.lt_asymm h4, e9]
          · have := h9 d hd h4
            subst this
            simp [e9]

theorem greatestText_mem : ∀ (l : List String) (t : String), greatestText l = some t → t ∈ l
  | [], t, h => by simp [greatestText] at h
  | s :: rest, t, h => by
    unfold greatestText at h
    cases hr : greatestText rest with
    | none =>
      simp only [hr] at h
      cases h
      simp
    | some u =>
      simp only [hr] at h
      have hu := greatestText_mem rest u hr
      split at h
      · cases h; simp [hu]
      · cases h; simp

/-- The greatest text of a list that holds `m`, when `m` sorts before no entry and
every other entry sorts before `m`. -/
theorem greatestText_eq : ∀ (l : List String) (m : String), m ∈ l →
    (∀ x ∈ l, strLt m x = false) → (∀ x ∈ l, x = m ∨ strLt x m = true) →
    greatestText l = some m
  | [], m, hm, _, _ => by simp at hm
  | s :: rest, m, hm, h1, h2 => by
    unfold greatestText
    cases hr : greatestText rest with
    | none =>
      simp only
      have hnil : rest = [] := by
        cases rest with
        | nil => rfl
        | cons a as =>
          unfold greatestText at hr
          cases h : greatestText as <;> simp only [h] at hr
          · cases hr
          · split at hr <;> cases hr
      subst hnil
      have hms : m = s := by simpa using hm
      rw [hms]
    | some u =>
      simp only
      have hu := greatestText_mem rest u hr
      by_cases hsm : s = m
      · subst hsm
        rw [h1 u (by simp [hu])]
        simp
      · have hmr : m ∈ rest := by
          rcases List.mem_cons.mp hm with h | h
          · exact absurd h.symm hsm
          · exact h
        have ih := greatestText_eq rest m hmr (fun x hx => h1 x (by simp [hx]))
          (fun x hx => h2 x (by simp [hx]))
        rw [hr] at ih
        cases ih
        have hs := h2 s (by simp)
        rcases hs with hs | hs
        · exact absurd hs hsm
        · rw [hs]; simp

theorem bookingNumberText_data (today : String) (k : Nat) :
    (bookingNumberText today k).data
      = ("TY-" ++ today ++ "-").data
        ++ (List.replicate (4 - (natDigits k).length) (Char.ofNat 48) ++ natDigits k) := by
  unfold bookingNumberText padStart
  simp only [String.data_append]

theorem bookingNumberText_against_9999 (today : String) (k : Nat) (hk : k < 10000) :
    strLt (bookingNumberText today 9999) (bookingNumberText today k) = false
    ∧ (bookingNumberText today k = bookingNumberText today 9999
        ∨ strLt (bookingNumberText today k) (bookingNumberText today 9999) = true) := by
  have hlen := natDigits_length_le_four k hk
  have hl : (List.replicate (4 - (natDigits k).length) (Char.ofNat 48) ++ natDigits k).length
      = 4 := by
    simp only [List.length_append, List.length_replicate]; omega
  have hall : ∀ c ∈ List.replicate (4 - (natDigits k).length) (Char.ofNat 48) ++ natDigits k,
      c.toNat ≤ 57 := by
    intro c hc
    rcases List.mem_append.mp hc with h | h
    · rw [(List.mem_replicate.mp h).2]; decide
    · exact natDigits_chars k c h
  have h9 : List.replicate (4 - (natDigits 9999).length) (Char.ofNat 48) ++ natDigits 9999
      = "9999".data := by decide
  obtain ⟨f1, f2⟩ := four_chars_against_nines _ hl hall
  unfold strLt
  rw [bookingNumberText_data today 9999, bookingNumberText_data today k, h9,
    strLtList_append_left, strLtList_append_left]
  refine ⟨f1, ?_⟩
  rcases f2 with f2 | f2
  · left
    apply String.ext
    rw [bookingNumberText_data today 9999, bookingNumberText_data today k, h9, f2]
  · right; exact f2

theorem bookingNumberText_10000_against_9999 (today : String) :
    strLt (bookingNumberText today 9999) (bookingNumberText today 10000) = false
    ∧ strLt (bookingNumberText today 10000) (bookingNumberText today 9999) = true := by
  unfold strLt
  rw [bookingNumberText_data today 9999, bookingNumberText_data today 10000,
    strLtList_append_left, strLtList_append_left]
  decide

/-- With the numbers 1 to 9999 of a day stored, and possibly 10000 too, the
number found by `ORDER BY bookingNumber DESC` is the one of 9999. -/
theorem greatestText_issuedNumbers (today : String) (n : Nat) (h1 : 9999 ≤ n) (h2 : n ≤ 10000) :
    greatestText (issuedNumbers today n) = some (bookingNumberText today 9999) := by
  apply greatestText_eq
  · unfold issuedNumbers
    exact List.mem_map.mpr ⟨9998, List.mem_range.mpr (by omega), rfl⟩
  · intro x hx
    unfold issuedNumbers at hx
    obtain ⟨i, hi, rfl⟩ := List.mem_map.mp hx
    have hi2 := List.mem_range.mp hi
    by_cases h : i + 1 < 10000
    · exact (bookingNumberText_against_9999 today (i + 1) h).1
    · have : i + 1 = 10000 := by omega
      rw [this]
      exact (bookingNumberText_10000_against_9999 today).1
  · intro x hx
    unfold issuedNumbers at hx
    obtain ⟨i, hi, rfl⟩ := List.mem_map.mp hx
    have hi2 := List.mem_range.mp hi
    by_cases h : i + 1 < 10000
    · exact (bookingNumberText_against_9999 today (i + 1) h).2
    · have : i + 1 = 10000 := by omega
      rw [this]
      exact Or.inr (bookingNumberText_10000_against_9999 today).2

theorem issuedNumbers_filter (today : String) (n : Nat) :
    (issuedNumbers today n).filter
        (fun x => ("TY-" ++ today ++ "-").data.isPrefixOf x.data)
      = issuedNumbers today n := by
  rw [List.filter_eq_self]
  intro x hx
  unfold issuedNumbers at hx
  obtain ⟨i, _, rfl⟩ := List.mem_map.mp hx
  rw [bookingNumberText_data]
  simp

theorem generateBookingNumber_of_last (now : Int) (numbers : List String) (last : String)
    (h : greatestText
        (numbers.filter fun n => ("TY-" ++ todayStamp now ++ "-").data.isPrefixOf n.data)
      = some last) :
    generateBookingNumber now numbers = generateBookingNumber now [last] := by
  have hmem := greatestText_mem _ _ h
  have hp := (List.mem_filter.mp hmem).2
  unfold generateBookingNumber
  simp only [h, List.filter_cons, hp, if_true, List.filter_nil, greatestText]

/-- C16, where the code departs from it: on 2024-06-15 with the numbers 0001 to
9999 of the day stored, `generateBookingNumber` returns `TY-20240615-10000`; with
that number stored as well, the next call finds `TY-20240615-9999` as the
greatest text again and returns `TY-20240615-10000` a second time, a number that
the ledger already holds. -/
theorem generateBookingNumber_repeats_10000 :
    generateBookingNumber (19889 * msPerDay + 5000) (issuedNumbers "20240615" 9999)
      = bookingNumberText "20240615" 10000
    ∧ generateBookingNumber (19889 * msPerDay + 5000) (issuedNumbers "20240615" 10000)
      = bookingNumberText "20240615" 10000
    ∧ bookingNumberText "20240615" 10000 ∈ issuedNumbers "20240615" 10000
    ∧ bookingNumberText "20240615" 10000 = "TY-20240615-10000" := by
  have hday : todayStamp (19889 * msPerDay + 5000) = "20240615" := by decide
  have hlast : ∀ n, 9999 ≤ n → n ≤ 10000 →
      generateBookingNumber (19889 * msPerDay + 5000) (issuedNumbers "20240615" n)
        = bookingNumberText "20240615" 10000 := by
    intro n h1 h2
    rw [generateBookingNumber_of_last _ _ (bookingNumberText "20240615" 9999)]
    · decide!
    · rw [hday, issuedNumbers_filter]
      exact greatestText_issuedNumbers "20240615" n h1 h2
  refine ⟨hlast 9999 (by omega) (by omega), hlast 10000 (by omega) (by omega), ?_, by decide⟩
  unfold issuedNumbers
  exact List.mem_map.mpr ⟨9999, List.mem_range.mpr (by omega), rfl⟩


/-! ## Claims on the conflict relation, terminal states and reminders -/

/-- C30: for a candidate interval with `start < end` and a stored booking with
`s < e`, the row is returned by `Booking.findConflicting` exactly when it has
the court and the date asked for, an active status, and `start ≤ e` and
`end ≥ s` (closed-interval intersection); this relation is symmetric in the two
intervals, and it holds for every pair that overlaps under the half-open rule. -/
theorem findConflicting_is_closed_interval_intersection (rows : Ledger) (courtId : Nat)
    (bookingDate : Int) (startTime endTime : Nat) (b : Booking)
    (hc : startTime < endTime) (hb : b.startTime < b.endTime) :
    (b ∈ Booking.findConflicting rows courtId bookingDate startTime endTime none ↔
      b ∈ rows ∧ b.courtId = courtId ∧ b.bookingDate = bookingDate ∧ b.isActive = true
        ∧ startTime ≤ b.endTime ∧ endTime ≥ b.startTime)
    ∧ ((Booking.between b.startTime startTime endTime
          || Booking.between b.endTime startTime endTime
          || (decide (b.startTime ≤ startTime) && decide (b.endTime ≥ endTime))) = true
        ↔ startTime ≤ b.endTime ∧ endTime ≥ b.startTime)
    ∧ ((startTime ≤ b.endTime ∧ endTime ≥ b.startTime)
        ↔ (b.startTime ≤ endTime ∧ b.endTime ≥ startTime))
    ∧ (startTime < b.endTime ∧ endTime > b.startTime →
        startTime ≤ b.endTime ∧ endTime ≥ b.startTime) := by
  have key : (Booking.between b.startTime startTime endTime
          || Booking.between b.endTime startTime endTime
          || (decide (b.startTime ≤ startTime) && decide (b.endTime ≥ endTime))) = true
        ↔ startTime ≤ b.endTime ∧ endTime ≥ b.startTime := by
    simp only [Booking.between, Bool.or_eq_true, Bool.and_eq_true, decide_eq_true_eq]
    omega
  refine ⟨?_, key, by omega, by omega⟩
  unfold Booking.findConflicting
  rw [List.mem_filter]
  unfold Booking.conflictWhere
  simp only [Bool.and_eq_true, decide_eq_true_eq, key, and_true]
  tauto

/-- C30 on the sample booking 10:00-11:00 and the candidate 11:00-12:00, which
touch at 11:00. -/
theorem findConflicting_is_closed_interval_intersection_witness :
    (sampleRow 1 600 660 .pending
        ∈ Booking.findConflicting [sampleRow 1 600 660 .pending] 7 19889 660 720 none ↔
      sampleRow 1 600 660 .pending ∈ [sampleRow 1 600 660 .pending]
        ∧ (sampleRow 1 600 660 .pending).courtId = 7
        ∧ (sampleRow 1 600 660 .pending).bookingDate = 19889
        ∧ (sampleRow 1 600 660 .pending).isActive = true
        ∧ 660 ≤ (sampleRow 1 600 660 .pending).endTime
        ∧ 720 ≥ (sampleRow 1 600 660 .pending).startTime) :=
  (findConflicting_is_closed_interval_intersection [sampleRow 1 600 660 .pending] 7 19889 660 720
    (sampleRow 1 600 660 .pending) (by decide) (by decide)).1


theorem updateRow_ids (rows : List BookingRow) (id : Nat) (f : BookingRow → BookingRow)
    (hf : ∀ r, (f r).id = r.id) :
    (updateRow rows id f).map (fun r => r.id) = rows.map (fun r => r.id) := by
  unfold updateRow
  rw [List.map_map]
  apply List.map_congr_left
  intro r _
  simp only [Function.comp]
  split
  · exact hf r
  · rfl

theorem updateRow_mem_of_ne (rows : List BookingRow) (id : Nat) (f : BookingRow → BookingRow)
    (b : BookingRow) (hb : b ∈ rows) (hne : b.id ≠ id) : b ∈ updateRow rows id f := by
  unfold updateRow
  apply List.mem_map.mpr
  exact ⟨b, hb, by simp [hne]⟩

/-- With pairwise different ids, a lookup by the id of a terminal row among
non-terminal statuses finds nothing. -/
theorem findRow_terminal (rows : List BookingRow) (b : BookingRow) (allowed : List BookingStatus)
    (hids : (rows.map fun r => r.id).Nodup) (hb : b ∈ rows)
    (hterm : b.status.isTerminal = true)
    (hallowed : ∀ s ∈ allowed, s.isTerminal = false) :
    findRow rows b.id allowed = none := by
  unfold findRow
  rw [List.find?_eq_none]
  intro r hr
  simp only [Bool.and_eq_true, decide_eq_true_eq, not_and]
  intro hid hst
  have hrb : r = b := List.inj_on_of_nodup_map hids hr hb hid
  subst hrb
  have hmem : r.status ∈ allowed := by simpa using hst
  rw [hallowed _ hmem] at hterm
  cases hterm

/-- A lookup among non-terminal statuses never finds a terminal row. -/
theorem findRow_ne_terminal {rows : List BookingRow} {id : Nat} {allowed : List BookingStatus}
    {found b : BookingRow} (hids : (rows.map fun r => r.id).Nodup) (hb : b ∈ rows)
    (hterm : b.status.isTerminal = true) (hallowed : ∀ s ∈ allowed, s.isTerminal = false)
    (h : findRow rows id allowed = some found) : b.id ≠ found.id := by
  intro hid
  obtain ⟨hmem, _, hst⟩ := findRow_some h
  have hfb : found = b := List.inj_on_of_nodup_map hids hmem hb hid.symm
  subst hfb
  rw [hallowed _ hst] at hterm
  cases hterm

theorem transitionRow_keeps_terminal {rows rows1 : List BookingRow} {id : Nat} {found : Bool}
    {allowed : List BookingStatus} {refusal : Option Nat} {write : BookingRow → BookingRow}
    {b : BookingRow}
    (h : transitionRow rows id found allowed refusal write = .ok rows1)
    (hw : ∀ r, (write r).id = r.id)
    (hallowed : ∀ s ∈ allowed, s.isTerminal = false)
    (hids : (rows.map fun r => r.id).Nodup) (hb : b ∈ rows)
    (hterm : b.status.isTerminal = true) :
    (rows1.map fun r => r.id).Nodup ∧ b ∈ rows1 := by
  unfold transitionRow at h
  split at h
  · cases h
  · rename_i fb hfind
    have hsome : findRow rows id allowed = some fb := by
      by_cases hv : found = true
      · simpa [hv] using hfind
      · simp [hv] at hfind
    split at h
    · cases h
    · cases h
      refine ⟨?_, ?_⟩
      · rw [updateRow_ids rows _ _ hw]; exact hids
      · exact updateRow_mem_of_ne rows _ _ b hb
          (findRow_ne_terminal hids hb hterm hallowed hsome)

theorem cancelRoute_keeps_terminal {env : Env} {now1 now2 now3 : Int}
    {rows rows1 : List BookingRow} {id : Nat} {visible : Bool} {actor : UserType}
    {b : BookingRow}
    (h : cancelRoute env now1 now2 now3 rows id visible actor = .ok rows1)
    (hids : (rows.map fun r => r.id).Nodup) (hb : b ∈ rows)
    (hterm : b.status.isTerminal = true) :
    (rows1.map fun r => r.id).Nodup ∧ b ∈ rows1 := by
  unfold cancelRoute at h
  split at h
  · cases h
  · rename_i fb hfind
    have hsome : findRow rows id [.pending, .confirmed, .paid] = some fb := by
      by_cases hv : visible = true
      · simpa [hv] using hfind
      · simp [hv] at hfind
    split at h
    · cases h
    · split at h
      · cases h
      · split at h
        · cases h
        · cases h
          refine ⟨?_, ?_⟩
          · rw [updateRow_ids]
            · exact hids
            · intro r; rfl
          · exact updateRow_mem_of_ne rows _ _ b hb
              (findRow_ne_terminal hids hb hterm (by decide) hsome)

theorem insertRow_keeps {rows rows1 : List BookingRow} {row b : BookingRow}
    (h : insertRow rows row = .ok rows1)
    (hids : (rows.map fun r => r.id).Nodup) (hb : b ∈ rows) :
    (rows1.map fun r => r.id).Nodup ∧ b ∈ rows1 := by
  unfold insertRow at h
  split at h
  · cases h
  · rename_i hno
    cases h
    simp only [Bool.or_eq_true, not_or, Bool.not_eq_true] at hno
    have hfresh : ∀ x ∈ rows, x.id ≠ row.id := by
      intro x hx hxe
      have h1 := hno.1.1
      rw [List.any_eq_false] at h1
      exact h1 x hx (by simpa using hxe)
    refine ⟨?_, List.mem_append_left _ hb⟩
    rw [List.map_append, List.nodup_append]
    refine ⟨hids, by simp, ?_⟩
    intro a ha1 ha2
    obtain ⟨x, hx, rfl⟩ := List.mem_map.mp ha1
    have : x.id = row.id := by simpa using ha2
    exact hfresh x hx this

theorem applyRowOp_create_insert {env : Env} {rows rows1 : List BookingRow} {r : CreateRequest}
    {court : Court} {ownerRate : Option ℚ} {duration : Int} {now : Int}
    (h : applyRowOp env rows (.create r court ownerRate duration now) = .ok rows1) :
    ∃ amounts, insertRow rows (newRow r duration (allocateNumber now rows) amounts)
      = .ok rows1 := by
  simp only [applyRowOp] at h
  split at h; · cases h
  split at h; · cases h
  split at h; · cases h
  split at h
  · cases h
  · cases h
  · split at h; · cases h
    split at h
    · cases h
    · split at h
      · cases h
      · rename_i amounts _
        split at h; · cases h
        exact ⟨amounts, h⟩

/-- No request moves a terminal row: after a request that writes, the ids are
still pairwise different and the terminal row is still in the table. -/
theorem applyRowOp_keeps_terminal {env : Env} {rows rows1 : List BookingRow} {op : RowOp}
    {b : BookingRow} (h : applyRowOp env rows op = .ok rows1)
    (hids : (rows.map fun r => r.id).Nodup) (hb : b ∈ rows)
    (hterm : b.status.isTerminal = true) :
    (rows1.map fun r => r.id).Nodup ∧ b ∈ rows1 := by
  cases op with
  | create r court ownerRate duration now =>
    obtain ⟨amounts, hins⟩ := applyRowOp_create_insert h
    exact insertRow_keeps hins hids hb
  | confirm id owned =>
    simp only [applyRowOp] at h
    exact transitionRow_keeps_terminal h (fun r => rfl) (by decide) hids hb hterm
  | reject id owned =>
    simp only [applyRowOp] at h
    exact transitionRow_keeps_terminal h (fun r => rfl) (by decide) hids hb hterm
  | cancel id visible actor now1 now2 now3 =>
    simp only [applyRowOp] at h
    exact cancelRoute_keeps_terminal h hids hb hterm
  | checkIn id owned isToday now =>
    simp only [applyRowOp] at h
    exact transitionRow_keeps_terminal h (fun r => rfl) (by decide) hids hb hterm
  | complete id owned hasEnded =>
    simp only [applyRowOp] at h
    exact transitionRow_keeps_terminal h (fun r => rfl) (by decide) hids hb hterm

theorem transitionRow_not_found {rows : List BookingRow} {id : Nat} {found : Bool}
    {allowed : List BookingStatus} {refusal : Option Nat} {write : BookingRow → BookingRow}
    (h : findRow rows id allowed = none) :
    transitionRow rows id found allowed refusal write = .error 404 := by
  unfold transitionRow
  rw [h]
  cases found <;> rfl

theorem cancelRoute_not_found {env : Env} {now1 now2 now3 : Int} {rows : List BookingRow}
    {id : Nat} {visible : Bool} {actor : UserType}
    (h : findRow rows id [.pending, .confirmed, .paid] = none) :
    cancelRoute env now1 now2 now3 rows id visible actor = .error 404 := by
  unfold cancelRoute
  rw [h]
  cases visible <;> rfl

theorem runRowOps_keeps_terminal (env : Env) : ∀ (ops : List RowOp) (rows : List BookingRow)
    (b : BookingRow), (rows.map fun r => r.id).Nodup → b ∈ rows →
    b.status.isTerminal = true → b ∈ runRowOps env rows ops
  | [], rows, b, _, hb, _ => hb
  | op :: ops, rows, b, hids, hb, hterm => by
    unfold runRowOps
    cases h : applyRowOp env rows op with
    | error code => exact runRowOps_keeps_terminal env ops rows b hids hb hterm
    | ok rows1 =>
      obtain ⟨hids1, hb1⟩ := applyRowOp_keeps_terminal h hids hb hterm
      exact runRowOps_keeps_terminal env ops rows1 b hids1 hb1 hterm

/-- C22: in a table with pairwise different ids, for every row whose status is
completed, no_show, rejected or cancelled, each confirm, reject, cancel,
check-in and complete request that addresses it is answered with an error (and
so writes nothing), and after every sequence of requests the row is still in
the table, every column as it was. -/
theorem terminal_states_are_absorbing (env : Env) (rows : List BookingRow) (b : BookingRow)
    (hids : (rows.map fun r => r.id).Nodup) (hb : b ∈ rows)
    (hterm : b.status.isTerminal = true) :
    (∀ op : RowOp, op.target = some b.id → ∃ code, applyRowOp env rows op = .error code)
    ∧ (∀ ops : List RowOp, b ∈ runRowOps env rows ops) := by
  refine ⟨?_, fun ops => runRowOps_keeps_terminal env ops rows b hids hb hterm⟩
  intro op htarget
  cases h : applyRowOp env rows op with
  | error code => exact ⟨code, rfl⟩
  | ok rows1 =>
    exfalso
    cases op with
    | create r court ownerRate duration now => simp [RowOp.target] at htarget
    | confirm id owned =>
      simp only [RowOp.target, Option.some.injEq] at htarget
      subst htarget
      simp only [applyRowOp] at h
      rw [transitionRow_not_found
        (findRow_terminal rows b [.pending] hids hb hterm (by decide))] at h
      cases h
    | reject id owned =>
      simp only [RowOp.target, Option.some.injEq] at htarget
      subst htarget
      simp only [applyRowOp] at h
      rw [transitionRow_not_found
        (findRow_terminal rows b [.pending] hids hb hterm (by decide))] at h
      cases h
    | cancel id visible actor now1 now2 now3 =>
      simp only [RowOp.target, Option.some.injEq] at htarget
      subst htarget
      simp only [applyRowOp] at h
      rw [cancelRoute_not_found
        (findRow_terminal rows b [.pending, .confirmed, .paid] hids hb hterm (by decide))] at h
      cases h
    | checkIn id owned isToday now =>
      simp only [RowOp.target, Option.some.injEq] at htarget
      subst htarget
      simp only [applyRowOp] at h
      rw [transitionRow_not_found
        (findRow_terminal rows b [.confirmed, .paid] hids hb hterm (by decide))] at h
      cases h
    | complete id owned hasEnded =>
      simp only [RowOp.target, Option.some.injEq] at htarget
      subst htarget
      simp only [applyRowOp] at h
      rw [transitionRow_not_found
        (findRow_terminal rows b [.confirmed, .paid] hids hb hterm (by decide))] at h
      cases h

/-- C22 on a table with the cancelled sample booking 1 and the pending booking 2:
a cancel request for booking 1 is answered with an error, and booking 1 is as it
was after a confirm, a complete and a check-in request for it. -/
theorem terminal_states_are_absorbing_witness :
    (∃ code, applyRowOp ⟨0⟩
        [sampleBookingRow 1 600 660 .cancelled "TY-20240601-0001",
         sampleBookingRow 2 720 780 .pending "TY-20240601-0002"]
        (.cancel 1 true .user sampleNow sampleNow sampleNow) = .error code)
    ∧ sampleBookingRow 1 600 660 .cancelled "TY-20240601-0001"
        ∈ runRowOps ⟨0⟩
            [sampleBookingRow 1 600 660 .cancelled "TY-20240601-0001",
             sampleBookingRow 2 720 780 .pending "TY-20240601-0002"]
            [.confirm 1 true, .complete 1 true true, .checkIn 1 true (.ok true) sampleNow] :=
  ⟨(terminal_states_are_absorbing ⟨0⟩
      [sampleBookingRow 1 600 660 .cancelled "TY-20240601-0001",
       sampleBookingRow 2 720 780 .pending "TY-20240601-0002"]
      (sampleBookingRow 1 600 660 .cancelled "TY-20240601-0001") (by decide)
      (List.mem_cons_self _ _) (by decide)).1
      (.cancel 1 true .user sampleNow sampleNow sampleNow) rfl,
   (terminal_states_are_absorbing ⟨0⟩
      [sampleBookingRow 1 600 660 .cancelled "TY-20240601-0001",
       sampleBookingRow 2 720 780 .pending "TY-20240601-0002"]
      (sampleBookingRow 1 600 660 .cancelled "TY-20240601-0001") (by decide)
      (List.mem_cons_self _ _) (by decide)).2
      [.confirm 1 true, .complete 1 true true, .checkIn 1 true (.ok true) sampleNow]⟩

/-! ## Claims on reminders, completion and check-in -/

theorem fl_ne_nan (q : ℚ) : fl q ≠ .nan := by
  unfold fl
  split
  · intro h; cases h
  · split
    · unfold flPos
      simp only
      split <;> (intro h; cases h)
    · unfold flPos
      simp only
      split <;> (intro h; simp [JsNum.neg] at h)

theorem hours_ne_nan (d : ℚ) : (fl d).div msPerHour ≠ .nan := by
  rw [msPerHour_eq]
  cases h : fl d with
  | nan => exact absurd h (fl_ne_nan d)
  | inf s => simp [JsNum.div]
  | fin r =>
    have hdiv : (JsNum.fin r).div (.fin 3600000) = fl (r / 3600000) := by
      simp [JsNum.div]
    rw [hdiv]
    exact fl_ne_nan _

theorem le_eq_not_gt (x : JsNum) (c : ℚ) (hx : x ≠ .nan) :
    x.le (.fin c) = !(x.gt (.fin c)) := by
  cases x with
  | nan => exact absurd rfl hx
  | inf s => rfl
  | fin a => rfl

theorem fl_nonpos (q : ℚ) (hq : q ≤ 0) :
    fl q = .inf true ∨ ∃ r, fl q = .fin r ∧ r ≤ 0 := by
  rcases eq_or_lt_of_le hq with h | h
  · right
    refine ⟨0, ?_, le_rfl⟩
    rw [h]; unfold fl; simp
  · have hneg := fl_neg (-q)
    rw [neg_neg] at hneg
    have hfl : fl (-q) = flPos (-q) := by
      unfold fl
      rw [if_neg (by intro hc; linarith), if_pos (by linarith)]
    rcases flPos_sign (-q) (by linarith) with h1 | ⟨r, h1, h2⟩
    · left; rw [hneg, hfl, h1]; rfl
    · right
      refine ⟨-r, ?_, by linarith⟩
      rw [hneg, hfl, h1]; rfl

/-- At least one millisecond gives an hour count above 0. -/
theorem hours_pos_of_pos (d : ℚ) (h : 1 ≤ d) :
    ((fl d).div msPerHour).gt (.fin 0) = true := by
  rw [msPerHour_eq]
  rcases fl_ge_grid d 1 0 (2 ^ 52) (by decide!) (by decide!) (by decide)
    (by decide!) h with h1 | ⟨r, h1, h2⟩
  · rw [h1]; decide!
  · rw [h1]
    have hdiv : (JsNum.fin r).div (.fin 3600000) = fl (r / 3600000) := by
      simp [JsNum.div]
    rw [hdiv]
    have h3 : (1 / 2 ^ 22 : ℚ) ≤ r / 3600000 := by
      rw [le_div_iff₀ (by norm_num)]
      have : (1 / 2 ^ 22 : ℚ) * 3600000 ≤ 1 := by norm_num
      linarith
    rcases fl_ge_grid _ (1 / 2 ^ 22) (-22) (2 ^ 52) (by decide!) (by decide!)
      (by decide) (by decide!) h3 with h4 | ⟨r2, h4, h5⟩
    · rw [h4]; rfl
    · rw [h4]
      simp only [JsNum.gt, JsNum.lt, decide_eq_true_eq]
      have : (0 : ℚ) < 1 / 2 ^ 22 := by norm_num
      linarith

/-- No millisecond left gives an hour count that is not above 0. -/
theorem hours_not_pos_of_nonpos (d : ℚ) (h : d ≤ 0) :
    ((fl d).div msPerHour).gt (.fin 0) = false := by
  rw [msPerHour_eq]
  rcases fl_nonpos d h with h1 | ⟨r, h1, h2⟩
  · rw [h1]; decide!
  · rw [h1]
    have hdiv : (JsNum.fin r).div (.fin 3600000) = fl (r / 3600000) := by
      simp [JsNum.div]
    rw [hdiv]
    have h3 : r / 3600000 ≤ (0 : ℚ) := by
      rw [div_le_iff₀ (by norm_num)]
      linarith
    rcases fl_nonpos _ h3 with h4 | ⟨r2, h4, h5⟩
    · rw [h4]; rfl
    · rw [h4]
      simp only [JsNum.gt, JsNum.lt, decide_eq_false_iff_not, not_lt]
      exact h5

/-- The test of `shouldSendReminder` in whole milliseconds. -/
theorem shouldSendReminder_eq (env : Env) (now : Int) (row : BookingRow) (bs : Int)
    (hs : row.toBooking.startDateTime env = some bs) :
    row.shouldSendReminder env now
      = (decide (row.status = .confirmed ∨ row.status = .paid)
          && decide (row.reminderSentAt = none)
          && decide (bs - now ≤ 86400000) && decide (1 ≤ bs - now)) := by
  have htime : (row.toBooking.getTimeUntilBooking env now).div msPerHour
      = (fl (((bs - now : Int) : ℚ))).div msPerHour := by
    have h := hoursUntilBooking_of_start env now row.toBooking bs hs
    unfold Booking.hoursUntilBooking at h
    unfold Booking.getTimeUntilBooking
    exact h
  unfold BookingRow.shouldSendReminder
  simp only [htime]
  by_cases hst : row.status = .confirmed ∨ row.status = .paid
  · have hst2 : ¬ (row.status ≠ .confirmed ∧ row.status ≠ .paid) := by
      rcases hst with h | h <;> simp [h]
    rw [if_neg hst2]
    cases hrem : row.reminderSentAt with
    | some t => simp
    | none =>
      simp only [Option.isSome_none, Bool.false_eq_true, if_false, hst, decide_True,
        Bool.true_and]
      rw [le_eq_not_gt _ _ (hours_ne_nan _)]
      have e1 : ((fl (((bs - now : Int) : ℚ))).div msPerHour).gt (.fin 24)
          = decide (86400001 ≤ bs - now) := by
        by_cases hd : 86400001 ≤ bs - now
        · have h1 : (86400001 : ℚ) ≤ ((bs - now : Int) : ℚ) := by exact_mod_cast hd
          simp only [hours_gt_of_more _ h1, hd, decide_True]
        · have h0 : bs - now ≤ 86400000 := by omega
          have h1 : ((bs - now : Int) : ℚ) ≤ (86400000 : ℚ) := by exact_mod_cast h0
          simp only [hours_not_gt_of_at_most _ h1, hd, decide_False]
      have e2 : ((fl (((bs - now : Int) : ℚ))).div msPerHour).gt (.fin 0)
          = decide (1 ≤ bs - now) := by
        by_cases hd : 1 ≤ bs - now
        · have h1 : (1 : ℚ) ≤ ((bs - now : Int) : ℚ) := by exact_mod_cast hd
          simp only [hours_pos_of_pos _ h1, hd, decide_True]
        · have h0 : bs - now ≤ 0 := by omega
          have h1 : ((bs - now : Int) : ℚ) ≤ (0 : ℚ) := by exact_mod_cast h0
          simp only [hours_not_pos_of_nonpos _ h1, hd, decide_False]
      rw [e1, e2]
      by_cases hd : 86400001 ≤ bs - now
      · have : ¬ (bs - now ≤ 86400000) := by omega
        simp [hd, this]
      · have : bs - now ≤ 86400000 := by omega
        simp [hd, this]
  · have hst2 : row.status ≠ .confirmed ∧ row.status ≠ .paid := by
      constructor
      · intro h; exact hst (Or.inl h)
      · intro h; exact hst (Or.inr h)
    rw [if_pos hst2]
    simp [hst]

/-- When the date that `new Date` builds for the start of a booking is `bs`,
`shouldSendReminder` returns true if and only if the status is confirmed or
paid, `reminderSentAt` is unset, and `(bs - now)` in hours is above 0 and at most
24; so it is false when `bs - now` is 0 and, for such a booking, true when it is
exactly 24 hours. -/
theorem shouldSendReminder_iff (env : Env) (now : Int) (row : BookingRow) (bs : Int)
    (hs : row.toBooking.startDateTime env = some bs) :
    (row.shouldSendReminder env now = true ↔
      (row.status = .confirmed ∨ row.status = .paid) ∧ row.reminderSentAt = none
        ∧ (0 : ℚ) < ((bs - now : Int) : ℚ) / 3600000
        ∧ ((bs - now : Int) : ℚ) / 3600000 ≤ 24)
    ∧ (bs - now = 0 → row.shouldSendReminder env now = false)
    ∧ (bs - now = 86400000 → (row.status = .confirmed ∨ row.status = .paid) →
        row.reminderSentAt = none → row.shouldSendReminder env now = true) := by
  have heq := shouldSendReminder_eq env now row bs hs
  have hpos : (0 : ℚ) < ((bs - now : Int) : ℚ) / 3600000 ↔ 1 ≤ bs - now := by
    rw [lt_div_iff₀ (by norm_num), zero_mul]
    constructor
    · intro h
      have h2 : (0 : Int) < bs - now := by exact_mod_cast h
      omega
    · intro h
      have h2 : (0 : Int) < bs - now := by omega
      exact_mod_cast h2
  have hle : ((bs - now : Int) : ℚ) / 3600000 ≤ 24 ↔ bs - now ≤ 86400000 := by
    rw [div_le_iff₀ (by norm_num)]
    constructor
    · intro h
      have h1 : ((bs - now : Int) : ℚ) ≤ ((86400000 : Int) : ℚ) := by
        push_cast at h ⊢; linarith
      exact_mod_cast h1
    · intro h
      have h1 : ((bs - now : Int) : ℚ) ≤ ((86400000 : Int) : ℚ) := by exact_mod_cast h
      push_cast at h1 ⊢; linarith
  refine ⟨?_, ?_, ?_⟩
  · rw [heq, hpos, hle]
    simp only [Bool.and_eq_true, decide_eq_true_eq]
    tauto
  · intro hd
    rw [heq, hd]
    simp
  · intro hd hst hrem
    rw [heq, hd]
    simp [hst, hrem]

/-- C23, where the claim departs from the code: at the very instant the booking
ends (`now` equal to `bookingEnd`) the guard `bookingEndTime > new Date()` is
false and the complete request writes status completed. -/
theorem complete_at_the_end_instant_is_accepted :
    Booking.endDateTime ⟨0⟩ (sampleBookingRow 1 600 660 .confirmed "TY-20240601-0001").toBooking
      = some (sampleStart + 3600000)
    ∧ completeRoute ⟨0⟩ (sampleStart + 3600000)
        [sampleBookingRow 1 600 660 .confirmed "TY-20240601-0001"] 1 true
      = .ok [sampleBookingRow 1 600 660 .completed "TY-20240601-0001"] := by
  decide!

/-- When the date that `new Date` builds for the end of a booking in status
confirmed or paid is `be`, a complete request of the venue's owner writes status
completed if and only if `now ≥ be`; when `now < be` it is answered 400 and
writes nothing. -/
theorem complete_iff_not_before_end (env : Env) (now : Int) (rows : List BookingRow)
    (id : Nat) (booking : BookingRow) (be : Int)
    (hfind : findRow rows id [.confirmed, .paid] = some booking)
    (he : booking.toBooking.endDateTime env = some be) :
    (completeRoute env now rows id true
        = .ok (updateRow rows booking.id fun r => { r with status := .completed })
      ↔ be ≤ now)
    ∧ (now < be → completeRoute env now rows id true = .error 400) := by
  have hended : booking.toBooking.hasEnded env now = decide (be ≤ now) := by
    unfold Booking.hasEnded
    rw [he]
    simp only [dateValue, JsNum.gt, JsNum.lt]
    by_cases h : be ≤ now
    · have : ¬ ((now : ℚ) < (be : ℚ)) := by
        have : (be : ℚ) ≤ (now : ℚ) := by exact_mod_cast h
        linarith
      simp [h, this]
    · have : (now : ℚ) < (be : ℚ) := by
        have : now < be := by omega
        exact_mod_cast this
      simp [h, this]
  unfold completeRoute
  simp only [hfind, hended, applyRowOp, transitionRow, if_true]
  by_cases h : be ≤ now
  · simp [h]
  · have h2 : now < be := by omega
    simp [h, h2]

/-- C24, where the code departs from it: a check-in request never writes. For
the confirmed sample booking of 2024-06-15, asked at 09:00 UTC of that day by
the venue's owner, the answer is 500: `booking.bookingDate` is a text and has no
method `toISOString`. For every table, booking, caller and clock value the
answer is 404 or 500. -/
theorem checkIn_is_always_refused :
    checkInRoute ⟨0⟩ (sampleStart - 3600000)
        [sampleBookingRow 1 600 660 .confirmed "TY-20240601-0001"] 1 true = .error 500
    ∧ toISODate (some (sampleStart - 3600000)) = .ok "2024-06-15"
    ∧ (∀ (env : Env) (now : Int) (rows : List BookingRow) (id : Nat) (owned : Bool),
        checkInRoute env now rows id owned = .error 404
          ∨ checkInRoute env now rows id owned = .error 500) := by
  refine ⟨by decide!, by decide, ?_⟩
  intro env now rows id owned
  unfold checkInRoute
  simp only [applyRowOp, transitionRow]
  cases hfind : findRow rows id [.confirmed, .paid] with
  | none =>
    left
    cases owned <;> rfl
  | some booking =>
    cases owned
    · left; rfl
    · right
      have htoday : isBookingToday now booking.bookingDate = .error .typeError := rfl
      simp only [if_true, htoday]

/-- A cancel request of a venue owner for the confirmed sample booking, 25 hours
before its start, is answered 500 and writes nothing, because the text
`venue_owner` of `req.userType` is not a value of the column `cancelledBy`; no
cancel request of a venue owner ever writes. A cancel of the booking's user
stores `user`, and a reject stores `venue`. -/
theorem cancel_by_venue_owner_is_refused :
    cancelRoute ⟨0⟩ (sampleStart - 90000000) (sampleStart - 90000000) (sampleStart - 90000000)
        [sampleBookingRow 1 600 660 .confirmed "TY-20240601-0001"] 1 true .venueOwner
      = .error 500
    ∧ cancelledByValues.contains UserType.venueOwner.text = false
    ∧ (∀ (env : Env) (now1 now2 now3 : Int) (rows rows1 : List BookingRow) (id : Nat)
        (visible : Bool),
        cancelRoute env now1 now2 now3 rows id visible .venueOwner ≠ .ok rows1)
    ∧ cancelRoute ⟨0⟩ (sampleStart - 90000000) (sampleStart - 90000000) (sampleStart - 90000000)
        [sampleBookingRow 1 600 660 .confirmed "TY-20240601-0001"] 1 true .user
      = .ok [{ sampleBookingRow 1 600 660 .confirmed "TY-20240601-0001" with
                status := .cancelled, refundAmount := some (.val 3000),
                cancelledBy := some "user" }]
    ∧ applyRowOp ⟨0⟩ [sampleBookingRow 1 600 660 .pending "TY-20240601-0001"] (.reject 1 true)
      = .ok [{ sampleBookingRow 1 600 660 .pending "TY-20240601-0001" with
                status := .rejected, cancelledBy := some "venue" }] := by
  refine ⟨by decide!, by decide, ?_, by decide!, by decide!⟩
  intro env now1 now2 now3 rows rows1 id visible h
  unfold cancelRoute at h
  split at h
  · cases h
  · split at h
    · cases h
    · split at h
      · cases h
      · have hno : cancelledByValues.contains UserType.venueOwner.text = false := by decide
        simp only [hno, Bool.not_false, if_true] at h
        cases h

/-- C28, where the code departs from it: after a complete request for a booking
with `venueAmount` 2700 and `totalPrice` 3000, made by user 1 on court 7 of
venue 3 of owner 5, the revenue of the venue and of the court have each grown by
1, the booking counter of user 1 is unchanged and the counter `totalBookings` of
owner 5 has grown by 1. For every booking: no row of `users` changes, and the two
revenues grow by 1 whatever the amounts. -/
theorem complete_statistics_miss_user_and_amounts :
    (completeStatistics zeroStatistics 5 3 7 2700 3000).venueTotalRevenue 3 = 1
    ∧ (completeStatistics zeroStatistics 5 3 7 2700 3000).courtTotalRevenue 7 = 1
    ∧ (completeStatistics zeroStatistics 5 3 7 2700 3000).userTotalBookings 1 = 0
    ∧ (completeStatistics zeroStatistics 5 3 7 2700 3000).ownerTotalBookings 5 = 1
    ∧ (∀ (s : Statistics) (ownerId venueId courtId : Nat) (venueAmount totalPrice : ℚ),
        (completeStatistics s ownerId venueId courtId venueAmount totalPrice).userTotalBookings
            = s.userTotalBookings
        ∧ (completeStatistics s ownerId venueId courtId venueAmount totalPrice).venueTotalRevenue
              venueId = s.venueTotalRevenue venueId + 1
        ∧ (completeStatistics s ownerId venueId courtId venueAmount totalPrice).courtTotalRevenue
              courtId = s.courtTotalRevenue courtId + 1
        ∧ (completeStatistics s ownerId venueId courtId venueAmount totalPrice).ownerTotalBookings
              ownerId = s.ownerTotalBookings ownerId + 1) := by
  refine ⟨by decide!, by decide!, by decide!, by decide!, ?_⟩
  intro s ownerId venueId courtId venueAmount totalPrice
  refine ⟨rfl, ?_, ?_, ?_⟩ <;>
    simp [completeStatistics, raiseAt, amountFor, incrementAmounts, List.lookup]


/-! ## Claims on the create route -/

theorem isAvailableAt_eq_availableOn (env : Env) (c : Court) (date : JsDate)
    (startTime endTime : String) :
    Court.isAvailableAt env c date startTime endTime
      = (toLocaleDateString env date "lowercase").bind fun dayOfWeek =>
          Court.availableOn c dayOfWeek date startTime endTime := by
  unfold Court.isAvailableAt Court.availableOn
  cases toLocaleDateString env date "lowercase" with
  | error e => rfl
  | ok dayOfWeek =>
    simp only [bind, Except.bind, pure, Except.pure]

theorem createRequestOf_available (env : Env) (now : Int) (court : Court) (v : VenueInstance)
    (b : CreateBody) : (createRequestOf env now court v b).available = .error .rangeError := by
  unfold createRequestOf dateOnly
  simp only
  unfold Court.isAvailableAt
  rw [toLocaleDateString_lowercase]
  rfl

/-- The create route writes for no body: a request that passes the validators,
the court lookup and the test of the start is answered 500 by the `RangeError` of
`isAvailableAt`. -/
theorem createRoute_never_persists (env : Env) (now : Int) (rows : List BookingRow)
    (court : Court) (v : VenueInstance) (ownerRate : Option ℚ) (b : CreateBody) :
    createRoute env now rows court v ownerRate b = .error 400
      ∨ createRoute env now rows court v ownerRate b = .error 404
      ∨ createRoute env now rows court v ownerRate b = .error 500 := by
  unfold createRoute
  simp only [applyRowOp, createRequestOf_available]
  split
  · left; rfl
  · split
    · right; left; rfl
    · split
      · left; rfl
      · right; right; rfl

theorem autoConfirm_undefined (v : VenueInstance) : v.autoConfirm = false := by
  unfold VenueInstance.autoConfirm VenueInstance.get
  have h : (venueAttributes.contains "autoConfirm" || "autoConfirm" == "owner") = false := by
    decide
  rw [h]
  rfl

/-- C25, where the code departs from it: `autoConfirm` is not an attribute of the
model `Venue`, so `court.venue.autoConfirm` reads as `undefined` for every venue
(also one whose every attribute is `true`) and the status given to
`Booking.create` is pending: no facility configuration makes a new booking start
as confirmed. -/
theorem initial_status_is_always_pending :
    venueAttributes.contains "autoConfirm" = false
    ∧ initialStatus sampleVenue = .pending
    ∧ (∀ v : VenueInstance, initialStatus v = .pending)
    ∧ (∀ (env : Env) (now : Int) (court : Court) (v : VenueInstance) (b : CreateBody)
        (bookingNumber : String) (amounts : PgNumeric × PgNumeric × StoredAmounts),
        (newRow (createRequestOf env now court v b) b.duration bookingNumber amounts).status
          = .pending) := by
  refine ⟨by decide, ?_, ?_, ?_⟩
  · unfold initialStatus
    rw [autoConfirm_undefined]; rfl
  · intro v
    unfold initialStatus
    rw [autoConfirm_undefined]; rfl
  · intro env now court v b bookingNumber amounts
    unfold newRow createRequestOf
    simp only [autoConfirm_undefined]
    rfl

/-- C26, where the code departs from it: on the default court, whose
`minBookingDuration` is 60 and `maxBookingDuration` 120, the bodies for 10:00 on
2024-06-15 with duration 30 and with duration 480 pass the validators of the
route, which read the body only; the request is answered 500 (the `RangeError`
of `isAvailableAt`), not 400. With the availability test answered true, the
request for 30 minutes is stored, 10:00-10:30 with duration 30. -/
theorem create_ignores_court_duration_limits :
    (defaultCourt 3000).minBookingDuration = 60
    ∧ (defaultCourt 3000).maxBookingDuration = 120
    ∧ (sampleBody 1 10 0 30).valid = true
    ∧ (sampleBody 1 10 0 480).valid = true
    ∧ (∀ (env : Env) (now : Int) (court : Court) (v : VenueInstance) (b : CreateBody),
        (createRequestOf env now court v b).inputValid = b.valid)
    ∧ createRoute ⟨0⟩ sampleNow [] (defaultCourt 3000) sampleVenue (some (1 / 10))
        (sampleBody 1 10 0 30) = .error 500
    ∧ createRoute ⟨0⟩ sampleNow [] (defaultCourt 3000) sampleVenue (some (1 / 10))
        (sampleBody 1 10 0 480) = .error 500
    ∧ (applyRowOp ⟨0⟩ []
        (.create
          { createRequestOf ⟨0⟩ sampleNow (defaultCourt 3000) sampleVenue (sampleBody 1 10 0 30)
              with available := .ok true }
          (defaultCourt 3000) (some (1 / 10)) 30 sampleNow)).toOption.map
        (List.map fun r => (r.startTime, r.endTime, r.duration))
      = some [(600, 630, 30)] := by
  refine ⟨rfl, rfl, by decide, by decide, fun _ _ _ _ _ => rfl, by decide!, by decide!,
    by decide!⟩

/-- The window check of the create route on the body 23:00 on 2024-06-15 with
duration 120, for the default court, which closes at 23:00: line 84 gives the
end time `01:00`; entered with the rule of the day, the tests of `isAvailableAt`
answer true for the window `23:00`-`01:00` (neither `23:00 < 08:00` nor
`01:00 > 23:00` as texts). The request is answered 500 by the `RangeError` of
`isAvailableAt`, as every request is that reaches it, so no booking at all is
accepted. With the availability test answered true, the row would be stored with
start 23:00, end 01:00 and duration 120. -/
theorem create_window_check_wraps_and_throws :
    (sampleBody 1 23 0 120).endText ⟨0⟩ = "01:00"
    ∧ Court.availableOn (defaultCourt 3000) "saturday" (dateOnly 2024 6 15) "23:00" "01:00"
      = .ok true
    ∧ Court.isAvailableAt ⟨0⟩ (defaultCourt 3000) (dateOnly 2024 6 15) "23:00" "01:00"
      = .error .rangeError
    ∧ createRoute ⟨0⟩ sampleNow [] (defaultCourt 3000) sampleVenue (some (1 / 10))
        (sampleBody 1 23 0 120) = .error 500
    ∧ createRoute ⟨0⟩ sampleNow [] (defaultCourt 3000) sampleVenue (some (1 / 10))
        (sampleBody 1 10 0 60) = .error 500
    ∧ (∀ (env : Env) (now : Int) (rows rows1 : List BookingRow) (court : Court)
        (v : VenueInstance) (ownerRate : Option ℚ) (b : CreateBody),
        createRoute env now rows court v ownerRate b ≠ .ok rows1)
    ∧ (applyRowOp ⟨0⟩ []
        (.create
          { createRequestOf ⟨0⟩ sampleNow (defaultCourt 3000) sampleVenue (sampleBody 1 23 0 120)
              with available := .ok true }
          (defaultCourt 3000) (some (1 / 10)) 120 sampleNow)).toOption.map
        (List.map fun r => (r.startTime, r.endTime, r.duration))
      = some [(1380, 60, 120)] := by
  refine ⟨by decide, by decide, by decide, by decide!, by decide!, ?_, by decide!⟩
  intro env now rows rows1 court v ownerRate b h
  rcases createRoute_never_persists env now rows court v ownerRate b with h1 | h1 | h1 <;>
    (rw [h1] at h; cases h)


/-! ## Dates with a four-digit year from 100 on -/

theorem civilFromDays_year_range (z : Int) (h1 : 100 ≤ (civilFromDays z).1)
    (h2 : (civilFromDays z).1 ≤ 9999) : -719468 ≤ z ∧ z ≤ 3652424 := by
  unfold civilFromDays at h1 h2
  simp only at h1 h2
  constructor
  · by_contra hc
    split at h1 <;> omega
  · by_contra hc
    split at h2 <;> omega

theorem legacyDay_of_year (z : Int) (h1 : 100 ≤ (civilFromDays z).1) :
    legacyDay z = some z := by
  unfold legacyDay
  rw [if_neg (by omega)]


theorem startDateTime_of_year (env : Env) (b : Booking)
    (hy1 : 100 ≤ (civilFromDays b.bookingDate).1) (hy2 : (civilFromDays b.bookingDate).1 ≤ 9999)
    (ht : b.startTime ≤ 1440) (hz1 : -1440 ≤ env.tzOffsetMinutes)
    (hz2 : env.tzOffsetMinutes ≤ 1440) :
    b.startDateTime env
      = some (b.bookingDate * msPerDay + (b.startTime : Int) * 60000
          - env.tzOffsetMinutes * 60000) := by
  obtain ⟨r1, r2⟩ := civilFromDays_year_range _ hy1 hy2
  unfold Booking.startDateTime
  simp only [legacyDay_of_year _ hy1]
  rw [if_pos]
  unfold maxTimeValue msPerDay
  constructor <;> omega

theorem endDateTime_of_year (env : Env) (b : Booking)
    (hy1 : 100 ≤ (civilFromDays b.bookingDate).1) (hy2 : (civilFromDays b.bookingDate).1 ≤ 9999)
    (ht : b.endTime ≤ 1440) (hz1 : -1440 ≤ env.tzOffsetMinutes)
    (hz2 : env.tzOffsetMinutes ≤ 1440) :
    b.endDateTime env
      = some (b.bookingDate * msPerDay + (b.endTime : Int) * 60000
          - env.tzOffsetMinutes * 60000) := by
  obtain ⟨r1, r2⟩ := civilFromDays_year_range _ hy1 hy2
  unfold Booking.endDateTime
  simp only [legacyDay_of_year _ hy1]
  rw [if_pos]
  unfold maxTimeValue msPerDay
  constructor <;> omega

/-! ## Claims revisited: the start and the end of a booking as the code reads them -/

/-- C18, where the claim departs from the code: the confirmed booking stored for
0049-06-15 at 10:00 is reported cancellable at a clock of 2024-06-01, although
its `bookingDate` at its `startTime` lies far in the past: the text
`0049-06-15 10:00:00` is not in the ISO format and `new Date` reads its year as
2049. -/
theorem canBeCancelled_reads_year_49_as_2049 :
    civilFromDays (daysFromCivil 49 6 15) = (49, 6, 15)
    ∧ Booking.startDateTime ⟨0⟩
        { sampleRow 1 600 660 .confirmed with bookingDate := daysFromCivil 49 6 15 }
      = some (daysFromCivil 2049 6 15 * msPerDay + 600 * 60000)
    ∧ Booking.canBeCancelled ⟨0⟩ sampleNow
        { sampleRow 1 600 660 .confirmed with bookingDate := daysFromCivil 49 6 15 } = true
    ∧ ((daysFromCivil 49 6 15 * msPerDay + 600 * 60000 - sampleNow : Int) : ℚ) / 3600000 < 24 := by
  refine ⟨by decide, by decide, by decide!, by decide!⟩

/-- C18, amended: for every booking whose `bookingDate` has a year from 100 to
9999 (and whose `startTime` is a time of day, on a host whose zone is within a
day of UTC) and every clock value `now`, `canBeCancelled` returns true if and
only if the status is pending, confirmed or paid and `bookingStart - now` in
hours is strictly greater than 24, where `bookingStart` is `bookingDate` at
`startTime` in the host's local time. -/
theorem canBeCancelled_iff_over_24_hours_before_start (env : Env) (now : Int) (b : Booking)
    (hy1 : 100 ≤ (civilFromDays b.bookingDate).1) (hy2 : (civilFromDays b.bookingDate).1 ≤ 9999)
    (ht : b.startTime ≤ 1440) (hz1 : -1440 ≤ env.tzOffsetMinutes)
    (hz2 : env.tzOffsetMinutes ≤ 1440) :
    b.canBeCancelled env now = true ↔
      (b.status = .pending ∨ b.status = .confirmed ∨ b.status = .paid)
        ∧ (24 : ℚ) < ((b.bookingDate * msPerDay + (b.startTime : Int) * 60000
              - env.tzOffsetMinutes * 60000 - now : Int) : ℚ) / 3600000 :=
  canBeCancelled_iff_active_and_over_24_hours env now b _
    (startDateTime_of_year env b hy1 hy2 ht hz1 hz2)

/-- C18 amended, on the confirmed sample booking of 2024-06-15 at 10:00, asked 25
hours before its start on a host in UTC-03:00. -/
theorem canBeCancelled_iff_over_24_hours_before_start_witness :
    Booking.canBeCancelled ⟨-180⟩ (sampleStart + 10800000 - 90000000)
        (sampleRow 1 600 660 .confirmed) = true ↔
      ((sampleRow 1 600 660 .confirmed).status = .pending
          ∨ (sampleRow 1 600 660 .confirmed).status = .confirmed
          ∨ (sampleRow 1 600 660 .confirmed).status = .paid)
        ∧ (24 : ℚ) < (((sampleRow 1 600 660 .confirmed).bookingDate * msPerDay
              + ((sampleRow 1 600 660 .confirmed).startTime : Int) * 60000
              - (⟨-180⟩ : Env).tzOffsetMinutes * 60000
              - (sampleStart + 10800000 - 90000000) : Int) : ℚ) / 3600000 :=
  canBeCancelled_iff_over_24_hours_before_start ⟨-180⟩ (sampleStart + 10800000 - 90000000)
    (sampleRow 1 600 660 .confirmed) (by decide) (by decide) (by decide) (by decide)
    (by decide)

/-- C21, where the claim departs from the code: for the confirmed booking stored
for 0049-06-15 at 10:00, with no reminder sent, `shouldSendReminder` returns
true at a clock of 2049-06-14 10:00, exactly 24 hours before the date that
`new Date` reads from the text `0049-06-15 10:00:00`, although `bookingDate` at
`startTime` lies two thousand years before that clock. -/
theorem shouldSendReminder_reads_year_49_as_2049 :
    civilFromDays (daysFromCivil 49 6 15) = (49, 6, 15)
    ∧ BookingRow.shouldSendReminder ⟨0⟩ (daysFromCivil 2049 6 14 * msPerDay + 600 * 60000)
        { sampleBookingRow 1 600 660 .confirmed "TY-20240601-0001" with
          bookingDate := daysFromCivil 49 6 15 } = true
    ∧ ((daysFromCivil 49 6 15 * msPerDay + 600 * 60000
          - (daysFromCivil 2049 6 14 * msPerDay + 600 * 60000) : Int) : ℚ) / 3600000 < 0 := by
  refine ⟨by decide, by decide!, by decide!⟩

/-- C21, amended: for every booking whose `bookingDate` has a year from 100 to
9999 (and whose `startTime` is a time of day, on a host whose zone is within a
day of UTC) and every clock value `now`, `shouldSendReminder` returns true if
and only if the status is confirmed or paid, `reminderSentAt` is unset, and
`bookingStart - now` in hours is above 0 and at most 24, where `bookingStart` is
`bookingDate` at `startTime` in the host's local time; so it is false when
`bookingStart - now` is 0 and, for such a booking, true at exactly 24 hours. -/
theorem shouldSendReminder_iff_within_24_hours_before_start (env : Env) (now : Int)
    (row : BookingRow)
    (hy1 : 100 ≤ (civilFromDays row.bookingDate).1)
    (hy2 : (civilFromDays row.bookingDate).1 ≤ 9999)
    (ht : row.startTime ≤ 1440) (hz1 : -1440 ≤ env.tzOffsetMinutes)
    (hz2 : env.tzOffsetMinutes ≤ 1440) :
    (row.shouldSendReminder env now = true ↔
      (row.status = .confirmed ∨ row.status = .paid) ∧ row.reminderSentAt = none
        ∧ (0 : ℚ) < ((row.bookingDate * msPerDay + (row.startTime : Int) * 60000
              - env.tzOffsetMinutes * 60000 - now : Int) : ℚ) / 3600000
        ∧ ((row.bookingDate * msPerDay + (row.startTime : Int) * 60000
              - env.tzOffsetMinutes * 60000 - now : Int) : ℚ) / 3600000 ≤ 24)
    ∧ (row.bookingDate * msPerDay + (row.startTime : Int) * 60000
          - env.tzOffsetMinutes * 60000 - now = 0 →
        row.shouldSendReminder env now = false)
    ∧ (row.bookingDate * msPerDay + (row.startTime : Int) * 60000
          - env.tzOffsetMinutes * 60000 - now = 86400000 →
        (row.status = .confirmed ∨ row.status = .paid) →
        row.reminderSentAt = none → row.shouldSendReminder env now = true) :=
  shouldSendReminder_iff env now row _
    (startDateTime_of_year env row.toBooking hy1 hy2 ht hz1 hz2)

/-- C21 amended, on the paid sample booking exactly 24 hours before its start, on
a host in UTC-03:00. -/
theorem shouldSendReminder_iff_within_24_hours_before_start_witness :
    (sampleBookingRow 1 600 660 .paid "TY-20240601-0001").shouldSendReminder ⟨-180⟩
      (sampleStart + 10800000 - 86400000) = true :=
  (shouldSendReminder_iff_within_24_hours_before_start ⟨-180⟩
    (sampleStart + 10800000 - 86400000)
    (sampleBookingRow 1 600 660 .paid "TY-20240601-0001") (by decide) (by decide) (by decide)
    (by decide) (by decide)).2.2 (by decide) (by decide) (by decide)

/-- C23, amended: for every booking in status confirmed or paid whose
`bookingDate` has a year from 100 to 9999 (and whose `endTime` is a time of day,
on a host whose zone is within a day of UTC) and every clock value `now`, a
complete request of the venue's owner writes status completed if and only if
`now ≥ bookingEnd`, where `bookingEnd` is `bookingDate` at `endTime` in the
host's local time; when `now < bookingEnd` it is answered 400 and writes
nothing. -/
theorem complete_iff_end_not_after_now (env : Env) (now : Int) (rows : List BookingRow)
    (id : Nat) (booking : BookingRow)
    (hfind : findRow rows id [.confirmed, .paid] = some booking)
    (hy1 : 100 ≤ (civilFromDays booking.bookingDate).1)
    (hy2 : (civilFromDays booking.bookingDate).1 ≤ 9999)
    (ht : booking.endTime ≤ 1440) (hz1 : -1440 ≤ env.tzOffsetMinutes)
    (hz2 : env.tzOffsetMinutes ≤ 1440) :
    (completeRoute env now rows id true
        = .ok (updateRow rows booking.id fun r => { r with status := .completed })
      ↔ booking.bookingDate * msPerDay + (booking.endTime : Int) * 60000
          - env.tzOffsetMinutes * 60000 ≤ now)
    ∧ (now < booking.bookingDate * msPerDay + (booking.endTime : Int) * 60000
          - env.tzOffsetMinutes * 60000 →
        completeRoute env now rows id true = .error 400) :=
  complete_iff_not_before_end env now rows id booking _ hfind
    (endDateTime_of_year env booking.toBooking hy1 hy2 ht hz1 hz2)

/-- C23 amended, on the paid sample booking (10:00-11:00 on 2024-06-15) one
second after its end and one second before it, on a host in UTC-03:00. -/
theorem complete_iff_end_not_after_now_witness :
    (completeRoute ⟨-180⟩ (sampleStart + 10800000 + 3601000)
        [sampleBookingRow 1 600 660 .paid "TY-20240601-0001"] 1 true
      = .ok (updateRow [sampleBookingRow 1 600 660 .paid "TY-20240601-0001"]
          (sampleBookingRow 1 600 660 .paid "TY-20240601-0001").id
          fun r => { r with status := .completed })
      ↔ (sampleBookingRow 1 600 660 .paid "TY-20240601-0001").bookingDate * msPerDay
          + ((sampleBookingRow 1 600 660 .paid "TY-20240601-0001").endTime : Int) * 60000
          - (⟨-180⟩ : Env).tzOffsetMinutes * 60000 ≤ sampleStart + 10800000 + 3601000)
    ∧ completeRoute ⟨-180⟩ (sampleStart + 10800000 + 3599000)
        [sampleBookingRow 1 600 660 .paid "TY-20240601-0001"] 1 true = .error 400 :=
  ⟨(complete_iff_end_not_after_now ⟨-180⟩ (sampleStart + 10800000 + 3601000)
      [sampleBookingRow 1 600 660 .paid "TY-20240601-0001"] 1
      (sampleBookingRow 1 600 660 .paid "TY-20240601-0001") (by decide!) (by decide)
      (by decide) (by decide) (by decide) (by decide)).1,
   (complete_iff_end_not_after_now ⟨-180⟩ (sampleStart + 10800000 + 3599000)
      [sampleBookingRow 1 600 660 .paid "TY-20240601-0001"] 1
      (sampleBookingRow 1 600 660 .paid "TY-20240601-0001") (by decide!) (by decide)
      (by decide) (by decide) (by decide) (by decide)).2 (by decide)⟩

/-- A second departure of the claim on completion from the code: for the
confirmed booking stored for 0049-06-15, 10:00-11:00, a complete request at a clock of 2024-06-01
is answered 400, although that clock is long after `bookingDate` at `endTime`:
`new Date` reads the year of the text `0049-06-15 11:00:00` as 2049. -/
theorem complete_reads_year_49_as_2049 :
    Booking.endDateTime ⟨0⟩
        { sampleRow 1 600 660 .confirmed with bookingDate := daysFromCivil 49 6 15 }
      = some (daysFromCivil 2049 6 15 * msPerDay + 660 * 60000)
    ∧ completeRoute ⟨0⟩ sampleNow
        [{ sampleBookingRow 1 600 660 .confirmed "TY-20240601-0001" with
            bookingDate := daysFromCivil 49 6 15 }] 1 true = .error 400
    ∧ daysFromCivil 49 6 15 * msPerDay + 660 * 60000 < sampleNow := by
  refine ⟨by decide, by decide!, by decide⟩

/-! ## Claims revisited: the value of `cancelledBy`, the price, the row of the table -/

theorem updateRow_of_id {rows : List BookingRow} {id : Nat} {f : BookingRow → BookingRow}
    {r : BookingRow} (hr : r ∈ updateRow rows id f) (hid : r.id = id) :
    ∃ x ∈ rows, r = f x := by
  unfold updateRow at hr
  obtain ⟨x, hx, hxr⟩ := List.mem_map.mp hr
  by_cases h : x.id = id
  · rw [if_pos h] at hxr
    exact ⟨x, hx, hxr.symm⟩
  · rw [if_neg h] at hxr
    rw [← hxr] at hid
    exact absurd hid h

/-- C29: after a cancel request that succeeds, whoever the caller (user, venue
owner or admin), the booking's `cancelledBy` is the caller's `req.userType` and
is one of `user`, `venue`, `admin`, `system`; after a reject request (made by
the owner of the venue) that succeeds, the booking's `cancelledBy` is `venue`,
one of those values too. -/
theorem cancelledBy_is_a_value_of_the_column (env : Env) (rows rows1 : List BookingRow)
    (id : Nat) :
    (∀ (visible : Bool) (actor : UserType) (now1 now2 now3 : Int),
        cancelRoute env now1 now2 now3 rows id visible actor = .ok rows1 →
        ∃ booking, findRow rows id [.pending, .confirmed, .paid] = some booking
          ∧ actor.text ∈ cancelledByValues
          ∧ ∀ r ∈ rows1, r.id = booking.id →
              r.status = .cancelled ∧ r.cancelledBy = some actor.text)
    ∧ (∀ owned : Bool, applyRowOp env rows (.reject id owned) = .ok rows1 →
        ∃ booking, findRow rows id [.pending] = some booking
          ∧ "venue" ∈ cancelledByValues
          ∧ ∀ r ∈ rows1, r.id = booking.id →
              r.status = .rejected ∧ r.cancelledBy = some "venue") := by
  constructor
  · intro visible actor now1 now2 now3 h
    unfold cancelRoute at h
    split at h
    · cases h
    · rename_i booking hfind
      have hsome : findRow rows id [.pending, .confirmed, .paid] = some booking := by
        by_cases hv : visible = true
        · simpa [hv] using hfind
        · simp [hv] at hfind
      split at h
      · cases h
      · split at h
        · cases h
        · split at h
          · cases h
          · rename_i hmem
            cases h
            refine ⟨booking, hsome, ?_, ?_⟩
            · have : cancelledByValues.contains actor.text = true := by simpa using hmem
              simpa using this
            · intro r hr hid
              obtain ⟨x, _, hx⟩ := updateRow_of_id hr hid
              rw [hx]
              exact ⟨rfl, rfl⟩
  · intro owned h
    simp only [applyRowOp, transitionRow] at h
    split at h
    · cases h
    · rename_i booking hfind
      have hsome : findRow rows id [.pending] = some booking := by
        by_cases hv : owned = true
        · simpa [hv] using hfind
        · simp [hv] at hfind
      cases h
      refine ⟨booking, hsome, by decide, ?_⟩
      intro r hr hid
      obtain ⟨x, _, hx⟩ := updateRow_of_id hr hid
      rw [hx]
      exact ⟨rfl, rfl⟩

/-- C29 on the sample booking: cancelled by its user 25 hours before the start,
it holds `user`; rejected by the owner of the venue, it holds `venue`. -/
theorem cancelledBy_is_a_value_of_the_column_witness :
    (∃ booking,
        findRow [sampleBookingRow 1 600 660 .confirmed "TY-20240601-0001"] 1
          [.pending, .confirmed, .paid] = some booking
        ∧ UserType.user.text ∈ cancelledByValues
        ∧ ∀ r ∈ [{ sampleBookingRow 1 600 660 .confirmed "TY-20240601-0001" with
                    status := .cancelled, refundAmount := some (.val 3000),
                    cancelledBy := some "user" }],
            r.id = booking.id → r.status = .cancelled ∧ r.cancelledBy = some UserType.user.text)
    ∧ (∃ booking,
        findRow [sampleBookingRow 1 600 660 .pending "TY-20240601-0001"] 1 [.pending]
          = some booking
        ∧ "venue" ∈ cancelledByValues
        ∧ ∀ r ∈ [{ sampleBookingRow 1 600 660 .pending "TY-20240601-0001" with
                    status := .rejected, cancelledBy := some "venue" }],
            r.id = booking.id → r.status = .rejected ∧ r.cancelledBy = some "venue") :=
  ⟨(cancelledBy_is_a_value_of_the_column ⟨0⟩
      [sampleBookingRow 1 600 660 .confirmed "TY-20240601-0001"]
      [{ sampleBookingRow 1 600 660 .confirmed "TY-20240601-0001" with
          status := .cancelled, refundAmount := some (.val 3000),
          cancelledBy := some "user" }] 1).1 true .user
      (sampleStart - 90000000) (sampleStart - 90000000) (sampleStart - 90000000) (by decide!),
   (cancelledBy_is_a_value_of_the_column ⟨0⟩
      [sampleBookingRow 1 600 660 .pending "TY-20240601-0001"]
      [{ sampleBookingRow 1 600 660 .pending "TY-20240601-0001" with
          status := .rejected, cancelledBy := some "venue" }] 1).2 true (by decide!)⟩

/-- C3, where the claim departs from the code: for base price 1000.01, a
Wednesday afternoon (multiplier 1) and 30 minutes the exact product is 500.005,
whose half-up rounding is 500.01; `calculatePrice` returns 500, because the
number nearest to 1000.01 lies below it and so does the product that `toFixed(2)`
rounds. -/
theorem calculatePrice_half_cent_product_rounds_down :
    Court.calculatePrice ⟨0⟩ (defaultCourt (100001 / 100)) (dateOnly 2024 6 12) "14:00" 30
      = .ok (.fin 500)
    ∧ Court.multiplierAt (defaultCourt (100001 / 100)).priceRules .weekday .afternoon
      = .ok (.fin 1)
    ∧ halfUp2 ((100001 / 100 : ℚ) * 1 * (30 / 60)) = 50001 / 100
    ∧ ((fl (100001 / 100)).mul (.fin 1)).mul ((fl 30).div (fl 60))
      = .fin (4398090491569111 / 8796093022208)
    ∧ (4398090491569111 / 8796093022208 : ℚ) < 500005 / 1000 := by
  refine ⟨by decide!, by decide!, by decide!, by decide!, by norm_num⟩

/-- C3, amended: for every court, valid date, start time `HH:MM` and duration,
`calculatePrice` returns the product `basePrice * multiplier * (duration / 60)`
as binary64 arithmetic evaluates it (each operand and each operation rounded to
the nearest number), rounded half-up to two decimal places once, at the end.
`multiplier` is the one field `priceRules[d][t].multiplier`, with `d` the row
`weekend` when `getDay()` of the date is 6 or 0 and `weekday` otherwise, and `t`
the entry `morning` when `HH < 12`, `night` when `HH ≥ 18` and `afternoon`
otherwise: the duration does not enter the choice. A missing row or entry gives
a `TypeError`, a missing `multiplier` the value `NaN`. -/
theorem calculatePrice_rounds_binary64_product (env : Env) (c : Court) (t : Int) (hh mm : Nat)
    (duration : Int) (hhh : hh < 24) :
    Court.calculatePrice env c (some t) (hhmm hh mm) duration
      = match (if weekDay (localDay env t) = 6 ∨ weekDay (localDay env t) = 0
                then c.priceRules.weekend else c.priceRules.weekday) with
        | none => .error .typeError
        | some row =>
          match (if hh < 12 then row.morning else if 18 ≤ hh then row.night
                  else row.afternoon) with
          | none => .error .typeError
          | some entry =>
            .ok (roundHalfUp2
              (((fl c.basePrice).mul
                  (match entry.multiplier with
                    | some m => fl m
                    | none => .nan)).mul ((fl duration).div (fl 60)))) := by
  rw [calculatePrice_rounds_product_once, parseInt_hhmm hh mm hhh, timeSlotOf_natCast,
    ruleKeyOf_some]
  unfold Court.multiplierAt Court.rowAt Court.entryAt specDayKind specDayPart
  by_cases hw : weekDay (localDay env t) = 6 ∨ weekDay (localDay env t) = 0
  · simp only [hw, if_true]
    cases c.priceRules.weekend with
    | none => rfl
    | some row =>
      by_cases h12 : hh < 12
      · simp only [h12, if_true]
        cases row.morning with
        | none => rfl
        | some entry =>
          obtain ⟨m, _⟩ := entry
          cases m <;> rfl
      · by_cases h18 : 18 ≤ hh
        · simp only [h12, h18, if_true, if_false]
          cases row.night with
          | none => rfl
          | some entry =>
          obtain ⟨m, _⟩ := entry
          cases m <;> rfl
        · simp only [h12, h18, if_false]
          cases row.afternoon with
          | none => rfl
          | some entry =>
          obtain ⟨m, _⟩ := entry
          cases m <;> rfl
  · simp only [hw, if_false]
    cases c.priceRules.weekday with
    | none => rfl
    | some row =>
      by_cases h12 : hh < 12
      · simp only [h12, if_true]
        cases row.morning with
        | none => rfl
        | some entry =>
          obtain ⟨m, _⟩ := entry
          cases m <;> rfl
      · by_cases h18 : 18 ≤ hh
        · simp only [h12, h18, if_true, if_false]
          cases row.night with
          | none => rfl
          | some entry =>
          obtain ⟨m, _⟩ := entry
          cases m <;> rfl
        · simp only [h12, h18, if_false]
          cases row.afternoon with
          | none => rfl
          | some entry =>
          obtain ⟨m, _⟩ := entry
          cases m <;> rfl

/-- C3 amended, at base price 3000 on Saturday 2024-06-15 at 17:30 for 90
minutes, on a host in UTC: the entry is weekend/afternoon (1.2), although the
interval passes 18:00, and the price is 5400. -/
theorem calculatePrice_rounds_binary64_product_witness :
    Court.calculatePrice ⟨0⟩ (defaultCourt 3000) (some (19889 * msPerDay)) (hhmm 17 30) 90
      = .ok (.fin 5400) :=
  (calculatePrice_rounds_binary64_product ⟨0⟩ (defaultCourt 3000) (19889 * msPerDay) 17 30 90
    (by decide)).trans (by decide!)

/-- C4, where the code departs from it: on a host in UTC-03:00 the row of the
table is chosen by the weekday of the day before the calendar date. For Monday
2024-06-17 at 10:00 and base price 3000 the weekend row is read and the price is
3000 (weekend/morning, 1.0), where the weekday row gives 2400 (weekday/morning,
0.8), as it does on a host in UTC. The entry within the row is chosen by the
hour as the claim says: 11:59 is morning, 12:00 and 17:59 are afternoon, 18:00
is night. -/
theorem calculatePrice_reads_row_of_previous_day_west_of_utc :
    weekDay (daysFromCivil 2024 6 17) = 1
    ∧ specDayKind (weekDay (daysFromCivil 2024 6 17)) = .weekday
    ∧ Court.ruleKeyOf ⟨-180⟩ (dateOnly 2024 6 17) = .weekend
    ∧ Court.calculatePrice ⟨-180⟩ (defaultCourt 3000) (dateOnly 2024 6 17) "10:00" 60
      = .ok (.fin 3000)
    ∧ Court.calculatePrice ⟨0⟩ (defaultCourt 3000) (dateOnly 2024 6 17) "10:00" 60
      = .ok (.fin 2400)
    ∧ (∀ (y : Int) (m d : Nat),
        Court.ruleKeyOf ⟨-180⟩ (dateOnly y m d)
          = specDayKind (weekDay (daysFromCivil y m d - 1)))
    ∧ Court.timeSlotOf (parseInt (splitColonHead "11:59")) = .morning
    ∧ Court.timeSlotOf (parseInt (splitColonHead "12:00")) = .afternoon
    ∧ Court.timeSlotOf (parseInt (splitColonHead "17:59")) = .afternoon
    ∧ Court.timeSlotOf (parseInt (splitColonHead "18:00")) = .night := by
  refine ⟨by decide, by decide, by decide, by decide!, by decide!, ?_, by decide!, by decide!,
    by decide!, by decide!⟩
  intro y m d
  unfold dateOnly
  rw [ruleKeyOf_some, localDay_dateOnly_west ⟨-180⟩ _ (by decide) (by decide)]

end TuTurnoYa
